import Mathlib

/-!
# Hockeykalender: calendar generation for the EHL schedule

A shallow embedding of the Go packages `internal/ehl`, `internal/ical` and
`internal/output`, followed by theorems about them.

Modelling conventions

* A Go `string` is a Lean `String` (a sequence of Unicode code points, i.e.
  valid UTF-8); `strings.Builder` is an accumulated `String`.
* `time.Time` is an instant counted in nanoseconds since the Unix epoch;
  `time.Duration` is a count of nanoseconds.
* `time.Now()` is an explicit clock argument: reading `k` of the clock during
  one rendering is `clock k`.
* The file system is an explicit record of operations that may fail; a run
  threads the list of files written so far.
* A Go `map` iterated with `range` yields its entries in an unspecified order;
  the embedding computes the insertion order and results are stated for every
  permutation of it.
-/

namespace Hockeykalender

/-! ## Go standard library: strings -/

/-- Go `strings.Join(elems, sep)`. -/
def Join : List String → String → String
  | [], _ => ""
  | [a], _ => a
  | a :: b :: rest, sep => a ++ sep ++ Join (b :: rest) sep

/-- Scanning loop of Go `strings.Count` for a non-empty `substr`: `skip` is the
number of characters still covered by the occurrence found last (occurrences
are counted without overlap, leftmost first). -/
def countFrom (substr : List Char) : Nat → List Char → Nat
  | _, [] => 0
  | skip + 1, _ :: t => countFrom substr skip t
  | 0, c :: t =>
    if substr.isPrefixOf (c :: t) then 1 + countFrom substr (substr.length - 1) t
    else countFrom substr 0 t

/-- Go `strings.Count(s, substr)`: the number of non-overlapping occurrences of
`substr` in `s`; for an empty `substr` it is the number of code points plus one.
Occurrences are sought among code points, which for valid UTF-8 are the
occurrences among bytes. -/
def Count (s substr : String) : Nat :=
  if substr.data = [] then s.data.length + 1 else countFrom substr.data 0 s.data

/-- Go `strings.HasSuffix(s, suffix)`. -/
def HasSuffix (s suffix : String) : Bool :=
  suffix.data.isSuffixOf s.data

/-! ## Go standard library: time -/

/-- Go `time.Duration`: a count of nanoseconds. -/
abbrev Duration := Int

def Nanosecond : Duration := 1
def Microsecond : Duration := 1000 * Nanosecond
def Millisecond : Duration := 1000 * Microsecond
def Second : Duration := 1000 * Millisecond
def Minute : Duration := 60 * Second
def Hour : Duration := 60 * Minute

/-- Go `time.Time`, as the instant it denotes: nanoseconds since
1970-01-01T00:00:00Z. A Go value holds the instant as the seconds since January
1 of year 1 in an `int64` and the nanoseconds within the second, see
`Time.Representable`. -/
structure Time where
  unixNano : Int
deriving DecidableEq, Repr

/-- Go `unixToInternal`: the seconds from January 1 of year 1 to 1970. -/
def unixToInternal : Int := 62135596800

/-- Go `(*Time).sec`: the seconds since January 1 of year 1. -/
def Time.sec (t : Time) : Int := t.unixNano / 1000000000 + unixToInternal

/-- Go `(*Time).nsec`: the nanoseconds within the second. -/
def Time.nsec (t : Time) : Int := t.unixNano % 1000000000

/-- The instant is one a Go `time.Time` holds: its seconds since year 1 fit an
`int64`. -/
def Time.Representable (t : Time) : Prop :=
  -9223372036854775808 ≤ t.sec ∧ t.sec ≤ 9223372036854775807

instance (t : Time) : Decidable t.Representable := by
  unfold Time.Representable; infer_instance

/-- Go `(*Time).addSec` on the seconds since year 1: the sum, or when the sum
overflows `int64` the largest `int64` for a positive `d` and the negative of it
otherwise. -/
def addSec (sec d : Int) : Int :=
  if -9223372036854775808 ≤ sec + d ∧ sec + d ≤ 9223372036854775807 then sec + d
  else if d > 0 then 9223372036854775807
  else -9223372036854775807

/-- Go `Time.Add`: the duration is split into whole seconds and nanoseconds
(rounding toward zero), the nanoseconds are added and carried, and the seconds
are added by `addSec`, which saturates. -/
def Time.Add (t : Time) (d : Duration) : Time :=
  let dsec := Int.tdiv d 1000000000
  let nsec := t.nsec + Int.tmod d 1000000000
  let dsec := if nsec ≥ 1000000000 then dsec + 1 else if nsec < 0 then dsec - 1 else dsec
  let nsec :=
    if nsec ≥ 1000000000 then nsec - 1000000000
    else if nsec < 0 then nsec + 1000000000
    else nsec
  ⟨(addSec t.sec dsec - unixToInternal) * 1000000000 + nsec⟩

/-- Civil date (year, month, day) of the day that lies `z` days after
1970-01-01, in the proleptic Gregorian calendar. -/
def civilFromDays (z : Int) : Int × Int × Int :=
  let z := z + 719468
  let era := z / 146097
  let doe := z - era * 146097
  let yoe := (doe - doe / 1460 + doe / 36524 - doe / 146096) / 365
  let y := yoe + era * 400
  let doy := doe - (365 * yoe + yoe / 4 - yoe / 100)
  let mp := (5 * doy + 2) / 153
  let d := doy - (153 * mp + 2) / 5 + 1
  let m := if mp < 10 then mp + 3 else mp - 9
  (if m ≤ 2 then y + 1 else y, m, d)

/-- Number of days from 1970-01-01 to the civil date `y`-`m`-`d`. -/
def daysFromCivil (y m d : Int) : Int :=
  let y := if m ≤ 2 then y - 1 else y
  let era := y / 400
  let yoe := y - era * 400
  let doy := (153 * (if m > 2 then m - 3 else m + 9) + 2) / 5 + d - 1
  let doe := yoe * 365 + yoe / 4 - yoe / 100 + doy
  era * 146097 + doe - 719468

/-- Go `time.Date(year, month, day, hour, min, sec, 0, time.UTC)`. -/
def Date (year month day hour min sec : Int) : Time :=
  ⟨(daysFromCivil year month day * 86400 + hour * 3600 + min * 60 + sec) * Second⟩

/-- Go `appendInt` of package `time`: the decimal numeral of `x`, zero-padded
on the left to at least `width` digits, after a minus sign when `x` is
negative. -/
def appendInt (x : Int) (width : Nat) : String :=
  let digits := Nat.toDigits 10 x.natAbs
  let body := String.mk (List.replicate (width - digits.length) '0' ++ digits)
  if x < 0 then "-" ++ body else body

/-- Go `t.UTC().Format("20060102T150405Z")`: year (4 digits), month, day, the
letter T, hour, minute, second (2 digits each), the letter Z. -/
def Time.FormatUTC (t : Time) : String :=
  let sec := t.unixNano / 1000000000
  let days := sec / 86400
  let rem := sec % 86400
  let ymd := civilFromDays days
  appendInt ymd.1 4 ++ appendInt ymd.2.1 2 ++ appendInt ymd.2.2 2 ++ "T" ++
    appendInt (rem / 3600) 2 ++ appendInt (rem % 3600 / 60) 2 ++ appendInt (rem % 60) 2 ++ "Z"

/-! ## Package ehl: types -/

/-- Go `ehl.Team`. -/
structure Team where
  UUID : String
  Code : String
  FullName : String
  ShortName : String
  Score : Int
  Icon : String
deriving DecidableEq, Repr

/-- Go `ehl.Game`. -/
structure Game where
  UUID : String
  StartTime : Time
  State : String
  HomeTeam : Team
  AwayTeam : Team
  Venue : String
deriving DecidableEq, Repr

/-- The Unicode data that `Team.Slug` takes from `strings`, `unicode` and
`golang.org/x/text`: the simple lower-case mapping, canonical decomposition,
membership in the category Mn, and canonical composition. -/
structure UnicodeData where
  ToLower : Char → Char
  NFD : List Char → List Char
  InMn : Char → Bool
  NFC : List Char → List Char

/-- Go `strings.NewReplacer("æ", "ae", "ø", "o").Replace`. -/
def replaceNorwegian (s : List Char) : List Char :=
  s.flatMap fun c => if c = 'æ' then ['a', 'e'] else if c = 'ø' then ['o'] else [c]

/-- Go `(*Team).Slug`. -/
def Team.Slug (u : UnicodeData) (t : Team) : String :=
  let name := t.ShortName.data.map u.ToLower
  let name := replaceNorwegian name
  let result := u.NFC ((u.NFD name).filter fun c => !u.InMn c)
  String.mk (result.map fun c => if c = ' ' then '-' else c)

/-- Go `(*Game).InvolvesTeam`. -/
def Game.InvolvesTeam (g : Game) (teamShortName : String) : Bool :=
  g.HomeTeam.ShortName == teamShortName || g.AwayTeam.ShortName == teamShortName

/-! ## Package ehl: ExtractTeams -/

/-- The statement `if _, exists := seen[t.UUID]; !exists { seen[t.UUID] = t }`
on a map kept as the list of its entries in insertion order. -/
def seenInsert (seen : List (String × Team)) (t : Team) : List (String × Team) :=
  if seen.any (fun e => e.1 == t.UUID) then seen else seen ++ [(t.UUID, t)]

/-- The map `seen` of `ExtractTeams` after its first loop, in insertion order. -/
def extractSeen (games : List Game) : List (String × Team) :=
  games.foldl (fun seen game => seenInsert (seenInsert seen game.HomeTeam) game.AwayTeam) []

/-- Go `ExtractTeams`, with the map ranged over in insertion order. -/
def ExtractTeams (games : List Game) : List Team :=
  (extractSeen games).map fun e => e.2

/-- The results `ExtractTeams` can return: Go ranges over `seen` in an
unspecified order, so any arrangement of the collected teams. -/
def ExtractTeamsResult (games : List Game) (teams : List Team) : Prop :=
  teams.Perm (ExtractTeams games)

/-! ## Package ical: alarms -/

/-- Go `ical.Alarm`, an `int`. -/
abbrev Alarm := Int

def Alarm1Day : Alarm := 0
def Alarm3Hours : Alarm := 1
def Alarm1Hour : Alarm := 2
def Alarm15Min : Alarm := 3

/-- Go `ical.AllAlarms`. -/
def AllAlarms : List Alarm := [Alarm1Day, Alarm3Hours, Alarm1Hour, Alarm15Min]

/-- Go `Alarm.Trigger`. -/
def Alarm.Trigger (a : Alarm) : String :=
  if a = Alarm1Day then "-P1D"
  else if a = Alarm3Hours then "-PT3H"
  else if a = Alarm1Hour then "-PT1H"
  else if a = Alarm15Min then "-PT15M"
  else ""

/-- Go `Alarm.Suffix`. -/
def Alarm.Suffix (a : Alarm) : String :=
  if a = Alarm1Day then "1d"
  else if a = Alarm3Hours then "3h"
  else if a = Alarm1Hour then "1h"
  else if a = Alarm15Min then "15m"
  else ""

/-- Go `Alarm.Duration`. -/
def Alarm.Duration (a : Alarm) : Duration :=
  if a = Alarm1Day then 24 * Hour
  else if a = Alarm3Hours then 3 * Hour
  else if a = Alarm1Hour then 1 * Hour
  else if a = Alarm15Min then 15 * Minute
  else 0

/-- Go `Alarm.Description`. -/
def Alarm.Description (a : Alarm) (matchSummary : String) : String :=
  if a = Alarm1Day then matchSummary ++ " i morgen"
  else if a = Alarm3Hours then matchSummary ++ " om 3 timer"
  else if a = Alarm1Hour then matchSummary ++ " om 1 time"
  else if a = Alarm15Min then matchSummary ++ " om 15 minutter"
  else matchSummary

/-- Go `AlarmSetSuffix`. -/
def AlarmSetSuffix (alarms : List Alarm) : String :=
  if alarms.length = 0 then "" else Join (alarms.map Alarm.Suffix) "-"

/-- Go `FormatVALARM`. -/
def FormatVALARM (alarm : Alarm) (matchSummary : String) : String :=
  "BEGIN:VALARM\r\nTRIGGER:" ++ alarm.Trigger ++ "\r\nACTION:DISPLAY\r\nDESCRIPTION:" ++
    alarm.Description matchSummary ++ "\r\nEND:VALARM"

/-- The inner loop of `GenerateAlarmCombinations` for the index `i`: the alarms
`AllAlarms[j]` with `i&(1<<j) != 0`, appended in the order of `j`. -/
def alarmCombo (i : Nat) : List Alarm :=
  AllAlarms.enum.foldl
    (fun combo ja => if i &&& (1 <<< ja.1) ≠ 0 then combo ++ [ja.2] else combo) []

/-- Go `GenerateAlarmCombinations`. -/
def GenerateAlarmCombinations : List (List Alarm) :=
  (List.range 16).foldl (fun combinations i => combinations ++ [alarmCombo i]) []

/-! ## Package ical: generator -/

/-- Go `ical.GameDuration`. -/
def GameDuration : Duration := 2 * Hour

/-- Go `ical.UIDDomain`. -/
def UIDDomain : String := "ehl.hockeykalender"

/-- Go `filterGamesByTeam`. -/
def filterGamesByTeam (games : List Game) (teamName : String) : List Game :=
  games.foldl
    (fun filtered game =>
      if game.HomeTeam.ShortName == teamName || game.AwayTeam.ShortName == teamName
      then filtered ++ [game] else filtered)
    []

/-- Go `formatEvent`; `now` is the value `time.Now()` returns in it. -/
def formatEvent (now : Time) (game : Game) (alarms : List Alarm) : String :=
  let summary := game.HomeTeam.ShortName ++ " vs " ++ game.AwayTeam.ShortName
  let uid := game.UUID ++ "@" ++ UIDDomain
  let dtstamp := now.FormatUTC
  let dtstart := game.StartTime.FormatUTC
  let dtend := (game.StartTime.Add GameDuration).FormatUTC
  let sb := ""
  let sb := sb ++ "BEGIN:VEVENT\r\n"
  let sb := sb ++ ("UID:" ++ uid ++ "\r\n")
  let sb := sb ++ ("DTSTAMP:" ++ dtstamp ++ "\r\n")
  let sb := sb ++ ("DTSTART:" ++ dtstart ++ "\r\n")
  let sb := sb ++ ("DTEND:" ++ dtend ++ "\r\n")
  let sb := sb ++ ("SUMMARY:" ++ summary ++ "\r\n")
  let sb := sb ++ ("LOCATION:" ++ game.Venue ++ "\r\n")
  let sb := alarms.foldl (fun sb alarm => sb ++ FormatVALARM alarm summary ++ "\r\n") sb
  let sb := sb ++ "END:VEVENT\r\n"
  sb

/-- Go `GenerateCalendar`; `clock k` is the value of `time.Now()` while the
event number `k` (from 0) of this calendar is rendered. -/
def GenerateCalendar (clock : Nat → Time) (games : List Game) (teamFilter : String)
    (alarms : List Alarm) (seasonName : String) : String :=
  let filteredGames := if teamFilter ≠ "" then filterGamesByTeam games teamFilter else games
  let sb := ""
  let sb := sb ++ "BEGIN:VCALENDAR\r\n"
  let sb := sb ++ "VERSION:2.0\r\n"
  let sb := sb ++ "PRODID:-//Hockeykalender//EHL//NO\r\n"
  let sb := sb ++ "CALSCALE:GREGORIAN\r\n"
  let sb := sb ++ "METHOD:PUBLISH\r\n"
  let calName := if teamFilter ≠ "" then teamFilter ++ " - EHL " ++ seasonName
    else "EHL " ++ seasonName
  let sb := sb ++ ("X-WR-CALNAME:" ++ calName ++ "\r\n")
  let sb := filteredGames.enum.foldl
    (fun sb kg => sb ++ formatEvent (clock kg.1) kg.2 alarms) sb
  let sb := sb ++ "END:VCALENDAR\r\n"
  sb

/-! ## Package output: writer -/

/-- Go `error` values: a message, and the error a `%w` verb wrapped, if any. -/
inductive GoError where
  | base (msg : String)
  | wrapping (msg : String) (inner : GoError)
deriving DecidableEq, Repr

/-- Go `err.Error()`. -/
def GoError.Error : GoError → String
  | .base msg => msg
  | .wrapping msg _ => msg

/-- Go `errors.Unwrap(err)`. -/
def GoError.Unwrap : GoError → Option GoError
  | .base _ => none
  | .wrapping _ inner => some inner

/-- Go `fmt.Errorf(text + "%w", err)` for a format whose last verb is `%w` and
whose text before it is already filled in. -/
def Errorf (text : String) (err : GoError) : GoError :=
  .wrapping (text ++ err.Error) err

/-- The operating system as the writer uses it. `WriteFile written path content`
is the outcome of `os.WriteFile(path, content, 0644)` when `written` lists the
(path, content) pairs this run has written before; `none` means success. -/
structure FileSystem where
  MkdirAll : String → Option GoError
  Join : String → String → String
  WriteFile : List (String × String) → String → String → Option GoError

/-- Go `output.Stats`. -/
structure Stats where
  FilesWritten : Nat
  TotalBytes : Nat
deriving DecidableEq, Repr

/-- Go `output.Filename`. -/
def Filename (slug : String) (alarms : List Alarm) : String :=
  let suffix := AlarmSetSuffix alarms
  if suffix = "" then slug ++ ".ics" else slug ++ "-" ++ suffix ++ ".ics"

/-- State of a run of `GenerateAllCalendars`: the statistics so far and the
(filename, content) pairs written so far, oldest first. -/
structure RunState where
  stats : Stats
  written : List (String × String)
deriving DecidableEq, Repr

/-- Go `WriteCalendar`, given the files the run has written so far. -/
def WriteCalendar (fs : FileSystem) (written : List (String × String))
    (dir filename content : String) : Option GoError :=
  fs.WriteFile (written.map fun fc => (fs.Join dir fc.1, fc.2)) (fs.Join dir filename) content

/-- One loop `for _, alarms := range alarmCombos { ... }` of
`GenerateAllCalendars`, for the team filter `teamFilter` and the file stem
`slug`; it stops at the first write that fails. `clocks n` is the clock during
the rendering that follows `n` written files. -/
def writeCombos (fs : FileSystem) (clocks : Nat → Nat → Time) (dir : String)
    (games : List Game) (seasonName teamFilter slug : String) :
    List (List Alarm) → RunState → RunState × Option GoError
  | [], st => (st, none)
  | alarms :: rest, st =>
    let content := GenerateCalendar (clocks st.written.length) games teamFilter alarms seasonName
    let filename := Filename slug alarms
    match WriteCalendar fs st.written dir filename content with
    | some err => (st, some (Errorf ("failed to write " ++ filename ++ ": ") err))
    | none =>
      writeCombos fs clocks dir games seasonName teamFilter slug rest
        { stats := { FilesWritten := st.stats.FilesWritten + 1,
                     TotalBytes := st.stats.TotalBytes + content.utf8ByteSize },
          written := st.written ++ [(filename, content)] }

/-- The loop `for _, team := range teams { ... }` of `GenerateAllCalendars`. -/
def writeTeams (u : UnicodeData) (fs : FileSystem) (clocks : Nat → Nat → Time) (dir : String)
    (games : List Game) (seasonName : String) (alarmCombos : List (List Alarm)) :
    List Team → RunState → RunState × Option GoError
  | [], st => (st, none)
  | team :: rest, st =>
    let slug := team.Slug u
    match writeCombos fs clocks dir games seasonName team.ShortName slug alarmCombos st with
    | (st, some err) => (st, some err)
    | (st, none) => writeTeams u fs clocks dir games seasonName alarmCombos rest st

/-- Go `GenerateAllCalendars`: the returned `Stats` and error together with the
files written, in the order of writing. -/
def GenerateAllCalendars (u : UnicodeData) (fs : FileSystem) (clocks : Nat → Nat → Time)
    (dir : String) (games : List Game) (teams : List Team) (seasonName : String) :
    RunState × Option GoError :=
  let st : RunState := { stats := { FilesWritten := 0, TotalBytes := 0 }, written := [] }
  match fs.MkdirAll dir with
  | some err => (st, some (Errorf "failed to create output directory: " err))
  | none =>
    let alarmCombos := GenerateAlarmCombinations
    match writeTeams u fs clocks dir games seasonName alarmCombos teams st with
    | (st, some err) => (st, some err)
    | (st, none) => writeCombos fs clocks dir games seasonName "" "ehl" alarmCombos st

/-! ## Notions used in the statements -/

/-- The teams of a game list in the order `ExtractTeams` meets them: games in
list order, the home team before the away team. -/
def teamsInOrder (games : List Game) : List Team :=
  games.flatMap fun g => [g.HomeTeam, g.AwayTeam]

/-- The six header lines of a calendar. -/
def calendarHeader (teamFilter seasonName : String) : String :=
  "BEGIN:VCALENDAR\r\n" ++ "VERSION:2.0\r\n" ++ "PRODID:-//Hockeykalender//EHL//NO\r\n" ++
    "CALSCALE:GREGORIAN\r\n" ++ "METHOD:PUBLISH\r\n" ++
    ((if teamFilter = "" then "X-WR-CALNAME:EHL " ++ seasonName
      else "X-WR-CALNAME:" ++ teamFilter ++ " - EHL " ++ seasonName) ++ "\r\n")

/-- The event blocks of a list of games, event `k` rendered at `clock k`. -/
def eventBlocks (clock : Nat → Time) (alarms : List Alarm) (games : List Game) : List String :=
  games.enum.map fun kg => formatEvent (clock kg.1) kg.2 alarms

/-- Concatenation of a list of strings. -/
def concat (parts : List String) : String :=
  String.mk (parts.flatMap String.data)

/-- Go `strings.Contains(s, substr)`. -/
def Contains (s substr : String) : Prop := substr.data <:+: s.data

instance (s substr : String) : Decidable (Contains s substr) := by
  unfold Contains; infer_instance

/-- The marker the tests count: the characters of `BEGIN:VEVENT`. -/
def vevent : List Char := "BEGIN:VEVENT".data

/-- A piece of text is inert when putting it in front of any text leaves the
number of `BEGIN:VEVENT` occurrences counted unchanged. -/
def Inert (a : List Char) : Prop :=
  ∀ rest, countFrom vevent 0 (a ++ rest) = countFrom vevent 0 rest

/-- The texts of a game that `formatEvent` copies into its output. -/
def Game.Texts (g : Game) : List String :=
  [g.UUID, g.HomeTeam.ShortName, g.AwayTeam.ShortName, g.Venue]

/-- The characters a formatted time can consist of. -/
def timeChars : List Char := "-0123456789TZ".data

/-- Every line feed of the text is immediately preceded by a carriage return:
whenever the text splits around a line feed, the part before it ends in a
carriage return. -/
def LFAfterCR (l : List Char) : Prop :=
  ∀ pre post, l = pre ++ '\n' :: post → ∃ pre', pre = pre' ++ ['\r']

/-- Executable check of `LFAfterCR`: `prev` is the character before the text. -/
def lfAfterCRFrom : Char → List Char → Bool
  | _, [] => true
  | prev, c :: t => (c != '\n' || prev == '\r') && lfAfterCRFrom c t

/-- The sub-list of the games whose home or away short name is `teamFilter`. -/
def gamesOfTeam (games : List Game) (teamFilter : String) : List Game :=
  games.filter fun g =>
    decide (g.HomeTeam.ShortName = teamFilter ∨ g.AwayTeam.ShortName = teamFilter)

/-- The names `GenerateAllCalendars` is to write, in the order of writing. -/
def allFilenames (u : UnicodeData) (teams : List Team) : List String :=
  teams.flatMap (fun team => GenerateAlarmCombinations.map (Filename (team.Slug u))) ++
    GenerateAlarmCombinations.map (Filename "ehl")

/-- Gregorian leap years. -/
def isLeapYear (y : Int) : Bool :=
  decide (y % 4 = 0 ∧ (y % 100 ≠ 0 ∨ y % 400 = 0))

/-- Number of days of month `m` in year `y`. -/
def daysInMonth (y m : Int) : Int :=
  if m = 2 then (if isLeapYear y then 29 else 28)
  else if m = 4 ∨ m = 6 ∨ m = 9 ∨ m = 11 then 30 else 31

/-- A civil date and time of day that exists in the Gregorian calendar. -/
def ValidCivil (y m d hh mm ss : Int) : Prop :=
  1 ≤ m ∧ m ≤ 12 ∧ 1 ≤ d ∧ d ≤ daysInMonth y m ∧
    0 ≤ hh ∧ hh ≤ 23 ∧ 0 ≤ mm ∧ mm ≤ 59 ∧ 0 ≤ ss ∧ ss ≤ 59

instance (y m d hh mm ss : Int) : Decidable (ValidCivil y m d hh mm ss) := by
  unfold ValidCivil; infer_instance

/-- The civil date and hour two hours after hour `hh` of the date `y`-`m`-`d`. -/
def twoHoursLater (y m d hh : Int) : Int × Int × Int × Int :=
  if hh + 2 ≤ 23 then (y, m, d, hh + 2)
  else if d + 1 ≤ daysInMonth y m then (y, m, d + 1, hh - 22)
  else if m + 1 ≤ 12 then (y, m + 1, 1, hh - 22)
  else (y + 1, 1, 1, hh - 22)

/-! ## Sample inputs -/

/-- The games of `makeTestGames` in `generator_test.go`. -/
def makeTestGames : List Game :=
  [ { UUID := "game-1", StartTime := Date 2025 9 11 17 0 0, State := "pre-game",
      HomeTeam := { UUID := "team-vif", Code := "VIF", FullName := "", ShortName := "Vålerenga",
                    Score := 0, Icon := "" },
      AwayTeam := { UUID := "team-sth", Code := "STH", FullName := "", ShortName := "Storhamar",
                    Score := 0, Icon := "" },
      Venue := "Jordal Amfi" },
    { UUID := "game-2", StartTime := Date 2025 9 12 18 0 0, State := "pre-game",
      HomeTeam := { UUID := "team-sth", Code := "STH", FullName := "", ShortName := "Storhamar",
                    Score := 0, Icon := "" },
      AwayTeam := { UUID := "team-vif", Code := "VIF", FullName := "", ShortName := "Vålerenga",
                    Score := 0, Icon := "" },
      Venue := "CC Amfi" },
    { UUID := "game-3", StartTime := Date 2025 9 13 19 0 0, State := "pre-game",
      HomeTeam := { UUID := "team-fri", Code := "FRI", FullName := "", ShortName := "Frisk Asker",
                    Score := 0, Icon := "" },
      AwayTeam := { UUID := "team-oil", Code := "OIL", FullName := "", ShortName := "Stavanger Oilers",
                    Score := 0, Icon := "" },
      Venue := "Askerhallen" } ]

/-- Two games in which the UUID `team-sth` comes with two different names. -/
def renamedTeamGames : List Game :=
  [ { UUID := "g1", StartTime := Date 2025 9 11 17 0 0, State := "pre-game",
      HomeTeam := { UUID := "team-vif", Code := "VIF", FullName := "", ShortName := "Vålerenga",
                    Score := 0, Icon := "" },
      AwayTeam := { UUID := "team-sth", Code := "STH", FullName := "", ShortName := "Storhamar",
                    Score := 0, Icon := "" },
      Venue := "Jordal Amfi" },
    { UUID := "g2", StartTime := Date 2025 9 12 18 0 0, State := "pre-game",
      HomeTeam := { UUID := "team-sth", Code := "SHD", FullName := "", ShortName := "Storhamar Dragons",
                    Score := 3, Icon := "x.png" },
      AwayTeam := { UUID := "team-vif", Code := "VIF", FullName := "", ShortName := "Vålerenga",
                    Score := 1, Icon := "" },
      Venue := "CC Amfi" } ]

/-- A game that starts one hour before the last second a `time.Time` holds
(`time.Unix(1<<63-1-62135596800-3600, 0)`). -/
def lateGame : Game :=
  { UUID := "late", StartTime := ⟨(9223372036854775807 - 62135596800 - 3600) * 1000000000⟩,
    State := "pre-game",
    HomeTeam := { UUID := "team-vif", Code := "VIF", FullName := "", ShortName := "Vålerenga",
                  Score := 0, Icon := "" },
    AwayTeam := { UUID := "team-sth", Code := "STH", FullName := "", ShortName := "Storhamar",
                  Score := 0, Icon := "" },
    Venue := "Jordal Amfi" }

/-- A clock that always shows 2025-09-01T12:00:00Z. -/
def fixedClock : Nat → Time := fun _ => Date 2025 9 1 12 0 0

/-- A file system on which every operation succeeds. -/
def okFileSystem : FileSystem :=
  { MkdirAll := fun _ => none
    Join := fun dir name => dir ++ "/" ++ name
    WriteFile := fun _ _ _ => none }

/-- Unicode data that are exact on ASCII text: ASCII letters are lower-cased,
nothing decomposes or composes, no character is a mark. -/
def asciiData : UnicodeData :=
  { ToLower := Char.toLower
    NFD := id
    InMn := fun _ => false
    NFC := id }

/-- The two teams of `TestGenerateAllCalendars`, with ASCII names. -/
def sampleTeams : List Team :=
  [ { UUID := "team-fri", Code := "FRI", FullName := "", ShortName := "Frisk Asker",
      Score := 0, Icon := "" },
    { UUID := "team-sth", Code := "STH", FullName := "", ShortName := "Storhamar",
      Score := 0, Icon := "" } ]

/-- Two different teams (different UUIDs) that carry the same short name. -/
def sameNameTeams : List Team :=
  [ { UUID := "team-oil", Code := "OIL", FullName := "Stavanger Oilers", ShortName := "Oilers",
      Score := 0, Icon := "" },
    { UUID := "team-edm", Code := "EDM", FullName := "Edmonton Oilers", ShortName := "Oilers",
      Score := 0, Icon := "" } ]

/-- A team whose short name is the league's abbreviation. -/
def leagueNamedTeam : List Team :=
  [ { UUID := "team-ehl", Code := "EHL", FullName := "", ShortName := "EHL",
      Score := 0, Icon := "" } ]

/-- Two teams with different slugs, one of which ends in an alarm suffix. -/
def suffixNamedTeams : List Team :=
  [ { UUID := "team-a", Code := "A", FullName := "", ShortName := "Oilers",
      Score := 0, Icon := "" },
    { UUID := "team-b", Code := "B", FullName := "", ShortName := "Oilers 1d",
      Score := 0, Icon := "" } ]

/-! ## Unicode data for Latin-1 text -/

/-- The canonical decompositions of the upper-case letters of the Latin-1
Supplement (code point, base letter, combining mark), from the Unicode
Character Database; the lower-case letters U+00E0..U+00FD decompose alike, 32
code points further on, and U+00FF is `y` with U+0308. -/
def latin1Decompositions : List (Nat × Nat × Nat) :=
  [ (0xC0, 0x41, 0x300), (0xC1, 0x41, 0x301), (0xC2, 0x41, 0x302), (0xC3, 0x41, 0x303),
    (0xC4, 0x41, 0x308), (0xC5, 0x41, 0x30A), (0xC7, 0x43, 0x327),
    (0xC8, 0x45, 0x300), (0xC9, 0x45, 0x301), (0xCA, 0x45, 0x302), (0xCB, 0x45, 0x308),
    (0xCC, 0x49, 0x300), (0xCD, 0x49, 0x301), (0xCE, 0x49, 0x302), (0xCF, 0x49, 0x308),
    (0xD1, 0x4E, 0x303),
    (0xD2, 0x4F, 0x300), (0xD3, 0x4F, 0x301), (0xD4, 0x4F, 0x302), (0xD5, 0x4F, 0x303),
    (0xD6, 0x4F, 0x308),
    (0xD9, 0x55, 0x300), (0xDA, 0x55, 0x301), (0xDB, 0x55, 0x302), (0xDC, 0x55, 0x308),
    (0xDD, 0x59, 0x301) ]

/-- Go `unicode.ToLower` on code points below U+0100. -/
def latin1ToLower (c : Char) : Char :=
  if (0x41 ≤ c.toNat ∧ c.toNat ≤ 0x5A) ∨ (0xC0 ≤ c.toNat ∧ c.toNat ≤ 0xDE ∧ c.toNat ≠ 0xD7)
  then Char.ofNat (c.toNat + 32) else c

/-- Canonical decomposition of one code point below U+0100. -/
def latin1Decompose (c : Char) : List Char :=
  match latin1Decompositions.find? (fun e => e.1 = c.toNat) with
  | some e => [Char.ofNat e.2.1, Char.ofNat e.2.2]
  | none =>
    match latin1Decompositions.find? (fun e => e.1 + 32 = c.toNat) with
    | some e => [Char.ofNat (e.2.1 + 32), Char.ofNat e.2.2]
    | none => if c.toNat = 0xFF then ['y', Char.ofNat 0x308] else [c]

/-- Unicode data that are exact on text whose code points all lie below U+0100
(ASCII and the Latin-1 Supplement): such text holds no combining mark, so
canonical decomposition works letter by letter, the marks it produces are the
combining diacritical marks U+0300..U+036F, all of category Mn, no code point
below U+0100 is of category Mn, and text without marks is already composed. -/
def latin1Data : UnicodeData :=
  { ToLower := latin1ToLower
    NFD := fun s => s.flatMap latin1Decompose
    InMn := fun c => decide (0x300 ≤ c.toNat ∧ c.toNat ≤ 0x36F)
    NFC := id }

/-! ## Notions for the slug -/

/-- Step 1 of the slug as the specification words it: lower-case the name. -/
def slugLowercase (u : UnicodeData) (name : List Char) : List Char :=
  name.map u.ToLower

/-- Step 2: replace `æ` by `ae`, then `ø` by `o`. -/
def slugSubstitute (name : List Char) : List Char :=
  (name.flatMap fun c => if c = 'æ' then ['a', 'e'] else [c]).flatMap
    fun c => if c = 'ø' then ['o'] else [c]

/-- Step 3: decompose, strip the combining marks, recompose. -/
def slugStripMarks (u : UnicodeData) (name : List Char) : List Char :=
  u.NFC ((u.NFD name).filter fun c => !u.InMn c)

/-- Step 4: replace every space by a hyphen. -/
def slugHyphenate (name : List Char) : List Char :=
  name.map fun c => if c = ' ' then '-' else c

/-- The letters of the Latin-1 Supplement that the slug turns into ASCII: those
with a canonical decomposition, and `Æ`, `Ø`, `æ`, `ø`. -/
def accentedLetters : List Char :=
  "ÀÁÂÃÄÅÆÇÈÉÊËÌÍÎÏÑÒÓÔÕÖØÙÚÛÜÝàáâãäåæçèéêëìíîïñòóôõöøùúûüýÿ".data

/-- A team with the short name `name` and nothing else. -/
def teamNamed (name : String) : Team :=
  { UUID := "", Code := "", FullName := "", ShortName := name, Score := 0, Icon := "" }

/-! ## Go standard library: strconv and fmt -/

/-- The value of a decimal digit character. -/
def digitValue (c : Char) : Nat := c.toNat - '0'.toNat

/-- The character is one of `0` to `9`. -/
def isDecimal (c : Char) : Bool := decide ('0'.toNat ≤ c.toNat ∧ c.toNat ≤ '9'.toNat)

/-- The number a run of decimal digits denotes. -/
def digitsValue (digits : List Char) : Nat :=
  digits.foldl (fun acc c => acc * 10 + digitValue c) 0

/-- Go `strconv.Itoa`: the decimal numeral of `n`, with a minus sign when `n` is
negative. -/
def Itoa (n : Int) : String :=
  if n < 0 then "-" ++ String.mk (Nat.toDigits 10 n.natAbs)
  else String.mk (Nat.toDigits 10 n.natAbs)

/-- The range of Go `int` (64 bits). -/
def inIntRange (n : Int) : Bool := decide (-9223372036854775808 ≤ n ∧ n ≤ 9223372036854775807)

/-- Go `isSpace` of package `fmt`. -/
def isSpace (c : Char) : Bool :=
  let r := c.toNat
  (0x0009 ≤ r && r ≤ 0x000d) || r = 0x0020 || r = 0x0085 || r = 0x00a0 || r = 0x1680 ||
    (0x2000 ≤ r && r ≤ 0x200a) || (0x2028 ≤ r && r ≤ 0x2029) || r = 0x202f || r = 0x205f ||
    r = 0x3000

/-- Go `(*ss).SkipSpace` as `Sscanf` runs it: blanks are skipped, a line feed is
an error (`none`). -/
def skipSpace : List Char → Option (List Char)
  | [] => some []
  | c :: rest =>
    if c = '\n' then none
    else if isSpace c then skipSpace rest
    else some (c :: rest)

/-- Go `fmt.Sscanf(str, "%d", &x)`: the value stored in `x`, or `none` when the
call fails and leaves `x` as it was. After leading blanks it reads an optional
sign and the longest run of decimal digits, which must not be empty and must
denote a number in the range of `int`; what follows the digits is not looked
at. -/
def SscanfInt (str : String) : Option Int :=
  match skipSpace str.data with
  | none => none
  | some input =>
    let negative := input.head? = some '-'
    let unsigned := if input.head? = some '+' ∨ input.head? = some '-' then input.tail else input
    let digits := unsigned.takeWhile isDecimal
    if digits = [] then none
    else
      let value : Int := if negative then -(digitsValue digits : Int) else digitsValue digits
      if inIntRange value then some value else none

/-! ## Go standard library: encoding/json -/

/-- A JSON text by its structure, as `encoding/json` sees it. A number written
without fraction and exponent is `int`, any other number is `real` with its
literal; the members of an object are kept in the order of the text. -/
inductive JSON where
  | null
  | bool (b : Bool)
  | int (n : Int)
  | real (literal : String)
  | str (s : String)
  | arr (elems : List JSON)
  | obj (members : List (String × JSON))

/-- The error of `encoding/json` for a value that does not fit the Go type
(`*json.UnmarshalTypeError`); which value and type it names is not modelled. -/
def jsonTypeError : GoError := .base "json: cannot unmarshal value into Go value"

/-- Simple case folding of one character of a member name, exact when the other
name is ASCII: ASCII upper-case letters fold to lower case, the Kelvin sign to
`k` and the long s to `s`. -/
def foldRune (c : Char) : Char :=
  if 'A' ≤ c ∧ c ≤ 'Z' then Char.ofNat (c.toNat + 32)
  else if c.toNat = 0x212A then 'k'
  else if c.toNat = 0x17F then 's'
  else c

/-- Go `strings.EqualFold(field, key)` for an ASCII `field`. -/
def equalFold (field key : String) : Bool :=
  field.data.map foldRune == key.data.map foldRune

/-- The struct field a member named `key` is decoded into: the field of that
exact name, otherwise the first field whose name equals `key` under case
folding, otherwise none (the member is skipped). -/
def matchField (fields : List String) (key : String) : Option String :=
  if key ∈ fields then some key else fields.find? fun field => equalFold field key

/-- Decoding a JSON value into a Go `string` that holds `cur`. -/
def decodeString (cur : String) : JSON → Except GoError String
  | .str s => .ok s
  | .null => .ok cur
  | _ => .error jsonTypeError

/-- Decoding a JSON value into a Go `int` that holds `cur`. -/
def decodeInt (cur : Int) : JSON → Except GoError Int
  | .int n => if inIntRange n then .ok n else .error jsonTypeError
  | .null => .ok cur
  | _ => .error jsonTypeError

/-- Decoding a JSON value into a Go struct that holds `cur`: the members of an
object are decoded one after the other, each into the field `matchField` names,
by `set`; `null` leaves the struct as it is. -/
def decodeObject {σ : Type} (fields : List String)
    (set : String → σ → JSON → Except GoError σ) (cur : σ) : JSON → Except GoError σ
  | .obj members =>
    members.foldlM
      (fun s member =>
        match matchField fields member.1 with
        | some field => set field s member.2
        | none => .ok s)
      cur
  | .null => .ok cur
  | _ => .error jsonTypeError

/-- Decoding a JSON value into a Go slice that holds `cur`: element `i` of an
array is decoded into element `i` of the slice, or into a zero value when the
slice is shorter; `null` gives the nil slice. -/
def decodeSlice {ε : Type} (zero : ε) (decode : ε → JSON → Except GoError ε)
    (cur : List ε) : JSON → Except GoError (List ε)
  | .arr elems => elems.enum.mapM fun ie => decode (cur.getD ie.1 zero) ie.2
  | .null => .ok []
  | _ => .error jsonTypeError

/-! ## Go standard library: time.Parse -/

/-- Go `getnum` of package `time`: a number of two digits, or of one digit when
`fixed` is false and no second digit follows. -/
def getnum (s : List Char) (fixed : Bool) : Option (Int × List Char) :=
  match s with
  | [] => none
  | a :: rest =>
    if !isDecimal a then none
    else
      match rest with
      | [] => if fixed then none else some ((digitValue a : Int), [])
      | b :: rest2 =>
        if isDecimal b then some ((digitValue a * 10 + digitValue b : Int), rest2)
        else if fixed then none
        else some ((digitValue a : Int), b :: rest2)

/-- Go `atoi` of package `time` on a short text: an optional sign, then digits
only. -/
def atoi (s : List Char) : Option Int :=
  let negative := s.head? = some '-'
  let unsigned := if s.head? = some '-' ∨ s.head? = some '+' then s.tail else s
  if unsigned.all isDecimal then
    some (if negative then -(digitsValue unsigned : Int) else digitsValue unsigned)
  else none

/-- Go `skip(value, prefix)` of package `time` for a one-character `prefix`
that is not a space. -/
def skipChar (value : List Char) (c : Char) : Option (List Char) :=
  match value with
  | [] => none
  | a :: rest => if a = c then some rest else none

/-- The chunk `2006` of the layout: exactly four digits. -/
def parseYear (value : List Char) : Option (Int × List Char) :=
  if value.length < 4 ∨ !(value.head?.map isDecimal).getD false then none
  else
    match atoi (value.take 4) with
    | none => none
    | some year => some (year, value.drop 4)

/-- A literal character of the layout followed by a two-digit chunk (`-01`,
`-02`, `:04`, `:05`) or, when `fixed` is false, the chunk `15` after `T`, which
`time.Parse` reads with one or two digits. -/
def parseField (value : List Char) (c : Char) (fixed : Bool) : Option (Int × List Char) :=
  match skipChar value c with
  | none => none
  | some rest => getnum rest fixed

/-- The chunk `.000` of the layout: a period or comma and three more
characters that `atoi` reads as a number that is not negative, in
milliseconds. -/
def parseMillis (value : List Char) : Option (Int × List Char) :=
  if value.length < 4 then none
  else if !(value.head? = some '.' ∨ value.head? = some ',') then none
  else
    match atoi ((value.drop 1).take 3) with
    | none => none
    | some ns => if ns < 0 then none else some (ns, value.drop 4)

/-- The date part `2006-01-02` of the layout; the month must be in range, the
day is checked at the end. -/
def parseDate (value : List Char) : Option ((Int × Int × Int) × List Char) :=
  match parseYear value with
  | none => none
  | some (year, rest) =>
    match parseField rest '-' true with
    | none => none
    | some (month, rest) =>
      if month ≤ 0 ∨ 12 < month then none
      else
        match parseField rest '-' true with
        | none => none
        | some (day, rest) => some ((year, month, day), rest)

/-- The clock part `T15:04:05` of the layout, each number in range. -/
def parseClock (value : List Char) : Option ((Int × Int × Int) × List Char) :=
  match parseField value 'T' false with
  | none => none
  | some (hour, rest) =>
    if hour < 0 ∨ 24 ≤ hour then none
    else
      match parseField rest ':' true with
      | none => none
      | some (min, rest) =>
        if min < 0 ∨ 60 ≤ min then none
        else
          match parseField rest ':' true with
          | none => none
          | some (sec, rest) =>
            if sec < 0 ∨ 60 ≤ sec then none else some ((hour, min, sec), rest)

/-- Go `time.Parse("2006-01-02T15:04:05.000Z", value)`, chunk by chunk: the
date, the clock, the milliseconds, the letter `Z` and nothing more; at last the
day must exist in its month. `none` stands for an error. -/
def parseLayout (value : List Char) : Option Time :=
  match parseDate value with
  | none => none
  | some (ymd, rest) =>
    match parseClock rest with
    | none => none
    | some (hms, rest) =>
      match parseMillis rest with
      | none => none
      | some (ms, rest) =>
        if rest ≠ ['Z'] then none
        else if ymd.2.2 < 1 ∨ ymd.2.2 > daysInMonth ymd.1 ymd.2.1 then none
        else some ⟨(Date ymd.1 ymd.2.1 ymd.2.2 hms.1 hms.2.1 hms.2.2).unixNano + ms * 1000000⟩

/-- The error `time.Parse` returns (`*time.ParseError`); its text is not
modelled. -/
def timeParseError : GoError := .base "parsing time: cannot parse"

/-- Go `time.Parse("2006-01-02T15:04:05.000Z", value)`. -/
def ParseStartTime (value : String) : Except GoError Time :=
  match parseLayout value.data with
  | some t => .ok t
  | none => .error timeParseError

/-- The numeral of `n` with exactly `width` decimal digits, zero-padded on the
left (the last `width` digits of `n`). -/
def decimal : Nat → Nat → List Char
  | 0, _ => []
  | width + 1, n => decimal width (n / 10) ++ [Nat.digitChar (n % 10)]

/-! ## Package ehl: decoding -/

/-- Go `ehl.Season`. -/
structure Season where
  UUID : String
  Name : String
deriving DecidableEq, Repr

/-- Go `ehl.Translation`. -/
structure Translation where
  Language : String
  Translation : String
deriving DecidableEq, Repr

/-- Go `ehl.seasonJSON`. -/
structure seasonJSON where
  UUID : String
  Names : List Translation
deriving DecidableEq, Repr

/-- How `encoding/json` decodes a JSON value into a `Translation`, by the tags
`language` and `translation`. -/
def decodeTranslation (cur : Translation) (data : JSON) : Except GoError Translation :=
  decodeObject ["language", "translation"]
    (fun field s v =>
      if field = "language" then
        (decodeString s.Language v).map fun x => { s with Language := x }
      else
        (decodeString s.Translation v).map fun x => { s with Translation := x })
    cur data

/-- How `encoding/json` decodes a JSON value into a `seasonJSON`, by the tags
`uuid` and `names`. -/
def decodeSeasonJSON (cur : seasonJSON) (data : JSON) : Except GoError seasonJSON :=
  decodeObject ["uuid", "names"]
    (fun field s v =>
      if field = "uuid" then
        (decodeString s.UUID v).map fun x => { s with UUID := x }
      else
        (decodeSlice { Language := "", Translation := "" } decodeTranslation s.Names v).map
          fun x => { s with Names := x })
    cur data

/-- The loop of `Season.UnmarshalJSON` over the names, started with the name
the season holds: the first entry in Norwegian ends it, before that an entry is
taken while the name is empty. -/
def seasonNameLoop (name : String) : List Translation → String
  | [] => name
  | n :: rest =>
    if n.Language = "no" then n.Translation
    else seasonNameLoop (if name = "" then n.Translation else name) rest

/-- Go `(*Season).UnmarshalJSON`: the season after the call on the season `s`,
or the error. -/
def Season.UnmarshalJSON (s : Season) (data : JSON) : Except GoError Season :=
  match decodeSeasonJSON { UUID := "", Names := [] } data with
  | .error err => .error err
  | .ok sj => .ok { UUID := sj.UUID, Name := seasonNameLoop s.Name sj.Names }

/-- The anonymous struct `Names` of `teamJSON`. -/
structure teamNames where
  Full : String
  Short : String
deriving DecidableEq, Repr

/-- Go `ehl.teamJSON`; `Score` is the `json.RawMessage`, `none` when empty. -/
structure teamJSON where
  UUID : String
  Code : String
  Names : teamNames
  Score : Option JSON
  Icon : String

/-- How `encoding/json` decodes a JSON value into the struct `Names`. -/
def decodeTeamNames (cur : teamNames) (data : JSON) : Except GoError teamNames :=
  decodeObject ["full", "short"]
    (fun field s v =>
      if field = "full" then (decodeString s.Full v).map fun x => { s with Full := x }
      else (decodeString s.Short v).map fun x => { s with Short := x })
    cur data

/-- The member names of `teamJSON`, in the order of its fields. -/
def teamFields : List String := ["uuid", "code", "names", "score", "icon"]

/-- Decoding of one member of a team object into the field `field`; the raw
message `score` takes any value as it is. -/
def setTeamField (field : String) (s : teamJSON) (v : JSON) : Except GoError teamJSON :=
  if field = "uuid" then (decodeString s.UUID v).map fun x => { s with UUID := x }
  else if field = "code" then (decodeString s.Code v).map fun x => { s with Code := x }
  else if field = "names" then (decodeTeamNames s.Names v).map fun x => { s with Names := x }
  else if field = "score" then .ok { s with Score := some v }
  else (decodeString s.Icon v).map fun x => { s with Icon := x }

/-- How `encoding/json` decodes a JSON value into a `teamJSON`, by its tags. -/
def decodeTeamJSON (cur : teamJSON) (data : JSON) : Except GoError teamJSON :=
  decodeObject teamFields setTeamField cur data

/-- The zero value of `teamJSON`. -/
def zeroTeamJSON : teamJSON :=
  { UUID := "", Code := "", Names := { Full := "", Short := "" }, Score := none, Icon := "" }

/-- The score handling of `Team.UnmarshalJSON`: the score after it, for the
score `cur` before it and the raw message `raw`. -/
def decodeScore (cur : Int) (raw : Option JSON) : Int :=
  match raw with
  | none => cur
  | some v =>
    match decodeInt 0 v with
    | .ok scoreInt => scoreInt
    | .error _ =>
      match decodeString "" v with
      | .ok scoreStr => (SscanfInt scoreStr).getD cur
      | .error _ => cur

/-- Go `(*Team).UnmarshalJSON`: the team after the call on the team `t`, or the
error. -/
def Team.UnmarshalJSON (t : Team) (data : JSON) : Except GoError Team :=
  match decodeTeamJSON zeroTeamJSON data with
  | .error err => .error err
  | .ok tj =>
    .ok { UUID := tj.UUID, Code := tj.Code, FullName := tj.Names.Full,
          ShortName := tj.Names.Short, Icon := tj.Icon,
          Score := decodeScore t.Score tj.Score }

/-- The zero value of `Team`. -/
def zeroTeam : Team :=
  { UUID := "", Code := "", FullName := "", ShortName := "", Score := 0, Icon := "" }

/-- How `encoding/json` decodes a JSON value into a field of type `*Team`:
`null` gives nil, any other value goes to `Team.UnmarshalJSON` on the team
pointed to, a new one when the pointer is nil. -/
def decodeTeamPtr (cur : Option Team) : JSON → Except GoError (Option Team)
  | .null => .ok none
  | v =>
    match Team.UnmarshalJSON (cur.getD zeroTeam) v with
    | .ok t => .ok (some t)
    | .error err => .error err

/-- The anonymous struct `VenueInfo` of `gameJSON`. -/
structure venueInfo where
  UUID : String
  Name : String
deriving DecidableEq, Repr

/-- Go `ehl.gameJSON`. -/
structure gameJSON where
  UUID : String
  RawStartDateTime : String
  State : String
  HomeTeam : Option Team
  AwayTeam : Option Team
  HomeTeamInfo : Option Team
  AwayTeamInfo : Option Team
  VenueInfo : venueInfo
deriving DecidableEq, Repr

/-- How `encoding/json` decodes a JSON value into the struct `VenueInfo`. -/
def decodeVenueInfo (cur : venueInfo) (data : JSON) : Except GoError venueInfo :=
  decodeObject ["uuid", "name"]
    (fun field s v =>
      if field = "uuid" then (decodeString s.UUID v).map fun x => { s with UUID := x }
      else (decodeString s.Name v).map fun x => { s with Name := x })
    cur data

/-- The member names of `gameJSON`, in the order of its fields. -/
def gameFields : List String :=
  ["uuid", "rawStartDateTime", "state", "homeTeam", "awayTeam", "homeTeamInfo", "awayTeamInfo",
    "venueInfo"]

/-- Decoding of one member of a game object into the field `field`. -/
def setGameField (field : String) (s : gameJSON) (v : JSON) : Except GoError gameJSON :=
  if field = "uuid" then (decodeString s.UUID v).map fun x => { s with UUID := x }
  else if field = "rawStartDateTime" then
    (decodeString s.RawStartDateTime v).map fun x => { s with RawStartDateTime := x }
  else if field = "state" then (decodeString s.State v).map fun x => { s with State := x }
  else if field = "homeTeam" then
    (decodeTeamPtr s.HomeTeam v).map fun x => { s with HomeTeam := x }
  else if field = "awayTeam" then
    (decodeTeamPtr s.AwayTeam v).map fun x => { s with AwayTeam := x }
  else if field = "homeTeamInfo" then
    (decodeTeamPtr s.HomeTeamInfo v).map fun x => { s with HomeTeamInfo := x }
  else if field = "awayTeamInfo" then
    (decodeTeamPtr s.AwayTeamInfo v).map fun x => { s with AwayTeamInfo := x }
  else (decodeVenueInfo s.VenueInfo v).map fun x => { s with VenueInfo := x }

/-- How `encoding/json` decodes a JSON value into a `gameJSON`, by its tags. -/
def decodeGameJSON (cur : gameJSON) (data : JSON) : Except GoError gameJSON :=
  decodeObject gameFields setGameField cur data

/-- The zero value of `gameJSON`. -/
def zeroGameJSON : gameJSON :=
  { UUID := "", RawStartDateTime := "", State := "", HomeTeam := none, AwayTeam := none,
    HomeTeamInfo := none, AwayTeamInfo := none, VenueInfo := { UUID := "", Name := "" } }

/-- The choice between the two namings in `Game.UnmarshalJSON`: the API object
if there is one, else the test object if there is one, else the team as it
was. -/
def pickTeam (info test : Option Team) (cur : Team) : Team :=
  match info with
  | some t => t
  | none =>
    match test with
    | some t => t
    | none => cur

/-- Go `(*Game).UnmarshalJSON`: the game after the call on the game `g`, or the
error. -/
def Game.UnmarshalJSON (g : Game) (data : JSON) : Except GoError Game :=
  match decodeGameJSON zeroGameJSON data with
  | .error err => .error err
  | .ok gj =>
    match ParseStartTime gj.RawStartDateTime with
    | .error err => .error err
    | .ok t =>
      .ok { UUID := gj.UUID, State := gj.State, Venue := gj.VenueInfo.Name,
            HomeTeam := pickTeam gj.HomeTeamInfo gj.HomeTeam g.HomeTeam,
            AwayTeam := pickTeam gj.AwayTeamInfo gj.AwayTeam g.AwayTeam,
            StartTime := t }

/-! ## Sample JSON -/

/-- The JSON of `TestSeasonUnmarshal`, with the Norwegian name moved to the
end. -/
def seasonNorwegianLast : JSON :=
  .obj [("uuid", .str "bir2zwf4qa"),
    ("names", .arr [
      .obj [("language", .str "sv"), ("translation", .str "Säsong 2025/2026")],
      .obj [("language", .str "en"), ("translation", .str "Season 2025/2026")],
      .obj [("language", .str "no"), ("translation", .str "2025/2026")]])]

/-- A team object as in `TestTeamUnmarshal`, with the score `score`. -/
def teamObject (uuid code full short : String) (score : JSON) : JSON :=
  .obj [("uuid", .str uuid), ("code", .str code),
    ("names", .obj [("full", .str full), ("short", .str short)]),
    ("score", score)]

/-- The JSON of `TestGameUnmarshal` with the teams under the names `home` and
`away`. -/
def gameObject (home away : String) : JSON :=
  .obj [("uuid", .str "aqdidacsop"),
    ("rawStartDateTime", .str "2025-09-11T17:00:00.000Z"),
    ("state", .str "pre-game"),
    (home, teamObject "qQ0-A0eF1CWG5" "VIF" "Vålerenga Ishockey Elite" "Vålerenga" (.int 0)),
    (away, teamObject "qQ0-8E8X1CsEP" "STH" "Storhamar Ishockey Elite" "Storhamar" (.int 0)),
    ("venueInfo", .obj [("uuid", .str "venue-123"), ("name", .str "Jordal Amfi")])]

/-- The JSON object of a translation, members in the order of the struct. -/
def translationObject (e : Translation) : JSON :=
  .obj [("language", .str e.Language), ("translation", .str e.Translation)]

/-- The JSON object of a season with the UUID `uuid` and the names `names`. -/
def seasonObject (uuid : String) (names : List Translation) : JSON :=
  .obj [("uuid", .str uuid), ("names", .arr (names.map translationObject))]

/-- The name `Season.UnmarshalJSON` falls back to when no entry is Norwegian:
the first translation that is not empty, or the empty name. -/
def firstAvailable (names : List Translation) : String :=
  ((names.find? fun e => e.Translation ≠ "").map fun e => e.Translation).getD ""

/-- The decoding of one member of a team object, as `decodeTeamJSON` folds it
over the members. -/
def teamStep (s : teamJSON) (member : String × JSON) : Except GoError teamJSON :=
  match matchField teamFields member.1 with
  | some field => setTeamField field s member.2
  | none => .ok s

/-- The JSON value is one that `Team.UnmarshalJSON` cannot read as a score: an
integer outside the range of `int`, a string on which `Sscanf` fails, or a value
that is neither an integer nor a string. -/
def unparsableScore : JSON → Bool
  | .int n => !inIntRange n
  | .str s => (SscanfInt s).isNone
  | _ => true

/-- The decoding of one member of a game object, as `decodeGameJSON` folds it
over the members. -/
def gameStep (s : gameJSON) (member : String × JSON) : Except GoError gameJSON :=
  match matchField gameFields member.1 with
  | some field => setGameField field s member.2
  | none => .ok s

/-- The values of the members of an object that are decoded into the field
`field`, in the order of the text. -/
def memberValues (fields : List String) (field : String) (members : List (String × JSON)) :
    List JSON :=
  members.filterMap fun member =>
    if matchField fields member.1 = some field then some member.2 else none

/-- The zero value of `Game`. -/
def zeroGame : Game :=
  { UUID := "", State := "", Venue := "", HomeTeam := zeroTeam, AwayTeam := zeroTeam,
    StartTime := Date 1 1 1 0 0 0 }

/-- A team object with the code `code` and nothing else. -/
def codeObject (code : String) : JSON := .obj [("code", .str code)]

/-- A game object that names both teams in both ways, with different teams
under the two namings. -/
def gameBothNamings : JSON :=
  .obj [("rawStartDateTime", .str "2025-09-11T17:00:00.000Z"),
    ("homeTeam", codeObject "SIL"), ("awayTeamInfo", codeObject "STH"),
    ("homeTeamInfo", codeObject "VIF"), ("awayTeam", codeObject "LIK")]

/-- The text `YYYY-MM-DDTHH:MM:SS.sssZ` of the fixed form for the numbers
given. -/
def stamp (y m d hh mm ss ms : Nat) : String :=
  String.mk (decimal 4 y ++ ('-' :: (decimal 2 m ++ ('-' :: (decimal 2 d ++ ('T' ::
    (decimal 2 hh ++ (':' :: (decimal 2 mm ++ (':' :: (decimal 2 ss ++ ('.' ::
      (decimal 3 ms ++ ['Z'])))))))))))))

/-- A game object with the start time text `raw` and no teams. -/
def gameAt (raw : String) : JSON :=
  .obj [("uuid", .str "aqdidacsop"), ("rawStartDateTime", .str raw)]

/-- The text is of the form `time.Parse` accepts for the layout
`2006-01-02T15:04:05.000Z` and denotes the numbers given: the fixed form, except
that the hour may have one digit, a comma may stand for the period, and the
three characters after it are any text `atoi` reads as `ms` (three digits, or a
sign and up to two digits). -/
def lenientStamp (text : List Char) (y m d hh mm ss : Nat) (ms : Int) : Prop :=
  ∃ (hourText : List Char) (sep : Char) (frac : List Char),
    text = decimal 4 y ++ ('-' :: (decimal 2 m ++ ('-' :: (decimal 2 d ++ ('T' ::
      (hourText ++ (':' :: (decimal 2 mm ++ (':' :: (decimal 2 ss ++ (sep ::
        (frac ++ ['Z'])))))))))))) ∧
    (hourText = decimal 2 hh ∨ (hh < 10 ∧ hourText = decimal 1 hh)) ∧
    (sep = '.' ∨ sep = ',') ∧ frac.length = 3 ∧ atoi frac = some ms ∧ 0 ≤ ms

/-! ## Package ehl: client -/

/-- Go `ehl.SeriesUUID`. -/
def SeriesUUID : String := "qUu-397s1Dpwm"

/-- What the client reads of an `*http.Response`: the status code, and the JSON
value `json.NewDecoder(resp.Body)` finds in the body, or the error of reading
it. -/
structure Response where
  StatusCode : Int
  Body : Except GoError JSON

/-- Go `ehl.Client`; `Get url` is the outcome of `c.httpClient.Get(url)`. -/
structure Client where
  baseURL : String
  Get : String → Except GoError Response

/-- Go `ehl.seasonsResponse`. -/
structure seasonsResponse where
  Season : List Season

/-- The zero value of `Season`. -/
def zeroSeason : Season := { UUID := "", Name := "" }

/-- How `encoding/json` decodes a JSON value into a `seasonsResponse`, by the
tag `season`; every element goes to `Season.UnmarshalJSON`. -/
def decodeSeasonsResponse (cur : seasonsResponse) (data : JSON) :
    Except GoError seasonsResponse :=
  decodeObject ["season"]
    (fun _ s v =>
      (decodeSlice zeroSeason Season.UnmarshalJSON s.Season v).map fun x => { Season := x })
    cur data

/-- Go `(*Client).FetchSeasons`: the seasons and the error it returns. -/
def Client.FetchSeasons (c : Client) : List Season × Option GoError :=
  let endpoint :=
    c.baseURL ++ "/api/sports-v2/season-series-game-types-filter?series=" ++ SeriesUUID
  match c.Get endpoint with
  | .error err => ([], some (Errorf "failed to fetch seasons: " err))
  | .ok resp =>
    if resp.StatusCode ≠ 200 then
      ([], some (.base ("unexpected status code: " ++ Itoa resp.StatusCode)))
    else
      match resp.Body with
      | .error err => ([], some (Errorf "failed to decode seasons response: " err))
      | .ok data =>
        match decodeSeasonsResponse { Season := [] } data with
        | .error err => ([], some (Errorf "failed to decode seasons response: " err))
        | .ok result => (result.Season, none)

/-- Go `(*Client).GetCurrentSeason`: the season and the error it returns. -/
def Client.GetCurrentSeason (c : Client) : Season × Option GoError :=
  match c.FetchSeasons with
  | (_, some err) => (zeroSeason, some err)
  | (seasons, none) =>
    match seasons with
    | [] => (zeroSeason, some (.base "no seasons found"))
    | first :: _ => (first, none)

/-! ## Package ehl: encoding -/

/-- Go `Team.MarshalJSON`: the JSON value of the text `json.Marshal` writes for
the `teamMarshalJSON` filled from the team, members in the order of the
fields. -/
def Team.MarshalJSON (t : Team) : JSON :=
  .obj [("uuid", .str t.UUID), ("code", .str t.Code),
    ("names", .obj [("full", .str t.FullName), ("short", .str t.ShortName)]),
    ("score", .int t.Score), ("icon", .str t.Icon)]

/-! ## Offsets that triggers and suffixes denote -/

/-- The number a non-empty text of decimal digits denotes. -/
def numeral (s : List Char) : Option Nat :=
  if s ≠ [] ∧ s.all isDecimal then some (digitsValue s) else none

/-- The number of `unit`s a text denotes that is a numeral followed by the
letter `letter`. -/
def countOf (letter : Char) (unit : Duration) (s : List Char) : Option Duration :=
  if s.getLast? = some letter then (numeral s.dropLast).map fun n => (n : Int) * unit else none

/-- The time before the event that an iCalendar trigger denotes, for the forms
`-P<n>D` (days), `-PT<n>H` (hours) and `-PT<n>M` (minutes). -/
def triggerOffset (trigger : String) : Option Duration :=
  match trigger.data with
  | '-' :: 'P' :: 'T' :: rest => (countOf 'H' Hour rest).orElse fun _ => countOf 'M' Minute rest
  | '-' :: 'P' :: rest => countOf 'D' (24 * Hour) rest
  | _ => none

/-- The time a filename suffix denotes, for the forms `<n>d` (days), `<n>h`
(hours) and `<n>m` (minutes). -/
def suffixOffset (suffix : String) : Option Duration :=
  ((countOf 'd' (24 * Hour) suffix.data).orElse fun _ => countOf 'h' Hour suffix.data).orElse
    fun _ => countOf 'm' Minute suffix.data

/-! ## Sample client -/

/-- The JSON of `testSeasonsResponse` in `client_test.go`. -/
def testSeasonsResponse : JSON :=
  .obj [("season", .arr [
    .obj [("uuid", .str "bir2zwf4qa"),
      ("names", .arr [.obj [("language", .str "no"), ("translation", .str "2025/2026")]])],
    .obj [("uuid", .str "qec-2Ioo12KN8s"),
      ("names", .arr [.obj [("language", .str "no"), ("translation", .str "2024/2025")]])],
    .obj [("uuid", .str "qd0-6kFP17sVG"),
      ("names", .arr [.obj [("language", .str "no"), ("translation", .str "2023/2024")]])]])]

/-- A client whose server answers every request with the status 200 and the
JSON value `body`. -/
def clientServing (body : JSON) : Client :=
  { baseURL := "http://127.0.0.1", Get := fun _ => .ok { StatusCode := 200, Body := .ok body } }

/-- A team with all six fields set. -/
def scoredTeam : Team :=
  { UUID := "qQ0-A0eF1CWG5", Code := "VIF", FullName := "Vålerenga Ishockey Elite",
    ShortName := "Vålerenga", Score := 3, Icon := "vif.png" }

/-! ## The writes of a run -/

/-- The calendars `GenerateAllCalendars` is to write, in the order of writing,
each as its team filter, its file stem and its alarms: the 16 combinations for
every team in list order, then the 16 combinations for the league. -/
def allJobs (u : UnicodeData) (teams : List Team) : List (String × String × List Alarm) :=
  teams.flatMap (fun team =>
      GenerateAlarmCombinations.map fun alarms => (team.ShortName, team.Slug u, alarms)) ++
    GenerateAlarmCombinations.map fun alarms => ("", "ehl", alarms)

/-- The file name and the rendered document of each job of a list, when the
first of them is rendered after `n` written files. -/
def planFrom (clocks : Nat → Nat → Time) (games : List Game) (seasonName : String) (n : Nat)
    (jobs : List (String × String × List Alarm)) : List (String × String) :=
  (jobs.enumFrom n).map fun pj =>
    (Filename pj.2.2.1 pj.2.2.2, GenerateCalendar (clocks pj.1) games pj.2.1 pj.2.2.2 seasonName)

/-- The (file name, document) pairs `GenerateAllCalendars` is to write, in the
order of writing. -/
def allWrites (u : UnicodeData) (clocks : Nat → Nat → Time) (games : List Game)
    (teams : List Team) (seasonName : String) : List (String × String) :=
  planFrom clocks games seasonName 0 (allJobs u teams)

/-- The sum of the byte lengths of the documents of a list of writes. -/
def contentBytes (written : List (String × String)) : Nat :=
  (written.map fun fc => fc.2.utf8ByteSize).sum

/-- A run over a list of writes: each one is handed to `WriteCalendar` and
counted, up to the first one that fails. -/
def runPlan (fs : FileSystem) (dir : String) :
    List (String × String) → RunState → RunState × Option GoError
  | [], st => (st, none)
  | (filename, content) :: rest, st =>
    match WriteCalendar fs st.written dir filename content with
    | some err => (st, some (Errorf ("failed to write " ++ filename ++ ": ") err))
    | none =>
      runPlan fs dir rest
        { stats := { FilesWritten := st.stats.FilesWritten + 1,
                     TotalBytes := st.stats.TotalBytes + content.utf8ByteSize },
          written := st.written ++ [(filename, content)] }

/-- A file system on which the write that follows `n` written files fails with
`disk full` and every other operation succeeds. -/
def failingFileSystem (n : Nat) : FileSystem :=
  { MkdirAll := fun _ => none
    Join := fun dir name => dir ++ "/" ++ name
    WriteFile := fun written _ _ => if written.length = n then some (.base "disk full") else none }

/-! ## Notions for the reminder blocks -/

/-- The marker of a reminder block: the characters of `BEGIN:VALARM`. -/
def valarm : List Char := "BEGIN:VALARM".data

/-- A piece of text is inert for a marker when putting it in front of any text
leaves the number of occurrences of the marker that `strings.Count` finds
unchanged. -/
def InertFor (marker a : List Char) : Prop :=
  ∀ rest, countFrom marker 0 (a ++ rest) = countFrom marker 0 rest

/-- The lines of an event block before its reminder blocks, each with its line
ending. -/
def eventHead (now : Time) (game : Game) : String :=
  "BEGIN:VEVENT\r\n" ++
    ("UID:" ++ game.UUID ++ "@ehl.hockeykalender" ++ "\r\n") ++
    ("DTSTAMP:" ++ now.FormatUTC ++ "\r\n") ++
    ("DTSTART:" ++ game.StartTime.FormatUTC ++ "\r\n") ++
    ("DTEND:" ++ (game.StartTime.Add GameDuration).FormatUTC ++ "\r\n") ++
    ("SUMMARY:" ++ game.HomeTeam.ShortName ++ " vs " ++ game.AwayTeam.ShortName ++ "\r\n") ++
    ("LOCATION:" ++ game.Venue ++ "\r\n")

/-! # Theorems -/

/-! ## ExtractTeams -/

theorem foldl_seenInsert_mem (ts : List Team) :
    ∀ (seen : List (String × Team)) (e : String × Team),
      e ∈ ts.foldl seenInsert seen ↔
        e ∈ seen ∨ (e.1 ∉ seen.map Prod.fst ∧
          ∃ t, ts.find? (fun x => x.UUID == e.1) = some t ∧ e = (t.UUID, t)) := by
  induction ts with
  | nil => intro seen e; simp
  | cons t rest ih =>
    intro seen e
    rw [List.foldl_cons, ih]
    by_cases hk : seen.any (fun x => x.1 == t.UUID) = true
    · have hins : seenInsert seen t = seen := by simp [seenInsert, hk]
      rw [hins]
      have hmem : t.UUID ∈ seen.map Prod.fst := by
        simp only [List.any_eq_true, beq_iff_eq] at hk
        obtain ⟨x, hx, hxe⟩ := hk
        exact List.mem_map.2 ⟨x, hx, hxe⟩
      constructor
      · rintro (h | ⟨hn, t', hf, he⟩)
        · exact Or.inl h
        · refine Or.inr ⟨hn, t', ?_, he⟩
          have hne : ¬ t.UUID = e.1 := fun h => hn (h ▸ hmem)
          simp [List.find?_cons, hne, hf]
      · rintro (h | ⟨hn, t', hf, he⟩)
        · exact Or.inl h
        · refine Or.inr ⟨hn, t', ?_, he⟩
          have hne : ¬ t.UUID = e.1 := fun h => hn (h ▸ hmem)
          simpa [List.find?_cons, hne] using hf
    · have hins : seenInsert seen t = seen ++ [(t.UUID, t)] := by simp [seenInsert, hk]
      rw [hins]
      have hmem : t.UUID ∉ seen.map Prod.fst := by
        intro hm
        apply hk
        obtain ⟨x, hx, hxe⟩ := List.mem_map.1 hm
        exact List.any_eq_true.2 ⟨x, hx, by simp [hxe]⟩
      by_cases hte : t.UUID = e.1
      · constructor
        · rintro (h | ⟨hn, _⟩)
          · rcases List.mem_append.1 h with h | h
            · exact Or.inl h
            · refine Or.inr ⟨?_, t, ?_, ?_⟩
              · rw [← hte]; exact hmem
              · simp [List.find?_cons, hte]
              · simpa using h
          · exfalso; apply hn; simp [hte]
        · rintro (h | ⟨hn, t', hf, he⟩)
          · exact Or.inl (List.mem_append.2 (Or.inl h))
          · left
            simp [List.find?_cons, hte] at hf
            subst hf
            simp [he]
      · constructor
        · rintro (h | ⟨hn, t', hf, he⟩)
          · rcases List.mem_append.1 h with h | h
            · exact Or.inl h
            · exfalso; apply hte; simp at h; rw [h]
          · refine Or.inr ⟨?_, t', ?_, he⟩
            · intro hm; apply hn; simp at hm ⊢; exact Or.inl hm
            · simp [List.find?_cons, hte, hf]
        · rintro (h | ⟨hn, t', hf, he⟩)
          · exact Or.inl (List.mem_append.2 (Or.inl h))
          · refine Or.inr ⟨?_, t', ?_, he⟩
            · intro hm
              simp only [List.map_append, List.map_cons, List.map_nil, List.mem_append,
                List.mem_singleton] at hm
              rcases hm with hm | hm
              · exact hn hm
              · exact hte hm.symm
            · simpa [List.find?_cons, hte] using hf

theorem extractSeen_eq_foldl (games : List Game) :
    extractSeen games = (teamsInOrder games).foldl seenInsert [] := by
  unfold extractSeen teamsInOrder
  generalize ([] : List (String × Team)) = seen
  induction games generalizing seen with
  | nil => rfl
  | cons g rest ih =>
    simp only [List.foldl_cons, List.flatMap_cons, List.foldl_append, List.foldl_nil]
    exact ih _

theorem foldl_seenInsert_nodup (ts : List Team) :
    ∀ seen : List (String × Team), (seen.map Prod.fst).Nodup →
      ((ts.foldl seenInsert seen).map Prod.fst).Nodup := by
  induction ts with
  | nil => intro seen h; simpa using h
  | cons t rest ih =>
    intro seen h
    rw [List.foldl_cons]
    apply ih
    unfold seenInsert
    split
    · exact h
    · rename_i hk
      rw [List.map_append, List.nodup_append]
      refine ⟨h, by simp, ?_⟩
      intro a ha hb
      simp only [List.map_cons, List.map_nil, List.mem_singleton] at hb
      subst hb
      apply hk
      obtain ⟨x, hx, hxe⟩ := List.mem_map.1 ha
      exact List.any_eq_true.2 ⟨x, hx, by simp [hxe]⟩

theorem mem_extractSeen (games : List Game) (e : String × Team) :
    e ∈ extractSeen games ↔
      ∃ t, (teamsInOrder games).find? (fun x => x.UUID == e.1) = some t ∧ e = (t.UUID, t) := by
  rw [extractSeen_eq_foldl, foldl_seenInsert_mem]
  simp

theorem mem_ExtractTeams (games : List Game) (t : Team) :
    t ∈ ExtractTeams games ↔
      (teamsInOrder games).find? (fun x => x.UUID == t.UUID) = some t := by
  unfold ExtractTeams
  rw [List.mem_map]
  constructor
  · rintro ⟨e, he, rfl⟩
    obtain ⟨t, hf, rfl⟩ := (mem_extractSeen games e).1 he
    exact hf
  · intro h
    exact ⟨(t.UUID, t), (mem_extractSeen games _).2 ⟨t, h, rfl⟩, rfl⟩

theorem ExtractTeams_map_UUID (games : List Game) :
    (ExtractTeams games).map (fun t => t.UUID) = (extractSeen games).map Prod.fst := by
  unfold ExtractTeams
  rw [List.map_map]
  apply List.map_congr_left
  intro e he
  obtain ⟨t, _, rfl⟩ := (mem_extractSeen games e).1 he
  rfl

theorem ExtractTeams_nodup_UUID (games : List Game) :
    ((ExtractTeams games).map fun t => t.UUID).Nodup := by
  rw [ExtractTeams_map_UUID, extractSeen_eq_foldl]
  exact foldl_seenInsert_nodup _ [] (by simp)

theorem mem_ExtractTeams_UUID (games : List Game) (uuid : String) :
    uuid ∈ (ExtractTeams games).map (fun t => t.UUID) ↔
      uuid ∈ (teamsInOrder games).map (fun t => t.UUID) := by
  simp only [List.mem_map, mem_ExtractTeams]
  constructor
  · rintro ⟨t, hf, rfl⟩
    exact ⟨t, List.mem_of_find?_eq_some hf, rfl⟩
  · rintro ⟨t, ht, rfl⟩
    cases hf : (teamsInOrder games).find? (fun x => x.UUID == t.UUID) with
    | none =>
      rw [List.find?_eq_none] at hf
      exact absurd (hf t ht) (by simp)
    | some t' =>
      have := List.find?_some hf
      simp only [beq_iff_eq] at this
      exact ⟨t', by rw [this]; exact hf, this⟩

theorem mem_teamsInOrder_UUID (games : List Game) (uuid : String) :
    uuid ∈ (teamsInOrder games).map (fun t => t.UUID) ↔
      ∃ g ∈ games, g.HomeTeam.UUID = uuid ∨ g.AwayTeam.UUID = uuid := by
  simp only [teamsInOrder, List.mem_map, List.mem_flatMap, List.mem_cons, List.mem_singleton,
    List.not_mem_nil, or_false]
  constructor
  · rintro ⟨t, ⟨g, hg, rfl | rfl⟩, rfl⟩
    · exact ⟨g, hg, Or.inl rfl⟩
    · exact ⟨g, hg, Or.inr rfl⟩
  · rintro ⟨g, hg, rfl | rfl⟩
    · exact ⟨_, ⟨g, hg, Or.inl rfl⟩, rfl⟩
    · exact ⟨_, ⟨g, hg, Or.inr rfl⟩, rfl⟩

/-- C9: every result of `ExtractTeams` has pairwise distinct UUIDs, its UUIDs are
exactly the home and away team UUIDs of the games, each of them has exactly one
entry, and the length is the number of distinct team UUIDs. -/
theorem ExtractTeams_unique_by_UUID (games : List Game) (teams : List Team)
    (h : ExtractTeamsResult games teams) :
    (teams.map fun t => t.UUID).Nodup ∧
    (∀ uuid, uuid ∈ teams.map (fun t => t.UUID) ↔
      ∃ g ∈ games, g.HomeTeam.UUID = uuid ∨ g.AwayTeam.UUID = uuid) ∧
    (∀ uuid, (∃ g ∈ games, g.HomeTeam.UUID = uuid ∨ g.AwayTeam.UUID = uuid) →
      (teams.filter fun t => t.UUID == uuid).length = 1) ∧
    teams.length = ((teamsInOrder games).map fun t => t.UUID).dedup.length := by
  have hp : (teams.map fun t => t.UUID).Perm ((ExtractTeams games).map fun t => t.UUID) :=
    List.Perm.map _ h
  have hnd : (teams.map fun t => t.UUID).Nodup := hp.nodup_iff.2 (ExtractTeams_nodup_UUID games)
  have hmem : ∀ uuid, uuid ∈ teams.map (fun t => t.UUID) ↔
      ∃ g ∈ games, g.HomeTeam.UUID = uuid ∨ g.AwayTeam.UUID = uuid := by
    intro uuid
    rw [hp.mem_iff, mem_ExtractTeams_UUID, mem_teamsInOrder_UUID]
  refine ⟨hnd, hmem, ?_, ?_⟩
  · intro uuid hu
    have h1 : (teams.map fun t => t.UUID).count uuid = 1 :=
      List.count_eq_one_of_mem hnd ((hmem uuid).2 hu)
    rw [List.count_eq_countP, List.countP_map, List.countP_eq_length_filter] at h1
    rw [← h1]
    congr 1
  · have hperm : (teams.map fun t => t.UUID).Perm
        ((teamsInOrder games).map fun t => t.UUID).dedup := by
      rw [List.perm_ext_iff_of_nodup hnd (List.nodup_dedup _)]
      intro uuid
      rw [List.mem_dedup, hmem, mem_teamsInOrder_UUID]
    simpa using hperm.length_eq

/-- Witness for C9 on the games of `makeTestGames`, with the teams in reverse
order of collection. -/
theorem ExtractTeams_unique_by_UUID_witness :
    ExtractTeamsResult makeTestGames (ExtractTeams makeTestGames).reverse ∧
    ((ExtractTeams makeTestGames).reverse.map fun t => t.UUID) =
      ["team-oil", "team-fri", "team-sth", "team-vif"] ∧
    (ExtractTeams makeTestGames).reverse.length =
      ((teamsInOrder makeTestGames).map fun t => t.UUID).dedup.length :=
  ⟨List.reverse_perm _, by decide,
    (ExtractTeams_unique_by_UUID makeTestGames _ (List.reverse_perm _)).2.2.2⟩

/-- C10: for a UUID occurring in the games, the team every result of
`ExtractTeams` holds for it is the first team with that UUID in iteration
order (games in list order, home before away), whatever its other fields. -/
theorem ExtractTeams_first_occurrence_wins (games : List Game) (teams : List Team)
    (h : ExtractTeamsResult games teams) (uuid : String)
    (hu : ∃ g ∈ games, g.HomeTeam.UUID = uuid ∨ g.AwayTeam.UUID = uuid) :
    ∃ first, (teamsInOrder games).find? (fun t => t.UUID == uuid) = some first ∧
      first ∈ teams ∧ ∀ t ∈ teams, t.UUID = uuid → t = first := by
  have hm : uuid ∈ (ExtractTeams games).map (fun t => t.UUID) := by
    rw [mem_ExtractTeams_UUID, mem_teamsInOrder_UUID]; exact hu
  obtain ⟨first, hf, rfl⟩ := List.mem_map.1 hm
  refine ⟨first, (mem_ExtractTeams games first).1 hf, h.mem_iff.2 hf, ?_⟩
  intro t ht hte
  have h1 := (mem_ExtractTeams games t).1 (h.mem_iff.1 ht)
  have h2 := (mem_ExtractTeams games first).1 hf
  rw [hte] at h1
  rw [h1] at h2
  exact Option.some.inj h2

/-- Witness for C10: the UUID `team-sth` first comes as `Storhamar` and later as
`Storhamar Dragons`; the result holds `Storhamar`. -/
theorem ExtractTeams_first_occurrence_wins_witness :
    ExtractTeamsResult renamedTeamGames (ExtractTeams renamedTeamGames).reverse ∧
    (∃ g ∈ renamedTeamGames, g.HomeTeam.UUID = "team-sth" ∨ g.AwayTeam.UUID = "team-sth") ∧
    ((ExtractTeams renamedTeamGames).reverse.map fun t => t.ShortName) =
      ["Storhamar", "Vålerenga"] ∧
    ∃ first, (teamsInOrder renamedTeamGames).find? (fun t => t.UUID == "team-sth") = some first ∧
      first ∈ (ExtractTeams renamedTeamGames).reverse ∧
      ∀ t ∈ (ExtractTeams renamedTeamGames).reverse, t.UUID = "team-sth" → t = first :=
  ⟨List.reverse_perm _, by decide, by decide,
    ExtractTeams_first_occurrence_wins renamedTeamGames _ (List.reverse_perm _) "team-sth"
      (by decide)⟩

/-! ## Alarm combinations -/

/-- C8: `GenerateAlarmCombinations` returns 16 lists; entry `i` holds the alarms
of `AllAlarms` at the positions `j` where bit `j` of `i` is set, in `AllAlarms`
order; entry 0 is empty and entry 15 is all four alarms. -/
theorem alarm_combinations_bits :
    GenerateAlarmCombinations.length = 16 ∧
    (∀ i, i < 16 → GenerateAlarmCombinations[i]? =
      some (((List.range 4).filter fun j => i.testBit j).filterMap fun j => AllAlarms[j]?)) ∧
    AllAlarms = [Alarm1Day, Alarm3Hours, Alarm1Hour, Alarm15Min] ∧
    GenerateAlarmCombinations[0]? = some [] ∧
    GenerateAlarmCombinations[15]? = some [Alarm1Day, Alarm3Hours, Alarm1Hour, Alarm15Min] := by
  have hvalue : GenerateAlarmCombinations =
      [[], [0], [1], [0, 1], [2], [0, 2], [1, 2], [0, 1, 2],
       [3], [0, 3], [1, 3], [0, 1, 3], [2, 3], [0, 2, 3], [1, 2, 3], [0, 1, 2, 3]] := by
    decide
  refine ⟨by rw [hvalue]; rfl, ?_, rfl, by rw [hvalue]; rfl, by rw [hvalue]; rfl⟩
  intro i hi
  rw [hvalue]
  interval_cases i <;> decide

/-! ## Structure of the generated text -/

theorem foldl_append_eq {α : Type} (F : α → String) (l : List α) (init : String) :
    l.foldl (fun sb x => sb ++ F x) init = init ++ concat (l.map F) := by
  induction l generalizing init with
  | nil => apply String.ext; simp [concat]
  | cons x rest ih =>
    rw [List.foldl_cons, ih]
    apply String.ext
    simp [concat]

theorem filterGamesByTeam_eq_filter (games : List Game) (teamName : String) :
    filterGamesByTeam games teamName =
      games.filter fun g => g.HomeTeam.ShortName == teamName || g.AwayTeam.ShortName == teamName := by
  unfold filterGamesByTeam
  have key : ∀ (acc : List Game),
      games.foldl (fun filtered game =>
        if (game.HomeTeam.ShortName == teamName || game.AwayTeam.ShortName == teamName) = true
        then filtered ++ [game] else filtered) acc =
      acc ++ games.filter fun g =>
        g.HomeTeam.ShortName == teamName || g.AwayTeam.ShortName == teamName := by
    induction games with
    | nil => intro acc; simp
    | cons g rest ih =>
      intro acc
      rw [List.foldl_cons, ih]
      by_cases hg : (g.HomeTeam.ShortName == teamName || g.AwayTeam.ShortName == teamName) = true
      · simp [List.filter_cons, hg]
      · simp [List.filter_cons, hg]
  simpa using key []

theorem GenerateCalendar_eq (clock : Nat → Time) (games : List Game) (teamFilter : String)
    (alarms : List Alarm) (seasonName : String) :
    GenerateCalendar clock games teamFilter alarms seasonName =
      calendarHeader teamFilter seasonName ++
        concat (eventBlocks clock alarms
          (if teamFilter = "" then games else filterGamesByTeam games teamFilter)) ++
        "END:VCALENDAR\r\n" := by
  unfold GenerateCalendar calendarHeader eventBlocks
  simp only [foldl_append_eq]
  apply String.ext
  by_cases hf : teamFilter = "" <;> simp [hf]

theorem formatEvent_eq (now : Time) (game : Game) (alarms : List Alarm) :
    formatEvent now game alarms =
      "BEGIN:VEVENT\r\n" ++
      ("UID:" ++ game.UUID ++ "@ehl.hockeykalender" ++ "\r\n") ++
      ("DTSTAMP:" ++ now.FormatUTC ++ "\r\n") ++
      ("DTSTART:" ++ game.StartTime.FormatUTC ++ "\r\n") ++
      ("DTEND:" ++ (game.StartTime.Add (2 * Hour)).FormatUTC ++ "\r\n") ++
      ("SUMMARY:" ++ game.HomeTeam.ShortName ++ " vs " ++ game.AwayTeam.ShortName ++ "\r\n") ++
      ("LOCATION:" ++ game.Venue ++ "\r\n") ++
      concat (alarms.map fun alarm =>
        FormatVALARM alarm (game.HomeTeam.ShortName ++ " vs " ++ game.AwayTeam.ShortName) ++
          "\r\n") ++
      "END:VEVENT\r\n" := by
  unfold formatEvent
  simp only [String.append_assoc, foldl_append_eq, UIDDomain, GameDuration]
  apply String.ext
  simp

theorem inert_nil : Inert [] := fun _ => rfl

theorem inert_append {a b : List Char} (ha : Inert a) (hb : Inert b) : Inert (a ++ b) := by
  intro rest
  rw [List.append_assoc, ha, hb]

theorem countFrom_cons_of_mismatch (c : Char) (t : List Char)
    (h : ¬ vevent <+: c :: t) : countFrom vevent 0 (c :: t) = countFrom vevent 0 t := by
  rw [countFrom]
  rw [if_neg]
  rwa [List.isPrefixOf_iff_prefix]

theorem inert_of_tails (a : List Char)
    (h : ∀ t ∈ a.tails, t ≠ [] → ¬ vevent <+: t ∧ ¬ t <+: vevent) : Inert a := by
  induction a with
  | nil => exact inert_nil
  | cons c a ih =>
    intro rest
    have hc := h (c :: a) (by simp) (by simp)
    rw [List.cons_append, countFrom_cons_of_mismatch]
    · apply ih
      intro t ht hne
      exact h t (by simp [ht]) hne
    · intro hp
      rcases List.prefix_or_prefix_of_prefix hp (List.prefix_append (c :: a) rest) with h1 | h1
      · exact hc.1 h1
      · exact hc.2 h1

theorem inert_of_not_mem (a : List Char) (h : 'B' ∉ a) : Inert a := by
  induction a with
  | nil => exact inert_nil
  | cons c a ih =>
    intro rest
    have hc : c ≠ 'B' := fun e => h (by simp [e])
    rw [List.cons_append, countFrom_cons_of_mismatch]
    · exact ih (fun hm => h (List.mem_cons_of_mem _ hm)) rest
    · intro hp
      simp only [vevent] at hp
      rw [List.cons_prefix_cons] at hp
      exact hc hp.1.symm

theorem inert_field (f : List Char) (c : Char) (hf : ¬ vevent <:+: f) (hc : c ∉ vevent) :
    Inert (f ++ [c]) := by
  induction f with
  | nil =>
    apply inert_of_not_mem
    intro h
    simp only [List.nil_append, List.mem_singleton] at h
    apply hc
    rw [← h]
    decide
  | cons x f ih =>
    intro rest
    rw [List.cons_append, List.cons_append, countFrom_cons_of_mismatch]
    · exact ih (fun h => hf (h.trans (List.infix_cons (List.infix_refl _)))) rest
    · intro hp
      have h2 : (x :: f) ++ [c] <+: (x :: f) ++ [c] ++ rest := List.prefix_append _ _
      simp only [List.cons_append] at h2
      rcases List.prefix_or_prefix_of_prefix hp h2 with h1 | h1
      · have h3 : vevent <+: (x :: f) ++ [c] := h1
        rw [List.prefix_concat_iff] at h3
        rcases h3 with h3 | h3
        · apply hc; rw [h3]; simp
        · exact hf h3.isInfix
      · apply hc
        exact h1.subset (by simp)

theorem countFrom_skip (r rest : List Char) :
    countFrom vevent r.length (r ++ rest) = countFrom vevent 0 rest := by
  induction r with
  | nil => rfl
  | cons c r ih => simpa [countFrom] using ih

theorem countFrom_vevent_append (rest : List Char) :
    countFrom vevent 0 (vevent ++ rest) = 1 + countFrom vevent 0 rest := by
  have h1 : vevent = 'B' :: "EGIN:VEVENT".data := by decide
  have h2 : vevent.length - 1 = "EGIN:VEVENT".data.length := by decide
  have hp : vevent.isPrefixOf (vevent ++ rest) = true := by
    rw [List.isPrefixOf_iff_prefix]; exact List.prefix_append _ _
  conv_lhs => rw [h1, List.cons_append, countFrom, ← List.cons_append, ← h1]
  rw [if_pos hp, h2, countFrom_skip]

theorem one_le_countFrom_of_infix (h : List Char) (hi : vevent <:+: h) :
    1 ≤ countFrom vevent 0 h := by
  induction h with
  | nil =>
    exfalso
    have := List.eq_nil_of_infix_nil hi
    revert this; decide
  | cons c t ih =>
    rw [countFrom]
    split
    · omega
    · rename_i hp
      rw [List.isPrefixOf_iff_prefix] at hp
      rcases List.infix_cons_iff.1 hi with h1 | h1
      · exact absurd h1 hp
      · exact ih h1

theorem countFrom_eq_zero_of_not_infix (h : List Char) (hi : ¬ vevent <:+: h) :
    countFrom vevent 0 h = 0 := by
  induction h with
  | nil => rfl
  | cons c t ih =>
    rw [countFrom_cons_of_mismatch]
    · exact ih (fun h => hi (h.trans (List.infix_cons (List.infix_refl _))))
    · exact fun hp => hi hp.isInfix

theorem Count_vevent_eq_zero_iff (s : String) :
    Count s "BEGIN:VEVENT" = 0 ↔ ¬ Contains s "BEGIN:VEVENT" := by
  have hne : ¬ "BEGIN:VEVENT".data = [] := by decide
  unfold Count Contains
  rw [if_neg hne]
  constructor
  · intro h hi
    have := one_le_countFrom_of_infix s.data hi
    change 1 ≤ countFrom "BEGIN:VEVENT".data 0 s.data at this
    omega
  · exact countFrom_eq_zero_of_not_infix s.data

theorem digitChar_mem_timeChars : ∀ k, k < 10 → Nat.digitChar k ∈ timeChars := by decide

theorem toDigitsCore_chars (fuel : Nat) :
    ∀ (n : Nat) (ds : List Char), (∀ c ∈ ds, c ∈ timeChars) →
      ∀ c ∈ Nat.toDigitsCore 10 fuel n ds, c ∈ timeChars := by
  induction fuel with
  | zero => intro n ds h c hc; exact h c (by simpa [Nat.toDigitsCore] using hc)
  | succ fuel ih =>
    intro n ds h c hc
    have hd : ∀ x ∈ Nat.digitChar (n % 10) :: ds, x ∈ timeChars := by
      intro x hx
      rcases List.mem_cons.1 hx with rfl | hx
      · exact digitChar_mem_timeChars _ (Nat.mod_lt _ (by decide))
      · exact h x hx
    rw [Nat.toDigitsCore] at hc
    split at hc
    · exact hd c hc
    · exact ih _ _ hd c hc

theorem appendInt_chars (x : Int) (width : Nat) :
    ∀ c ∈ (appendInt x width).data, c ∈ timeChars := by
  have hbody : ∀ c ∈ List.replicate (width - (Nat.toDigits 10 x.natAbs).length) '0' ++
      Nat.toDigits 10 x.natAbs, c ∈ timeChars := by
    intro c hc
    rcases List.mem_append.1 hc with h | h
    · rw [(List.mem_replicate.1 h).2]; decide
    · exact toDigitsCore_chars _ _ [] (by simp) c h
  intro c hc
  unfold appendInt at hc
  simp only at hc
  split at hc
  · simp only [String.data_append] at hc
    rcases List.mem_append.1 hc with h | h
    · have : c = '-' := by simpa using h
      rw [this]; decide
    · exact hbody c h
  · exact hbody c hc

theorem FormatUTC_chars (t : Time) : ∀ c ∈ t.FormatUTC.data, c ∈ timeChars := by
  intro c hc
  unfold Time.FormatUTC at hc
  simp only [String.data_append, List.mem_append] at hc
  rcases hc with ((((((h | h) | h) | h) | h) | h) | h) | h
  · exact appendInt_chars _ _ c h
  · exact appendInt_chars _ _ c h
  · exact appendInt_chars _ _ c h
  · have : c = 'T' := by simpa using h
    rw [this]; decide
  · exact appendInt_chars _ _ c h
  · exact appendInt_chars _ _ c h
  · exact appendInt_chars _ _ c h
  · have : c = 'Z' := by simpa using h
    rw [this]; decide

theorem inert_FormatUTC (t : Time) : Inert t.FormatUTC.data := by
  apply inert_of_not_mem
  intro h
  have := FormatUTC_chars t _ h
  revert this
  decide

theorem inert_field_then (f : List Char) (c : Char) (l : List Char)
    (hf : ¬ vevent <:+: f) (hc : c ∉ vevent) (hl : 'B' ∉ l) : Inert (f ++ c :: l) := by
  have h := inert_append (inert_field f c hf hc) (inert_of_not_mem l hl)
  simpa using h

theorem Alarm.Description_eq (a : Alarm) (s : String) :
    ∃ tail ∈ [" i morgen", " om 3 timer", " om 1 time", " om 15 minutter", ""],
      a.Description s = s ++ tail := by
  unfold Alarm.Description
  split_ifs
  · exact ⟨_, by simp, rfl⟩
  · exact ⟨_, by simp, rfl⟩
  · exact ⟨_, by simp, rfl⟩
  · exact ⟨_, by simp, rfl⟩
  · exact ⟨"", by simp, by apply String.ext; simp⟩

theorem Alarm.Trigger_mem (a : Alarm) :
    a.Trigger ∈ ["-P1D", "-PT3H", "-PT1H", "-PT15M", ""] := by
  unfold Alarm.Trigger
  split_ifs <;> simp

theorem inert_alarm_block (a : Alarm) (home away : String)
    (hh : ¬ Contains home "BEGIN:VEVENT") (ha : ¬ Contains away "BEGIN:VEVENT") :
    Inert (FormatVALARM a (home ++ " vs " ++ away) ++ "\r\n").data := by
  obtain ⟨tail, htail, hd⟩ := Alarm.Description_eq a (home ++ " vs " ++ away)
  have htr := Alarm.Trigger_mem a
  unfold FormatVALARM
  rw [hd]
  have e : ("BEGIN:VALARM\r\nTRIGGER:" ++ a.Trigger ++ "\r\nACTION:DISPLAY\r\nDESCRIPTION:" ++
      (home ++ " vs " ++ away ++ tail) ++ "\r\nEND:VALARM" ++ "\r\n").data =
      "BEGIN:VALARM\r\nTRIGGER:".data ++ (a.Trigger.data ++ "\r\nACTION:DISPLAY\r\nDESCRIPTION:".data)
        ++ (home.data ++ ' ' :: "vs ".data)
        ++ (away.data ++ (tail ++ "\r\nEND:VALARM\r\n").data) := by
    simp
  rw [e]
  refine inert_append (inert_append (inert_append ?_ ?_) ?_) ?_
  · apply inert_of_tails; decide
  · apply inert_of_not_mem
    simp only [List.mem_cons, List.mem_singleton, List.not_mem_nil, or_false] at htr
    rcases htr with h | h | h | h | h <;> rw [h] <;> decide
  · exact inert_field_then _ _ _ hh (by decide) (by decide)
  · simp only [List.mem_cons, List.mem_singleton, List.not_mem_nil, or_false] at htail
    rcases htail with h | h | h | h | h <;> rw [h]
    · exact inert_field_then _ ' ' "i morgen\r\nEND:VALARM\r\n".data ha (by decide) (by decide)
    · exact inert_field_then _ ' ' "om 3 timer\r\nEND:VALARM\r\n".data ha (by decide) (by decide)
    · exact inert_field_then _ ' ' "om 1 time\r\nEND:VALARM\r\n".data ha (by decide) (by decide)
    · exact inert_field_then _ ' ' "om 15 minutter\r\nEND:VALARM\r\n".data ha (by decide)
        (by decide)
    · exact inert_field_then _ '\r' "\nEND:VALARM\r\n".data ha (by decide) (by decide)

theorem inert_flatMap {α : Type} (F : α → List Char) (l : List α)
    (h : ∀ x ∈ l, Inert (F x)) : Inert (l.flatMap F) := by
  induction l with
  | nil => exact inert_nil
  | cons x rest ih =>
    rw [List.flatMap_cons]
    exact inert_append (h x (by simp)) (ih fun y hy => h y (by simp [hy]))

theorem concat_data (parts : List String) : (concat parts).data = parts.flatMap String.data := rfl

theorem formatEvent_data (now : Time) (game : Game) (alarms : List Alarm) :
    (formatEvent now game alarms).data =
      vevent ++ ("\r\nUID:".data ++ (game.UUID.data ++ '@' :: "ehl.hockeykalender\r\nDTSTAMP:".data)
        ++ now.FormatUTC.data ++ "\r\nDTSTART:".data ++ game.StartTime.FormatUTC.data
        ++ "\r\nDTEND:".data ++ (game.StartTime.Add (2 * Hour)).FormatUTC.data
        ++ "\r\nSUMMARY:".data ++ (game.HomeTeam.ShortName.data ++ ' ' :: "vs ".data)
        ++ (game.AwayTeam.ShortName.data ++ '\r' :: "\nLOCATION:".data)
        ++ (game.Venue.data ++ '\r' :: "\n".data)
        ++ alarms.flatMap (fun alarm => (FormatVALARM alarm
            (game.HomeTeam.ShortName ++ " vs " ++ game.AwayTeam.ShortName) ++ "\r\n").data)
        ++ "END:VEVENT\r\n".data) := by
  rw [formatEvent_eq]
  simp [concat_data, vevent, List.flatMap_map]

theorem count_formatEvent (now : Time) (game : Game) (alarms : List Alarm)
    (hg : ∀ s ∈ game.Texts, ¬ Contains s "BEGIN:VEVENT") (rest : List Char) :
    countFrom vevent 0 ((formatEvent now game alarms).data ++ rest) =
      1 + countFrom vevent 0 rest := by
  have hu := hg game.UUID (by simp [Game.Texts])
  have hh := hg game.HomeTeam.ShortName (by simp [Game.Texts])
  have ha := hg game.AwayTeam.ShortName (by simp [Game.Texts])
  have hv := hg game.Venue (by simp [Game.Texts])
  rw [formatEvent_data, List.append_assoc, countFrom_vevent_append]
  congr 1
  revert rest
  change Inert _
  refine inert_append (inert_append (inert_append (inert_append (inert_append (inert_append
    (inert_append (inert_append (inert_append (inert_append (inert_append (inert_append ?_ ?_)
    ?_) ?_) ?_) ?_) ?_) ?_) ?_) ?_) ?_) ?_) ?_
  · apply inert_of_not_mem; decide
  · exact inert_field_then _ _ _ hu (by decide) (by decide)
  · exact inert_FormatUTC _
  · apply inert_of_not_mem; decide
  · exact inert_FormatUTC _
  · apply inert_of_not_mem; decide
  · exact inert_FormatUTC _
  · apply inert_of_not_mem; decide
  · exact inert_field_then _ _ _ hh (by decide) (by decide)
  · exact inert_field_then _ _ _ ha (by decide) (by decide)
  · exact inert_field_then _ _ _ hv (by decide) (by decide)
  · exact inert_flatMap _ _ fun a _ => inert_alarm_block a _ _ hh ha
  · apply inert_of_not_mem; decide

theorem count_eventBlocks (clock : Nat → Time) (alarms : List Alarm) (games : List Game)
    (hg : ∀ g ∈ games, ∀ s ∈ g.Texts, ¬ Contains s "BEGIN:VEVENT") (rest : List Char) :
    countFrom vevent 0 ((concat (eventBlocks clock alarms games)).data ++ rest) =
      games.length + countFrom vevent 0 rest := by
  unfold eventBlocks
  rw [concat_data, List.flatMap_map]
  have key : ∀ (l : List (Nat × Game)), (∀ kg ∈ l, ∀ s ∈ kg.2.Texts, ¬ Contains s "BEGIN:VEVENT") →
      countFrom vevent 0 (l.flatMap (fun kg => (formatEvent (clock kg.1) kg.2 alarms).data) ++ rest)
        = l.length + countFrom vevent 0 rest := by
    intro l
    induction l with
    | nil => intro _; simp
    | cons kg l ih =>
      intro h
      rw [List.flatMap_cons, List.append_assoc, count_formatEvent _ _ _ (h kg (by simp)),
        ih (fun x hx => h x (by simp [hx]))]
      simp only [List.length_cons]
      omega
  have := key games.enum (by
    intro kg hkg
    exact hg kg.2 (List.snd_mem_of_mem_enum hkg))
  simpa using this

/-! ## Line endings -/

theorem lf_nil : LFAfterCR [] := by
  intro pre post h
  simp at h

theorem lf_append {a b : List Char} (ha : LFAfterCR a) (hb : LFAfterCR b) :
    LFAfterCR (a ++ b) := by
  intro pre post h
  rcases List.append_eq_append_iff.1 h with ⟨a', rfl, hb'⟩ | ⟨c', rfl, hc'⟩
  · obtain ⟨p, rfl⟩ := hb a' post hb'
    exact ⟨a ++ p, by simp⟩
  · cases c' with
    | nil =>
      obtain ⟨p, hp⟩ := hb [] post (by simpa using hc'.symm)
      simp at hp
    | cons x c'' =>
      simp only [List.cons_append, List.cons.injEq] at hc'
      obtain ⟨rfl, _⟩ := hc'
      exact ha pre c'' rfl

theorem lf_of_not_mem (a : List Char) (h : '\n' ∉ a) : LFAfterCR a := by
  intro pre post e
  exact absurd (by rw [e]; simp) h

theorem lfAfterCRFrom_sound (l : List Char) :
    ∀ prev pre post, lfAfterCRFrom prev l = true → l = pre ++ '\n' :: post →
      (pre = [] ∧ prev = '\r') ∨ ∃ pre', pre = pre' ++ ['\r'] := by
  induction l with
  | nil => intro prev pre post _ e; simp at e
  | cons c t ih =>
    intro prev pre post hc e
    simp only [lfAfterCRFrom, Bool.and_eq_true, Bool.or_eq_true, bne_iff_ne, ne_eq,
      beq_iff_eq] at hc
    cases pre with
    | nil =>
      simp only [List.nil_append, List.cons.injEq] at e
      rcases hc.1 with h | h
      · exact absurd e.1 h
      · exact Or.inl ⟨rfl, h⟩
    | cons x pre =>
      simp only [List.cons_append, List.cons.injEq] at e
      obtain ⟨rfl, e⟩ := e
      rcases ih c pre post hc.2 e with ⟨rfl, rfl⟩ | ⟨p, rfl⟩
      · exact Or.inr ⟨[], rfl⟩
      · exact Or.inr ⟨c :: p, rfl⟩

theorem lf_of_check (l : List Char) (h : lfAfterCRFrom 'x' l = true) : LFAfterCR l := by
  intro pre post e
  rcases lfAfterCRFrom_sound l 'x' pre post h e with ⟨_, h2⟩ | h2
  · exact absurd h2 (by decide)
  · exact h2

theorem lf_FormatUTC (t : Time) : LFAfterCR t.FormatUTC.data := by
  apply lf_of_not_mem
  intro h
  have := FormatUTC_chars t _ h
  revert this
  decide

theorem lf_flatMap {α : Type} (F : α → List Char) (l : List α)
    (h : ∀ x ∈ l, LFAfterCR (F x)) : LFAfterCR (l.flatMap F) := by
  induction l with
  | nil => exact lf_nil
  | cons x rest ih =>
    rw [List.flatMap_cons]
    exact lf_append (h x (by simp)) (ih fun y hy => h y (by simp [hy]))

theorem lf_alarm_block (a : Alarm) (home away : String)
    (hh : LFAfterCR home.data) (ha : LFAfterCR away.data) :
    LFAfterCR (FormatVALARM a (home ++ " vs " ++ away) ++ "\r\n").data := by
  obtain ⟨tail, htail, hd⟩ := Alarm.Description_eq a (home ++ " vs " ++ away)
  have htr := Alarm.Trigger_mem a
  unfold FormatVALARM
  rw [hd]
  simp only [String.data_append]
  refine lf_append (lf_append (lf_append (lf_append (lf_append ?_ ?_) ?_)
    (lf_append (lf_append (lf_append hh ?_) ha) ?_)) ?_) ?_
  · exact lf_of_check _ (by decide)
  · apply lf_of_not_mem
    simp only [List.mem_cons, List.mem_singleton, List.not_mem_nil, or_false] at htr
    rcases htr with h | h | h | h | h <;> rw [h] <;> decide
  · exact lf_of_check _ (by decide)
  · exact lf_of_check _ (by decide)
  · apply lf_of_not_mem
    simp only [List.mem_cons, List.mem_singleton, List.not_mem_nil, or_false] at htail
    rcases htail with h | h | h | h | h <;> rw [h] <;> decide
  · exact lf_of_check _ (by decide)
  · exact lf_of_check _ (by decide)

theorem lf_formatEvent (now : Time) (game : Game) (alarms : List Alarm)
    (hg : ∀ s ∈ game.Texts, LFAfterCR s.data) :
    LFAfterCR (formatEvent now game alarms).data := by
  have hu := hg game.UUID (by simp [Game.Texts])
  have hh := hg game.HomeTeam.ShortName (by simp [Game.Texts])
  have ha := hg game.AwayTeam.ShortName (by simp [Game.Texts])
  have hv := hg game.Venue (by simp [Game.Texts])
  rw [formatEvent_eq]
  simp only [String.data_append, concat_data, List.flatMap_map]
  have hl : ∀ s : String, lfAfterCRFrom 'x' s.data = true → LFAfterCR s.data :=
    fun s h => lf_of_check _ h
  refine lf_append (lf_append (lf_append (lf_append (lf_append (lf_append (lf_append
    (lf_append (hl _ (by decide)) ?_) ?_) ?_) ?_) ?_) ?_) ?_) (hl _ (by decide))
  · exact lf_append (lf_append (lf_append (hl _ (by decide)) hu) (hl _ (by decide)))
      (hl _ (by decide))
  · exact lf_append (lf_append (hl _ (by decide)) (lf_FormatUTC _)) (hl _ (by decide))
  · exact lf_append (lf_append (hl _ (by decide)) (lf_FormatUTC _)) (hl _ (by decide))
  · exact lf_append (lf_append (hl _ (by decide)) (lf_FormatUTC _)) (hl _ (by decide))
  · exact lf_append (lf_append (lf_append (lf_append (hl _ (by decide)) hh) (hl _ (by decide)))
      ha) (hl _ (by decide))
  · exact lf_append (lf_append (hl _ (by decide)) hv) (hl _ (by decide))
  · exact lf_flatMap _ _ fun a _ => lf_alarm_block a _ _ hh ha

/-! ## Counting event blocks -/

theorem gamesOfTeam_eq (games : List Game) (teamFilter : String) :
    filterGamesByTeam games teamFilter = gamesOfTeam games teamFilter := by
  rw [filterGamesByTeam_eq_filter, gamesOfTeam]
  apply List.filter_congr
  intro g _
  apply Bool.eq_iff_iff.2
  simp

theorem inert_calendarHeader (teamFilter seasonName : String)
    (hf : ¬ Contains teamFilter "BEGIN:VEVENT") (hs : ¬ Contains seasonName "BEGIN:VEVENT") :
    Inert (calendarHeader teamFilter seasonName).data := by
  unfold calendarHeader
  by_cases h : teamFilter = ""
  · rw [if_pos h]
    have e : ("BEGIN:VCALENDAR\r\n" ++ "VERSION:2.0\r\n" ++ "PRODID:-//Hockeykalender//EHL//NO\r\n" ++
        "CALSCALE:GREGORIAN\r\n" ++ "METHOD:PUBLISH\r\n" ++
        ("X-WR-CALNAME:EHL " ++ seasonName ++ "\r\n")).data =
        "BEGIN:VCALENDAR\r\nVERSION:2.0\r\nPRODID:-//Hockeykalender//EHL//NO\r\nCALSCALE:GREGORIAN\r\nMETHOD:PUBLISH\r\n".data
          ++ "X-WR-CALNAME:EHL ".data
          ++ (seasonName.data ++ '\r' :: "\n".data) := by simp
    rw [e]
    exact inert_append (inert_append (inert_of_tails _ (by decide))
      (inert_of_not_mem _ (by decide)))
      (inert_field_then _ _ _ hs (by decide) (by decide))
  · rw [if_neg h]
    have e : ("BEGIN:VCALENDAR\r\n" ++ "VERSION:2.0\r\n" ++ "PRODID:-//Hockeykalender//EHL//NO\r\n" ++
        "CALSCALE:GREGORIAN\r\n" ++ "METHOD:PUBLISH\r\n" ++
        ("X-WR-CALNAME:" ++ teamFilter ++ " - EHL " ++ seasonName ++ "\r\n")).data =
        "BEGIN:VCALENDAR\r\nVERSION:2.0\r\nPRODID:-//Hockeykalender//EHL//NO\r\nCALSCALE:GREGORIAN\r\nMETHOD:PUBLISH\r\n".data
          ++ "X-WR-CALNAME:".data
          ++ (teamFilter.data ++ ' ' :: "- EHL ".data)
          ++ (seasonName.data ++ '\r' :: "\n".data) := by simp
    rw [e]
    exact inert_append (inert_append (inert_append (inert_of_tails _ (by decide))
      (inert_of_not_mem _ (by decide)))
      (inert_field_then _ _ _ hf (by decide) (by decide)))
      (inert_field_then _ _ _ hs (by decide) (by decide))

theorem Count_GenerateCalendar (clock : Nat → Time) (games : List Game) (teamFilter : String)
    (alarms : List Alarm) (seasonName : String)
    (hf : ¬ Contains teamFilter "BEGIN:VEVENT") (hs : ¬ Contains seasonName "BEGIN:VEVENT")
    (hg : ∀ g ∈ games, ∀ s ∈ g.Texts, ¬ Contains s "BEGIN:VEVENT") :
    Count (GenerateCalendar clock games teamFilter alarms seasonName) "BEGIN:VEVENT" =
      (if teamFilter = "" then games else gamesOfTeam games teamFilter).length := by
  have hne : ¬ "BEGIN:VEVENT".data = [] := by decide
  have hsub : ∀ g ∈ (if teamFilter = "" then games else gamesOfTeam games teamFilter),
      ∀ s ∈ g.Texts, ¬ Contains s "BEGIN:VEVENT" := by
    intro g hgm
    apply hg
    split at hgm
    · exact hgm
    · exact List.mem_of_mem_filter hgm
  unfold Count
  rw [if_neg hne, GenerateCalendar_eq, gamesOfTeam_eq]
  simp only [String.data_append, List.append_assoc]
  change countFrom vevent 0 _ = _
  rw [inert_calendarHeader teamFilter seasonName hf hs, count_eventBlocks clock alarms _ hsub]
  have : countFrom vevent 0 "END:VCALENDAR\r\n".data = 0 := by decide
  rw [this]
  rfl

/-- C4 (amended): when `BEGIN:VEVENT` occurs neither in the season name nor in
the UUID, team short names or venue of any game, `strings.Count` finds
`BEGIN:VEVENT` exactly `N` times in the output of `GenerateCalendar` with an
empty team filter on `N` games, whatever the alarms. -/
theorem GenerateCalendar_all_games_count (clock : Nat → Time) (games : List Game)
    (alarms : List Alarm) (seasonName : String)
    (hs : ¬ Contains seasonName "BEGIN:VEVENT")
    (hg : ∀ g ∈ games, ∀ s ∈ g.Texts, ¬ Contains s "BEGIN:VEVENT") :
    Count (GenerateCalendar clock games "" alarms seasonName) "BEGIN:VEVENT" = games.length := by
  have h := Count_GenerateCalendar clock games "" alarms seasonName (by decide) hs hg
  simpa using h

/-- Witness for C4 (amended) on the games of `TestGenerateCalendar_AllGames`:
three events are counted. -/
theorem GenerateCalendar_all_games_count_witness :
    ¬ Contains "2025/2026" "BEGIN:VEVENT" ∧
    (∀ g ∈ makeTestGames, ∀ s ∈ g.Texts, ¬ Contains s "BEGIN:VEVENT") ∧
    Count (GenerateCalendar fixedClock makeTestGames "" [] "2025/2026") "BEGIN:VEVENT" = 3 :=
  ⟨by decide, by decide,
    GenerateCalendar_all_games_count fixedClock makeTestGames [] "2025/2026" (by decide)
      (by decide)⟩

set_option maxRecDepth 100000 in
/-- C4 as stated fails: for the three test games and the season name
`BEGIN:VEVENT`, the text `BEGIN:VEVENT` is counted 4 times in the output. -/
theorem GenerateCalendar_all_games_count_fails :
    Count (GenerateCalendar fixedClock makeTestGames "" [] "BEGIN:VEVENT") "BEGIN:VEVENT" = 4 ∧
    makeTestGames.length = 3 := by
  decide

/-- C5: for a non-empty team filter the output of `GenerateCalendar` equals its
output on the sub-list of the games whose home or away short name is the
filter; it is the header, the event blocks of exactly those games in input
order, and the closing line; the number of event blocks is the number of such
games, and that is also what `strings.Count` finds when `BEGIN:VEVENT` occurs
in none of the texts. -/
theorem GenerateCalendar_team_filter (clock : Nat → Time) (games : List Game)
    (teamFilter : String) (alarms : List Alarm) (seasonName : String) (hf : teamFilter ≠ "") :
    GenerateCalendar clock games teamFilter alarms seasonName =
      GenerateCalendar clock (gamesOfTeam games teamFilter) teamFilter alarms seasonName ∧
    GenerateCalendar clock games teamFilter alarms seasonName =
      calendarHeader teamFilter seasonName ++
        concat (eventBlocks clock alarms (gamesOfTeam games teamFilter)) ++ "END:VCALENDAR\r\n" ∧
    (eventBlocks clock alarms (gamesOfTeam games teamFilter)).length =
      games.countP (fun g =>
        decide (g.HomeTeam.ShortName = teamFilter ∨ g.AwayTeam.ShortName = teamFilter)) ∧
    (¬ Contains teamFilter "BEGIN:VEVENT" → ¬ Contains seasonName "BEGIN:VEVENT" →
      (∀ g ∈ games, ∀ s ∈ g.Texts, ¬ Contains s "BEGIN:VEVENT") →
      Count (GenerateCalendar clock games teamFilter alarms seasonName) "BEGIN:VEVENT" =
        games.countP (fun g =>
          decide (g.HomeTeam.ShortName = teamFilter ∨ g.AwayTeam.ShortName = teamFilter))) := by
  have hidem : gamesOfTeam (gamesOfTeam games teamFilter) teamFilter =
      gamesOfTeam games teamFilter := by
    unfold gamesOfTeam
    rw [List.filter_filter]
    simp
  refine ⟨?_, ?_, ?_, ?_⟩
  · rw [GenerateCalendar_eq, GenerateCalendar_eq, if_neg hf, if_neg hf, gamesOfTeam_eq,
      gamesOfTeam_eq, hidem]
  · rw [GenerateCalendar_eq, if_neg hf, gamesOfTeam_eq]
  · simp [eventBlocks, gamesOfTeam, List.countP_eq_length_filter]
  · intro h1 h2 h3
    rw [Count_GenerateCalendar clock games teamFilter alarms seasonName h1 h2 h3, if_neg hf]
    simp [gamesOfTeam, List.countP_eq_length_filter]

/-- Witness for C5 on the games of `TestGenerateCalendar_FilterByTeam`: the
filter `Vålerenga` keeps the first two games and two events are counted. -/
theorem GenerateCalendar_team_filter_witness :
    "Vålerenga" ≠ "" ∧
    gamesOfTeam makeTestGames "Vålerenga" = makeTestGames.take 2 ∧
    GenerateCalendar fixedClock makeTestGames "Vålerenga" [] "2025/2026" =
      GenerateCalendar fixedClock (gamesOfTeam makeTestGames "Vålerenga") "Vålerenga" []
        "2025/2026" ∧
    Count (GenerateCalendar fixedClock makeTestGames "Vålerenga" [] "2025/2026")
      "BEGIN:VEVENT" = 2 :=
  have h := GenerateCalendar_team_filter fixedClock makeTestGames "Vålerenga" [] "2025/2026"
    (by decide)
  ⟨by decide, by decide, h.1,
    (h.2.2.2 (by decide) (by decide) (by decide)).trans (by decide)⟩

theorem lf_calendarHeader (teamFilter seasonName : String)
    (hf : LFAfterCR teamFilter.data) (hs : LFAfterCR seasonName.data) :
    LFAfterCR (calendarHeader teamFilter seasonName).data := by
  have hl : ∀ s : String, lfAfterCRFrom 'x' s.data = true → LFAfterCR s.data :=
    fun s h => lf_of_check _ h
  unfold calendarHeader
  simp only [String.data_append]
  refine lf_append (lf_append (lf_append (lf_append (lf_append (hl _ (by decide))
    (hl _ (by decide))) (hl _ (by decide))) (hl _ (by decide))) (hl _ (by decide)))
    (lf_append ?_ (hl _ (by decide)))
  split
  · simp only [String.data_append]
    exact lf_append (hl _ (by decide)) hs
  · simp only [String.data_append]
    exact lf_append (lf_append (lf_append (hl _ (by decide)) hf) (hl _ (by decide))) hs

theorem lf_eventBlocks (clock : Nat → Time) (alarms : List Alarm) (games : List Game)
    (hg : ∀ g ∈ games, ∀ s ∈ g.Texts, LFAfterCR s.data) :
    LFAfterCR (concat (eventBlocks clock alarms games)).data := by
  unfold eventBlocks
  rw [concat_data, List.flatMap_map]
  apply lf_flatMap
  intro kg hkg
  exact lf_formatEvent _ _ _ (hg kg.2 (List.snd_mem_of_mem_enum hkg))

/-- C3 (amended): the output of `GenerateCalendar` always ends with CRLF; and
when every line feed inside the team filter, the season name and the UUID,
short names and venue of every game is preceded by a carriage return (in
particular when these texts hold no line feed), every line feed of the output
is preceded by a carriage return. -/
theorem GenerateCalendar_crlf (clock : Nat → Time) (games : List Game) (teamFilter : String)
    (alarms : List Alarm) (seasonName : String) :
    HasSuffix (GenerateCalendar clock games teamFilter alarms seasonName) "\r\n" = true ∧
    (LFAfterCR teamFilter.data → LFAfterCR seasonName.data →
      (∀ g ∈ games, ∀ s ∈ g.Texts, LFAfterCR s.data) →
      LFAfterCR (GenerateCalendar clock games teamFilter alarms seasonName).data) := by
  rw [GenerateCalendar_eq]
  constructor
  · simp only [HasSuffix, String.data_append, List.isSuffixOf_iff_suffix]
    exact ⟨(calendarHeader teamFilter seasonName).data ++
      (concat (eventBlocks clock alarms
        (if teamFilter = "" then games else filterGamesByTeam games teamFilter))).data ++
      "END:VCALENDAR".data, by simp⟩
  · intro hf hs hg
    have hsub : ∀ g ∈ (if teamFilter = "" then games else filterGamesByTeam games teamFilter),
        ∀ s ∈ g.Texts, LFAfterCR s.data := by
      intro g hgm
      apply hg
      split at hgm
      · exact hgm
      · rw [gamesOfTeam_eq] at hgm
        exact List.mem_of_mem_filter hgm
    simp only [String.data_append]
    exact lf_append (lf_append (lf_calendarHeader _ _ hf hs) (lf_eventBlocks _ _ _ hsub))
      (lf_of_check _ (by decide))

/-- Witness for C3 (amended) on the test games, filtered by `Vålerenga` and with one
alarm. -/
theorem GenerateCalendar_crlf_witness :
    HasSuffix (GenerateCalendar fixedClock makeTestGames "Vålerenga" [Alarm1Day] "2025/2026")
      "\r\n" = true ∧
    LFAfterCR (GenerateCalendar fixedClock makeTestGames "Vålerenga" [Alarm1Day]
      "2025/2026").data :=
  have h1 : LFAfterCR "Vålerenga".data := lf_of_check _ (by decide)
  have h2 : LFAfterCR "2025/2026".data := lf_of_check _ (by decide)
  have h3 : ∀ g ∈ makeTestGames, ∀ s ∈ g.Texts, LFAfterCR s.data := by
    have : ∀ g ∈ makeTestGames, ∀ s ∈ g.Texts, lfAfterCRFrom 'x' s.data = true := by decide
    exact fun g hg s hs => lf_of_check _ (this g hg s hs)
  ⟨(GenerateCalendar_crlf fixedClock makeTestGames "Vålerenga" [Alarm1Day] "2025/2026").1,
    (GenerateCalendar_crlf fixedClock makeTestGames "Vålerenga" [Alarm1Day] "2025/2026").2
      h1 h2 h3⟩

set_option maxRecDepth 100000 in
/-- C3 as stated fails: with the season name `2025\n2026` the calendar-name
line of the output holds a line feed that no carriage return precedes. -/
theorem GenerateCalendar_crlf_fails :
    ¬ LFAfterCR (GenerateCalendar fixedClock [] "" [] "2025\n2026").data := by
  intro h
  have e : (GenerateCalendar fixedClock [] "" [] "2025\n2026").data =
      "BEGIN:VCALENDAR\r\nVERSION:2.0\r\nPRODID:-//Hockeykalender//EHL//NO\r\nCALSCALE:GREGORIAN\r\nMETHOD:PUBLISH\r\nX-WR-CALNAME:EHL 2025".data
        ++ '\n' :: "2026\r\nEND:VCALENDAR\r\n".data := by decide
  obtain ⟨p, hp⟩ := h _ _ e
  have h2 := congrArg List.getLast? hp
  have h3 : "BEGIN:VCALENDAR\r\nVERSION:2.0\r\nPRODID:-//Hockeykalender//EHL//NO\r\nCALSCALE:GREGORIAN\r\nMETHOD:PUBLISH\r\nX-WR-CALNAME:EHL 2025".data.getLast? =
      some '5' := by decide
  rw [List.getLast?_append, h3] at h2
  simp at h2

/-- C7: the output of `GenerateCalendar` is the five fixed header lines, then
the calendar-name line, which is `X-WR-CALNAME:EHL ` and the season name for an
empty filter and `X-WR-CALNAME:`, the filter, ` - EHL ` and the season name
otherwise, then the event blocks, then `END:VCALENDAR` and CRLF, with which it
ends. -/
theorem GenerateCalendar_calname (clock : Nat → Time) (games : List Game)
    (teamFilter : String) (alarms : List Alarm) (seasonName : String) :
    GenerateCalendar clock games teamFilter alarms seasonName =
      "BEGIN:VCALENDAR\r\n" ++ "VERSION:2.0\r\n" ++ "PRODID:-//Hockeykalender//EHL//NO\r\n" ++
        "CALSCALE:GREGORIAN\r\n" ++ "METHOD:PUBLISH\r\n" ++
        ((if teamFilter = "" then "X-WR-CALNAME:EHL " ++ seasonName
          else "X-WR-CALNAME:" ++ teamFilter ++ " - EHL " ++ seasonName) ++ "\r\n") ++
        concat (eventBlocks clock alarms
          (if teamFilter = "" then games else gamesOfTeam games teamFilter)) ++
        "END:VCALENDAR\r\n" ∧
    HasSuffix (GenerateCalendar clock games teamFilter alarms seasonName)
      "END:VCALENDAR\r\n" = true := by
  have h := GenerateCalendar_eq clock games teamFilter alarms seasonName
  rw [gamesOfTeam_eq] at h
  refine ⟨h, ?_⟩
  rw [h]
  simp only [HasSuffix, String.data_append, List.isSuffixOf_iff_suffix]
  exact List.suffix_append _ _

/-! ## The output writer -/

theorem writeCombos_names (fs : FileSystem) (clocks : Nat → Nat → Time) (dir : String)
    (games : List Game) (seasonName teamFilter slug : String) (combos : List (List Alarm)) :
    ∀ st : RunState,
      ∃ k, k ≤ combos.length ∧
        (writeCombos fs clocks dir games seasonName teamFilter slug combos st).1.written.map
            Prod.fst = st.written.map Prod.fst ++ (combos.take k).map (Filename slug) ∧
        (writeCombos fs clocks dir games seasonName teamFilter slug combos st).1.stats.FilesWritten
          = st.stats.FilesWritten + k ∧
        ((writeCombos fs clocks dir games seasonName teamFilter slug combos st).2 = none →
          k = combos.length) ∧
        ((∀ w p c, fs.WriteFile w p c = none) →
          (writeCombos fs clocks dir games seasonName teamFilter slug combos st).2 = none) := by
  induction combos with
  | nil => intro st; exact ⟨0, by simp [writeCombos]⟩
  | cons alarms rest ih =>
    intro st
    rw [writeCombos]
    cases hwc : WriteCalendar fs st.written dir (Filename slug alarms)
        (GenerateCalendar (clocks st.written.length) games teamFilter alarms seasonName) with
    | some err =>
      refine ⟨0, by simp, by simp, by simp, by simp, ?_⟩
      intro hw
      simp [WriteCalendar, hw] at hwc
    | none =>
      obtain ⟨k, hk, h1, h2, h3, h4⟩ := ih
        { stats := { FilesWritten := st.stats.FilesWritten + 1,
                     TotalBytes := st.stats.TotalBytes +
                       (GenerateCalendar (clocks st.written.length) games teamFilter alarms
                         seasonName).utf8ByteSize },
          written := st.written ++ [(Filename slug alarms,
            GenerateCalendar (clocks st.written.length) games teamFilter alarms seasonName)] }
      refine ⟨k + 1, by simp [hk], ?_, ?_, ?_, h4⟩
      · rw [h1]; simp
      · rw [h2]; simp only; omega
      · intro h; simp [h3 h]

theorem writeTeams_names (u : UnicodeData) (fs : FileSystem) (clocks : Nat → Nat → Time)
    (dir : String) (games : List Game) (seasonName : String) (combos : List (List Alarm))
    (teams : List Team) :
    ∀ st : RunState,
      ∃ names, names <+: teams.flatMap (fun team => combos.map (Filename (team.Slug u))) ∧
        (writeTeams u fs clocks dir games seasonName combos teams st).1.written.map Prod.fst
          = st.written.map Prod.fst ++ names ∧
        (writeTeams u fs clocks dir games seasonName combos teams st).1.stats.FilesWritten
          = st.stats.FilesWritten + names.length ∧
        ((writeTeams u fs clocks dir games seasonName combos teams st).2 = none →
          names = teams.flatMap (fun team => combos.map (Filename (team.Slug u)))) ∧
        ((∀ w p c, fs.WriteFile w p c = none) →
          (writeTeams u fs clocks dir games seasonName combos teams st).2 = none) := by
  induction teams with
  | nil => intro st; exact ⟨[], by simp [writeTeams]⟩
  | cons team rest ih =>
    intro st
    obtain ⟨k, hk, h1, h2, h3, h4⟩ :=
      writeCombos_names fs clocks dir games seasonName team.ShortName (team.Slug u) combos st
    rw [writeTeams]
    cases hwc : writeCombos fs clocks dir games seasonName team.ShortName (team.Slug u) combos st
      with
    | mk st' e =>
      rw [hwc] at h1 h2 h3 h4
      simp only at h1 h2 h3 h4
      cases e with
      | some err =>
        refine ⟨(combos.take k).map (Filename (team.Slug u)), ?_, h1, by simp [h2, hk], by simp,
          ?_⟩
        · rw [List.flatMap_cons]
          exact ((List.take_prefix k combos).map _).trans (List.prefix_append _ _)
        · intro hw; simpa using h4 hw
      | none =>
        have hkl : k = combos.length := h3 rfl
        subst hkl
        rw [List.take_length] at h1
        obtain ⟨names, g1, g2, g3, g4, g5⟩ := ih st'
        refine ⟨combos.map (Filename (team.Slug u)) ++ names, ?_, ?_, ?_, ?_, g5⟩
        · rw [List.flatMap_cons]
          exact (List.prefix_append_right_inj _).2 g1
        · simp only; rw [g2, h1, List.append_assoc]
        · simp only; rw [g3, h2]; simp; omega
        · intro h
          simp only at h
          rw [g4 h, List.flatMap_cons]

theorem GenerateAllCalendars_names (u : UnicodeData) (fs : FileSystem)
    (clocks : Nat → Nat → Time) (dir : String) (games : List Game) (teams : List Team)
    (seasonName : String) :
    (GenerateAllCalendars u fs clocks dir games teams seasonName).1.written.map Prod.fst
      <+: allFilenames u teams ∧
    (GenerateAllCalendars u fs clocks dir games teams seasonName).1.stats.FilesWritten =
      (GenerateAllCalendars u fs clocks dir games teams seasonName).1.written.length ∧
    ((GenerateAllCalendars u fs clocks dir games teams seasonName).2 = none →
      (GenerateAllCalendars u fs clocks dir games teams seasonName).1.written.map Prod.fst
        = allFilenames u teams) ∧
    (fs.MkdirAll dir = none → (∀ w p c, fs.WriteFile w p c = none) →
      (GenerateAllCalendars u fs clocks dir games teams seasonName).2 = none) := by
  unfold GenerateAllCalendars allFilenames
  simp only
  cases hmk : fs.MkdirAll dir with
  | some err => simp
  | none =>
    simp only
    obtain ⟨names, g1, g2, g3, g4, g5⟩ := writeTeams_names u fs clocks dir games seasonName
      GenerateAlarmCombinations teams
      { stats := { FilesWritten := 0, TotalBytes := 0 }, written := [] }
    cases hwt : writeTeams u fs clocks dir games seasonName GenerateAlarmCombinations teams
      { stats := { FilesWritten := 0, TotalBytes := 0 }, written := [] } with
    | mk st' e =>
      rw [hwt] at g2 g3 g4 g5
      simp only [List.map_nil, List.nil_append, Nat.zero_add] at g2 g3 g4 g5
      have hlen : st'.written.length = names.length := by
        rw [← List.length_map st'.written Prod.fst, g2]
      cases e with
      | some err =>
        simp only
        refine ⟨?_, by rw [g3, hlen], by simp, ?_⟩
        · rw [g2]; exact g1.trans (List.prefix_append _ _)
        · intro _ hw; simpa using g5 hw
      | none =>
        simp only
        have hn := g4 rfl
        obtain ⟨k, hk, h1, h2, h3, h4⟩ := writeCombos_names fs clocks dir games seasonName ""
          "ehl" GenerateAlarmCombinations st'
        refine ⟨?_, ?_, ?_, fun _ hw => h4 hw⟩
        · rw [h1, g2, hn]
          exact (List.prefix_append_right_inj _).2 ((List.take_prefix k _).map _)
        · rw [h2, g3, ← List.length_map _ Prod.fst, h1, g2]
          simp [hk]
        · intro h
          rw [h1, g2, hn, h3 h, List.take_length]

theorem length_flatMap_const {α β : Type} (f : α → List β) (n : Nat) (l : List α)
    (h : ∀ x, (f x).length = n) : (l.flatMap f).length = l.length * n := by
  induction l with
  | nil => simp
  | cons x rest ih => rw [List.flatMap_cons, List.length_append, ih, h, List.length_cons]; ring

/-- C1: when the output directory can be created and no write fails,
`GenerateAllCalendars` returns no error, reports `FilesWritten = (T+1)*16` for
`T` teams, and the names it writes are `Filename (team.Slug) c` for each team in
list order and each of the 16 alarm combinations `c` in order, followed by
`Filename "ehl" c` for each of the 16 combinations. -/
theorem GenerateAllCalendars_files (u : UnicodeData) (fs : FileSystem)
    (clocks : Nat → Nat → Time) (dir : String) (games : List Game) (teams : List Team)
    (seasonName : String) (hmk : fs.MkdirAll dir = none)
    (hw : ∀ written path content, fs.WriteFile written path content = none) :
    (GenerateAllCalendars u fs clocks dir games teams seasonName).2 = none ∧
    (GenerateAllCalendars u fs clocks dir games teams seasonName).1.stats.FilesWritten =
      (teams.length + 1) * 16 ∧
    (GenerateAllCalendars u fs clocks dir games teams seasonName).1.written.map Prod.fst =
      teams.flatMap (fun team => GenerateAlarmCombinations.map (Filename (team.Slug u))) ++
        GenerateAlarmCombinations.map (Filename "ehl") ∧
    GenerateAlarmCombinations.length = 16 := by
  obtain ⟨_, h2, h3, h4⟩ := GenerateAllCalendars_names u fs clocks dir games teams seasonName
  have herr := h4 hmk hw
  have hnames := h3 herr
  refine ⟨herr, ?_, hnames, by decide⟩
  rw [h2, ← List.length_map _ Prod.fst, hnames, allFilenames]
  have h16 : GenerateAlarmCombinations.length = 16 := by decide
  rw [List.length_append, length_flatMap_const _ 16 _ (by intro x; rw [List.length_map, h16]),
    List.length_map, h16]
  ring

theorem Filename_eq_append (slug : String) (alarms : List Alarm) :
    Filename slug alarms = slug ++ Filename "" alarms := by
  unfold Filename
  simp only
  split <;> (apply String.ext; simp)

theorem ending_split :
    ∀ c1 ∈ GenerateAlarmCombinations, ∀ c2 ∈ GenerateAlarmCombinations, ∀ a : List Char,
      (Filename "" c1).data = a ++ (Filename "" c2).data →
      a = [] ∨ ∃ alarm ∈ AllAlarms, ("-" ++ alarm.Suffix).data <:+ a := by
  have key : ∀ c1 ∈ GenerateAlarmCombinations, ∀ c2 ∈ GenerateAlarmCombinations,
      (Filename "" c1).data.take ((Filename "" c1).data.length - (Filename "" c2).data.length)
          ++ (Filename "" c2).data = (Filename "" c1).data →
      (Filename "" c1).data.take ((Filename "" c1).data.length - (Filename "" c2).data.length)
          = [] ∨
        ∃ alarm ∈ AllAlarms, ("-" ++ alarm.Suffix).data <:+
          (Filename "" c1).data.take
            ((Filename "" c1).data.length - (Filename "" c2).data.length) := by
    decide
  intro c1 h1 c2 h2 a h
  have ha : a = (Filename "" c1).data.take
      ((Filename "" c1).data.length - (Filename "" c2).data.length) := by
    rw [h]; simp
  rw [ha]
  apply key c1 h1 c2 h2
  rw [← ha, ← h]

theorem Filename_collision (s1 s2 : String) (c1 c2 : List Alarm)
    (h1 : c1 ∈ GenerateAlarmCombinations) (h2 : c2 ∈ GenerateAlarmCombinations)
    (h : Filename s1 c1 = Filename s2 c2) :
    s1 = s2 ∨ (∃ alarm ∈ AllAlarms, HasSuffix s1 ("-" ++ alarm.Suffix) = true) ∨
      ∃ alarm ∈ AllAlarms, HasSuffix s2 ("-" ++ alarm.Suffix) = true := by
  rw [Filename_eq_append s1, Filename_eq_append s2] at h
  have hd := congrArg String.data h
  simp only [String.data_append] at hd
  rcases List.append_eq_append_iff.1 hd with ⟨a, e1, e2⟩ | ⟨a, e1, e2⟩
  · rcases ending_split c1 h1 c2 h2 a e2 with rfl | ⟨alarm, ha, hs⟩
    · left; apply String.ext; simpa using e1.symm
    · right; right
      refine ⟨alarm, ha, ?_⟩
      simp only [HasSuffix, List.isSuffixOf_iff_suffix]
      rw [e1]
      exact hs.trans (List.suffix_append _ _)
  · rcases ending_split c2 h2 c1 h1 a e2 with rfl | ⟨alarm, ha, hs⟩
    · left; apply String.ext; simpa using e1
    · right; left
      refine ⟨alarm, ha, ?_⟩
      simp only [HasSuffix, List.isSuffixOf_iff_suffix]
      rw [e1]
      exact hs.trans (List.suffix_append _ _)

theorem allFilenames_eq (u : UnicodeData) (teams : List Team) :
    allFilenames u teams =
      (teams.map (Team.Slug u) ++ ["ehl"]).flatMap
        fun slug => GenerateAlarmCombinations.map (Filename slug) := by
  simp [allFilenames, List.flatMap_map]

theorem allFilenames_nodup (u : UnicodeData) (teams : List Team)
    (hslug : (teams.map (Team.Slug u)).Nodup)
    (hehl : ∀ team ∈ teams, team.Slug u ≠ "ehl")
    (htok : ∀ team ∈ teams, ∀ alarm ∈ AllAlarms,
      HasSuffix (team.Slug u) ("-" ++ alarm.Suffix) = false) :
    (allFilenames u teams).Nodup := by
  have hstems : (teams.map (Team.Slug u) ++ ["ehl"]).Nodup := by
    rw [List.nodup_append]
    refine ⟨hslug, by simp, ?_⟩
    intro s hs he
    simp only [List.mem_singleton] at he
    obtain ⟨team, ht, rfl⟩ := List.mem_map.1 hs
    exact hehl team ht he
  have hno : ∀ s ∈ teams.map (Team.Slug u) ++ ["ehl"], ∀ alarm ∈ AllAlarms,
      HasSuffix s ("-" ++ alarm.Suffix) = false := by
    intro s hs
    rcases List.mem_append.1 hs with h | h
    · obtain ⟨team, ht, rfl⟩ := List.mem_map.1 h
      exact htok team ht
    · simp only [List.mem_singleton] at h
      rw [h]
      decide
  have hcombos : GenerateAlarmCombinations.Nodup := by decide
  have hinj : ∀ c1 ∈ GenerateAlarmCombinations, ∀ c2 ∈ GenerateAlarmCombinations,
      Filename "" c1 = Filename "" c2 → c1 = c2 := by decide
  rw [allFilenames_eq, List.nodup_flatMap]
  constructor
  · intro s _
    apply List.Nodup.map_on _ hcombos
    intro c1 h1 c2 h2 h
    apply hinj c1 h1 c2 h2
    rw [Filename_eq_append s c1, Filename_eq_append s c2] at h
    have hd := congrArg String.data h
    simp only [String.data_append, List.append_cancel_left_eq] at hd
    exact String.ext hd
  · refine List.Pairwise.imp_of_mem ?_ hstems
    intro s1 s2 hs1 hs2 hne
    simp only [Function.onFun, List.disjoint_left]
    intro name hn1 hn2
    obtain ⟨c1, hc1, rfl⟩ := List.mem_map.1 hn1
    obtain ⟨c2, hc2, e⟩ := List.mem_map.1 hn2
    rcases Filename_collision s2 s1 c2 c1 hc2 hc1 e with h | ⟨alarm, ha, h⟩ | ⟨alarm, ha, h⟩
    · exact hne h.symm
    · rw [hno s2 hs2 alarm ha] at h; exact Bool.false_ne_true h
    · rw [hno s1 hs1 alarm ha] at h; exact Bool.false_ne_true h

/-- C2 (amended): if the slugs of the teams are pairwise distinct, none of them
is `ehl`, and none ends in `-1d`, `-3h`, `-1h` or `-15m`, then the `(T+1)*16`
names `GenerateAllCalendars` is to write are pairwise distinct, and so are the
names a run writes, whether or not a write fails. -/
theorem GenerateAllCalendars_names_distinct (u : UnicodeData) (fs : FileSystem)
    (clocks : Nat → Nat → Time) (dir : String) (games : List Game) (teams : List Team)
    (seasonName : String)
    (hslug : (teams.map (Team.Slug u)).Nodup)
    (hehl : ∀ team ∈ teams, team.Slug u ≠ "ehl")
    (htok : ∀ team ∈ teams, ∀ alarm ∈ AllAlarms,
      HasSuffix (team.Slug u) ("-" ++ alarm.Suffix) = false) :
    (allFilenames u teams).Nodup ∧
    ((GenerateAllCalendars u fs clocks dir games teams seasonName).1.written.map
      Prod.fst).Nodup :=
  ⟨allFilenames_nodup u teams hslug hehl htok,
    (GenerateAllCalendars_names u fs clocks dir games teams seasonName).1.sublist.nodup
      (allFilenames_nodup u teams hslug hehl htok)⟩

/-- Witness for C1: two teams on a file system that never fails give 48 files. -/
theorem GenerateAllCalendars_files_witness :
    okFileSystem.MkdirAll "public" = none ∧
    (∀ written path content, okFileSystem.WriteFile written path content = none) ∧
    (GenerateAllCalendars asciiData okFileSystem (fun _ => fixedClock) "public" makeTestGames
      sampleTeams "2025/2026").1.stats.FilesWritten = (sampleTeams.length + 1) * 16 ∧
    sampleTeams.length = 2 :=
  ⟨rfl, fun _ _ _ => rfl,
    (GenerateAllCalendars_files asciiData okFileSystem (fun _ => fixedClock) "public"
      makeTestGames sampleTeams "2025/2026" rfl (fun _ _ _ => rfl)).2.1, rfl⟩

/-- Witness for C2 (amended): the slugs `frisk-asker` and `storhamar` meet the three
conditions. -/
theorem GenerateAllCalendars_names_distinct_witness :
    (sampleTeams.map (Team.Slug asciiData)).Nodup ∧
    (∀ team ∈ sampleTeams, team.Slug asciiData ≠ "ehl") ∧
    (∀ team ∈ sampleTeams, ∀ alarm ∈ AllAlarms,
      HasSuffix (team.Slug asciiData) ("-" ++ alarm.Suffix) = false) ∧
    ((GenerateAllCalendars asciiData okFileSystem (fun _ => fixedClock) "public" makeTestGames
      sampleTeams "2025/2026").1.written.map Prod.fst).Nodup :=
  ⟨by decide, by decide, by decide,
    (GenerateAllCalendars_names_distinct asciiData okFileSystem (fun _ => fixedClock) "public"
      makeTestGames sampleTeams "2025/2026" (by decide) (by decide) (by decide)).2⟩

set_option maxRecDepth 100000 in
/-- C2 as stated fails: two different teams with the same short name, a team
whose short name is `EHL`, and the pair of teams `Oilers` and `Oilers 1d` each
make a run write some name twice. -/
theorem GenerateAllCalendars_names_collide :
    ¬ ((GenerateAllCalendars asciiData okFileSystem (fun _ => fixedClock) "public" []
        sameNameTeams "2025/2026").1.written.map Prod.fst).Nodup ∧
    ¬ ((GenerateAllCalendars asciiData okFileSystem (fun _ => fixedClock) "public" []
        leagueNamedTeam "2025/2026").1.written.map Prod.fst).Nodup ∧
    ¬ ((GenerateAllCalendars asciiData okFileSystem (fun _ => fixedClock) "public" []
        suffixNamedTeams "2025/2026").1.written.map Prod.fst).Nodup := by
  decide

/-! ## Civil time -/

theorem yearOfEra_step (yoe doy doe : Int)
    (hyoe : 0 ≤ yoe ∧ yoe ≤ 399) (hdoy0 : 0 ≤ doy ∧ doy ≤ 365)
    (hleap : doy = 365 → ((yoe + 1) % 4 = 0 ∧ ((yoe + 1) % 100 ≠ 0 ∨ yoe = 399)))
    (hdoe : yoe * 365 + yoe / 4 - yoe / 100 + doy = doe) :
    (doe - doe / 1460 + doe / 36524 - doe / 146096) / 365 = yoe := by
  have hc : yoe / 100 = 0 ∨ yoe / 100 = 1 ∨ yoe / 100 = 2 ∨ yoe / 100 = 3 := by omega
  have hg : doe / 146096 = 0 ∨ (doe / 146096 = 1 ∧ doe = 146096) := by omega
  have hl : doy ≤ 364 ∨ (doy = 365 ∧ yoe ≠ 99 ∧ yoe ≠ 199 ∧ yoe ≠ 299) := by omega
  have hfg : doe / 36524 - doe / 146096 = yoe / 100 := by
    rcases hc with hc | hc | hc | hc <;> rcases hg with hg | hg <;> rcases hl with hl | hl <;>
      omega
  have he : (doe / 1460 = yoe / 4 ∧ doy ≤ 364) ∨ (doe / 1460 = yoe / 4 + 1 ∧ 1 ≤ doy) := by
    rcases hc with hc | hc | hc | hc <;> rcases hl with hl | hl <;> omega
  omega

theorem civilFromDays_daysFromCivil (y m d : Int) (hm1 : 1 ≤ m) (hm2 : m ≤ 12) (hd1 : 1 ≤ d)
    (hd2 : d ≤ daysInMonth y m) :
    civilFromDays (daysFromCivil y m d) = (y, m, d) := by
  unfold daysInMonth isLeapYear at hd2
  unfold civilFromDays daysFromCivil
  simp only
  generalize hy' : (if m ≤ 2 then y - 1 else y) = y'
  generalize hmp : (if m > 2 then m - 3 else m + 9) = mp
  have hmpb : 0 ≤ mp ∧ mp ≤ 11 := by subst hmp; split <;> omega
  generalize hera : y' / 400 = era
  generalize hyoe : y' - era * 400 = yoe
  have hyoeb : 0 ≤ yoe ∧ yoe ≤ 399 := by omega
  generalize hdoy : (153 * mp + 2) / 5 + d - 1 = doy
  have hmcases : m = 1 ∨ m = 2 ∨ m = 3 ∨ m = 4 ∨ m = 5 ∨ m = 6 ∨ m = 7 ∨ m = 8 ∨ m = 9 ∨
      m = 10 ∨ m = 11 ∨ m = 12 := by omega
  have hdoyb : 0 ≤ doy ∧ doy ≤ 365 := by
    subst hmp
    split at hd2 <;> split at hd2 <;> omega
  have hleap : doy = 365 → ((yoe + 1) % 4 = 0 ∧ ((yoe + 1) % 100 ≠ 0 ∨ yoe = 399)) := by
    intro h365
    have hm : m = 2 := by
      subst hmp
      rcases hmcases with h | h | h | h | h | h | h | h | h | h | h | h <;> subst h <;>
        simp at hd2 hdoy <;> omega
    subst hm
    simp only [if_true] at hd2
    split at hd2
    · rename_i hl
      simp only [decide_eq_true_eq] at hl
      omega
    · subst hmp; simp at hdoy; omega
  generalize hdoe : yoe * 365 + yoe / 4 - yoe / 100 + doy = doe
  have hdoeb : 0 ≤ doe ∧ doe ≤ 146096 := by omega
  have e1 : era * 146097 + doe - 719468 + 719468 = era * 146097 + doe := by ring
  rw [e1]
  have hera' : (era * 146097 + doe) / 146097 = era := by omega
  rw [hera']
  have hdoe' : era * 146097 + doe - era * 146097 = doe := by ring
  rw [hdoe']
  rw [yearOfEra_step yoe doy doe hyoeb hdoyb hleap hdoe]
  have hdoy' : doe - (365 * yoe + yoe / 4 - yoe / 100) = doy := by omega
  rw [hdoy']
  have hmp' : (5 * doy + 2) / 153 = mp := by
    subst hmp
    rcases hmcases with h | h | h | h | h | h | h | h | h | h | h | h <;> subst h <;>
      simp at hd2 hdoy ⊢ <;> (try split at hd2) <;> omega
  rw [hmp']
  have hd' : doy - (153 * mp + 2) / 5 + 1 = d := by omega
  rw [hd']
  have hm' : (if mp < 10 then mp + 3 else mp - 9) = m := by
    subst hmp; split <;> split <;> omega
  rw [hm']
  have hyy : (if m ≤ 2 then yoe + era * 400 + 1 else yoe + era * 400) = y := by
    subst hy'; split <;> omega
  rw [hyy]

theorem FormatUTC_Date (y m d hh mm ss : Int) (h : ValidCivil y m d hh mm ss) :
    (Date y m d hh mm ss).FormatUTC =
      appendInt y 4 ++ appendInt m 2 ++ appendInt d 2 ++ "T" ++
        appendInt hh 2 ++ appendInt mm 2 ++ appendInt ss 2 ++ "Z" := by
  obtain ⟨hm1, hm2, hd1, hd2, hh1, hh2, hmm1, hmm2, hs1, hs2⟩ := h
  have hc := civilFromDays_daysFromCivil y m d hm1 hm2 hd1 hd2
  unfold Time.FormatUTC Date
  simp only [Second, Millisecond, Microsecond, Nanosecond]
  generalize daysFromCivil y m d = D at hc ⊢
  have hsec : (D * 86400 + hh * 3600 + mm * 60 + ss) * (1000 * (1000 * (1000 * 1))) / 1000000000
      = D * 86400 + hh * 3600 + mm * 60 + ss := by omega
  rw [hsec]
  have hdays : (D * 86400 + hh * 3600 + mm * 60 + ss) / 86400 = D := by omega
  have hrem : (D * 86400 + hh * 3600 + mm * 60 + ss) % 86400 = hh * 3600 + mm * 60 + ss := by
    omega
  rw [hdays, hrem, hc]
  have h1 : (hh * 3600 + mm * 60 + ss) / 3600 = hh := by omega
  have h2 : (hh * 3600 + mm * 60 + ss) % 3600 / 60 = mm := by omega
  have h3 : (hh * 3600 + mm * 60 + ss) % 60 = ss := by omega
  rw [h1, h2, h3]

theorem daysFromCivil_next_month (y m : Int) (hm1 : 1 ≤ m) (hm2 : m ≤ 11) :
    daysFromCivil y m (daysInMonth y m + 1) = daysFromCivil y (m + 1) 1 := by
  unfold daysFromCivil daysInMonth isLeapYear
  have hmcases : m = 1 ∨ m = 2 ∨ m = 3 ∨ m = 4 ∨ m = 5 ∨ m = 6 ∨ m = 7 ∨ m = 8 ∨ m = 9 ∨
      m = 10 ∨ m = 11 := by omega
  rcases hmcases with h | h | h | h | h | h | h | h | h | h | h <;> subst h <;> simp
  split <;> omega

theorem daysFromCivil_next_year (y : Int) :
    daysFromCivil y 12 32 = daysFromCivil (y + 1) 1 1 := by
  unfold daysFromCivil
  simp

theorem Date_two_hours_later (y m d hh mm ss : Int) (h : ValidCivil y m d hh mm ss) :
    (⟨(Date y m d hh mm ss).unixNano + GameDuration⟩ : Time) =
      Date (twoHoursLater y m d hh).1 (twoHoursLater y m d hh).2.1
        (twoHoursLater y m d hh).2.2.1 (twoHoursLater y m d hh).2.2.2 mm ss ∧
    ValidCivil (twoHoursLater y m d hh).1 (twoHoursLater y m d hh).2.1
      (twoHoursLater y m d hh).2.2.1 (twoHoursLater y m d hh).2.2.2 mm ss := by
  obtain ⟨hm1, hm2, hd1, hd2, hh1, hh2, hmm1, hmm2, hs1, hs2⟩ := h
  have hday : ∀ x, daysFromCivil y m (x + 1) = daysFromCivil y m x + 1 := by
    intro x; unfold daysFromCivil; simp only; omega
  unfold twoHoursLater
  split
  · dsimp only
    refine ⟨?_, hm1, hm2, hd1, hd2, by omega, by omega, hmm1, hmm2, hs1, hs2⟩
    simp only [Date, GameDuration, Hour, Minute, Second, Millisecond, Microsecond,
      Nanosecond, Time.mk.injEq]
    ring
  · split
    · dsimp only
      refine ⟨?_, hm1, hm2, by omega, by assumption, by omega, by omega, hmm1, hmm2, hs1, hs2⟩
      simp only [Date, GameDuration, Hour, Minute, Second, Millisecond, Microsecond,
        Nanosecond, Time.mk.injEq, hday]
      ring
    · have hdl : d = daysInMonth y m := by omega
      split
      · dsimp only
        refine ⟨?_, by omega, by omega, le_refl 1, ?_, by omega, by omega, hmm1, hmm2, hs1, hs2⟩
        · simp only [Date, GameDuration, Hour, Minute, Second, Millisecond,
            Microsecond, Nanosecond, Time.mk.injEq]
          rw [← daysFromCivil_next_month y m hm1 (by omega), hday, ← hdl]
          ring
        · unfold daysInMonth; split <;> split <;> omega
      · have hm12 : m = 12 := by omega
        subst hm12
        have hd31 : d = 31 := by rw [hdl]; simp [daysInMonth]
        subst hd31
        dsimp only
        refine ⟨?_, by omega, by omega, le_refl 1, ?_, by omega, by omega, hmm1, hmm2, hs1, hs2⟩
        · simp only [Date, GameDuration, Hour, Minute, Second, Millisecond,
            Microsecond, Nanosecond, Time.mk.injEq]
          rw [← daysFromCivil_next_year y, show (32 : Int) = 31 + 1 from rfl, hday]
          ring
        · simp [daysInMonth]

theorem Add_GameDuration (t : Time) (hlo : -9223372036854775808 ≤ t.sec)
    (hhi : t.sec + 7200 ≤ 9223372036854775807) :
    t.Add GameDuration = ⟨t.unixNano + GameDuration⟩ := by
  have hd : GameDuration = 7200000000000 := by decide
  have h1 : Int.tdiv (7200000000000 : Int) 1000000000 = 7200 := by decide
  have h2 : Int.tmod (7200000000000 : Int) 1000000000 = 0 := by decide
  unfold Time.Add
  rw [hd]
  simp only [h1, h2, add_zero]
  unfold Time.nsec Time.sec addSec unixToInternal at *
  have hn1 : ¬ (t.unixNano % 1000000000 ≥ 1000000000) := by omega
  have hn2 : ¬ (t.unixNano % 1000000000 < 0) := by omega
  rw [if_neg hn1, if_neg hn2, if_neg hn1, if_neg hn2, if_pos ⟨by omega, by omega⟩]
  congr 1
  omega

/-- C6 (amended): the event block carries `DTSTART:` followed by the start
instant formatted in UTC and `DTEND:` followed by the format of `Time.Add` of
the start and two hours; when the start is a `time.Time` at least two hours
before the last second a `time.Time` holds, that is the instant exactly two
hours after the start; and for a start at the civil time y-m-d hh:mm:ss of a
year from 0 to 9999 the two texts are the zero-padded digits `YYYYMMDDTHHMMSSZ`
of that time and of the civil time two hours later, which rolls over into the
next day, month or year as the calendar requires; 2025-09-11T17:00:00Z gives
20250911T170000Z and 20250911T190000Z. -/
theorem formatEvent_start_end (now : Time) (game : Game) (alarms : List Alarm)
    (hlo : -9223372036854775808 ≤ game.StartTime.sec)
    (hhi : game.StartTime.sec + 7200 ≤ 9223372036854775807) :
    formatEvent now game alarms =
      "BEGIN:VEVENT\r\n" ++
      ("UID:" ++ game.UUID ++ "@ehl.hockeykalender" ++ "\r\n") ++
      ("DTSTAMP:" ++ now.FormatUTC ++ "\r\n") ++
      ("DTSTART:" ++ game.StartTime.FormatUTC ++ "\r\n") ++
      ("DTEND:" ++ (game.StartTime.Add GameDuration).FormatUTC ++ "\r\n") ++
      ("SUMMARY:" ++ game.HomeTeam.ShortName ++ " vs " ++ game.AwayTeam.ShortName ++ "\r\n") ++
      ("LOCATION:" ++ game.Venue ++ "\r\n") ++
      concat (alarms.map fun alarm =>
        FormatVALARM alarm (game.HomeTeam.ShortName ++ " vs " ++ game.AwayTeam.ShortName) ++
          "\r\n") ++
      "END:VEVENT\r\n" ∧
    (game.StartTime.Add GameDuration).unixNano =
      game.StartTime.unixNano + 2 * 60 * 60 * 1000000000 ∧
    (∀ y m d hh mm ss : Int, 0 ≤ y → y ≤ 9999 → ValidCivil y m d hh mm ss →
      game.StartTime = Date y m d hh mm ss →
      game.StartTime.FormatUTC =
        appendInt y 4 ++ appendInt m 2 ++ appendInt d 2 ++ "T" ++
          appendInt hh 2 ++ appendInt mm 2 ++ appendInt ss 2 ++ "Z" ∧
      (game.StartTime.Add GameDuration).FormatUTC =
        appendInt (twoHoursLater y m d hh).1 4 ++ appendInt (twoHoursLater y m d hh).2.1 2 ++
          appendInt (twoHoursLater y m d hh).2.2.1 2 ++ "T" ++
          appendInt (twoHoursLater y m d hh).2.2.2 2 ++ appendInt mm 2 ++ appendInt ss 2 ++
          "Z") ∧
    (Date 2025 9 11 17 0 0).FormatUTC = "20250911T170000Z" ∧
    ((Date 2025 9 11 17 0 0).Add GameDuration).FormatUTC = "20250911T190000Z" ∧
    ((Date 2025 9 30 22 30 0).Add GameDuration).FormatUTC = "20251001T003000Z" ∧
    ((Date 2024 2 28 23 0 0).Add GameDuration).FormatUTC = "20240229T010000Z" ∧
    ((Date 2025 12 31 23 15 59).Add GameDuration).FormatUTC = "20260101T011559Z" := by
  have hadd := Add_GameDuration game.StartTime hlo hhi
  refine ⟨?_, ?_, ?_, by decide, by decide, by decide, by decide, by decide⟩
  · rw [formatEvent_eq]
    rfl
  · rw [hadd]
    simp only [GameDuration, Hour, Minute, Second, Millisecond, Microsecond, Nanosecond]
    ring
  · intro y m d hh mm ss _ _ hv hs
    rw [hadd, hs]
    obtain ⟨h1, h2⟩ := Date_two_hours_later y m d hh mm ss hv
    exact ⟨FormatUTC_Date y m d hh mm ss hv, by rw [h1]; exact FormatUTC_Date _ _ _ _ _ _ h2⟩

/-- Witness for C6 (amended) on the first game of `makeTestGames`, which starts
at the valid civil time 2025-09-11 17:00:00. -/
theorem formatEvent_start_end_witness :
    ValidCivil 2025 9 11 17 0 0 ∧
    (Date 2025 9 11 17 0 0).FormatUTC =
      appendInt 2025 4 ++ appendInt 9 2 ++ appendInt 11 2 ++ "T" ++
        appendInt 17 2 ++ appendInt 0 2 ++ appendInt 0 2 ++ "Z" ∧
    ((Date 2025 9 11 17 0 0).Add GameDuration).unixNano =
      (Date 2025 9 11 17 0 0).unixNano + 2 * 60 * 60 * 1000000000 ∧
    twoHoursLater 2025 9 11 17 = (2025, 9, 11, 19) ∧
    twoHoursLater 2025 12 31 23 = (2026, 1, 1, 1) ∧
    twoHoursLater 2024 2 28 22 = (2024, 2, 29, 0) ∧
    twoHoursLater 2025 2 28 22 = (2025, 3, 1, 0) :=
  have h := formatEvent_start_end (fixedClock 0)
    { UUID := "game-1", StartTime := Date 2025 9 11 17 0 0, State := "pre-game",
      HomeTeam := { UUID := "team-vif", Code := "VIF", FullName := "",
                    ShortName := "Vålerenga", Score := 0, Icon := "" },
      AwayTeam := { UUID := "team-sth", Code := "STH", FullName := "",
                    ShortName := "Storhamar", Score := 0, Icon := "" },
      Venue := "Jordal Amfi" } [] (by decide) (by decide)
  ⟨by decide, (h.2.2.1 2025 9 11 17 0 0 (by decide) (by decide) (by decide) rfl).1, h.2.1,
    by decide, by decide, by decide, by decide⟩

set_option maxRecDepth 100000 in
/-- C6 as stated fails: for a game that starts one hour before the last second
a `time.Time` holds, `Time.Add` stops at that last second, so `DTEND` is one
hour after `DTSTART`, not two. -/
theorem formatEvent_end_saturates :
    lateGame.StartTime.Representable ∧
    lateGame.StartTime.FormatUTC = "2922770246271206T143007Z" ∧
    (lateGame.StartTime.Add GameDuration).sec = 9223372036854775807 ∧
    (lateGame.StartTime.Add GameDuration).unixNano =
      lateGame.StartTime.unixNano + 60 * 60 * 1000000000 ∧
    (⟨lateGame.StartTime.unixNano + 2 * 60 * 60 * 1000000000⟩ : Time).FormatUTC =
      "2922770246271206T163007Z" ∧
    formatEvent (fixedClock 0) lateGame [] =
      "BEGIN:VEVENT\r\nUID:late@ehl.hockeykalender\r\nDTSTAMP:20250901T120000Z\r\n" ++
        "DTSTART:2922770246271206T143007Z\r\nDTEND:2922770246271206T153007Z\r\n" ++
        "SUMMARY:Vålerenga vs Storhamar\r\nLOCATION:Jordal Amfi\r\nEND:VEVENT\r\n" := by
  decide

theorem replaceNorwegian_eq (s : List Char) : replaceNorwegian s = slugSubstitute s := by
  unfold replaceNorwegian slugSubstitute
  induction s with
  | nil => rfl
  | cons c rest ih =>
    simp only [List.flatMap_cons, List.flatMap_append, ih]
    congr 1
    by_cases h1 : c = 'æ'
    · subst h1; decide
    · by_cases h2 : c = 'ø'
      · subst h2; decide
      · simp [h1, h2]

/-- C11: `Team.Slug` is the four steps in this order, for every Unicode data:
lower-case the short name, replace æ by ae and ø by o, decompose and strip the
combining marks and recompose, replace every space by a hyphen. With the
Latin-1 data the short names Vålerenga, Frisk Asker, Stavanger Oilers and
Lørenskog give valerenga, frisk-asker, stavanger-oilers and lorenskog. -/
theorem Slug_steps (u : UnicodeData) (t : Team) :
    t.Slug u =
      String.mk (slugHyphenate (slugStripMarks u (slugSubstitute
        (slugLowercase u t.ShortName.data)))) ∧
    (teamNamed "Vålerenga").Slug latin1Data = "valerenga" ∧
    (teamNamed "Frisk Asker").Slug latin1Data = "frisk-asker" ∧
    (teamNamed "Stavanger Oilers").Slug latin1Data = "stavanger-oilers" ∧
    (teamNamed "Lørenskog").Slug latin1Data = "lorenskog" := by
  refine ⟨?_, by decide, by decide, by decide, by decide⟩
  unfold Team.Slug slugHyphenate slugStripMarks slugLowercase
  simp only [replaceNorwegian_eq]

theorem Slug_no_space (u : UnicodeData) (t : Team) : ' ' ∉ (t.Slug u).data := by
  unfold Team.Slug
  simp only [List.mem_map, not_exists, not_and]
  intro c _ h
  split at h
  · exact absurd h (by decide)
  · rename_i hc; exact hc h

/-- The characters that one character of a short name contributes to the slug
under `latin1Data`. -/
theorem Slug_latin1_mem (t : Team) (c : Char) (h : c ∈ (t.Slug latin1Data).data) :
    ∃ x ∈ t.ShortName.data,
      c ∈ ((teamNamed (String.mk [x])).Slug latin1Data).data := by
  unfold Team.Slug latin1Data replaceNorwegian teamNamed at *
  simp only [List.mem_map, List.mem_filter, List.mem_flatMap, id] at h ⊢
  obtain ⟨y, ⟨⟨z, ⟨w, ⟨x, hx, hxw⟩, hw⟩, hz⟩, hy⟩, hc⟩ := h
  exact ⟨x, hx, y, ⟨⟨z, ⟨w, ⟨x, by simp, hxw⟩, hw⟩, hz⟩, hy⟩, hc⟩

set_option maxRecDepth 100000 in
theorem Slug_latin1_char :
    ∀ n, n < 256 → (n < 128 ∨ Char.ofNat n ∈ accentedLetters) →
      ∀ c ∈ ((teamNamed (String.mk [Char.ofNat n])).Slug latin1Data).data,
        c.toNat < 128 ∧ ¬ ('A' ≤ c ∧ c ≤ 'Z') ∧ c ≠ ' ' := by
  decide

/-- C12 (amended): the slug of a team never holds a space, whatever the
Unicode data; and when every character of the short name is ASCII or one of the
accented Latin-1 letters `accentedLetters`, every character of the slug is
ASCII, none is an upper-case letter and none is a space. -/
theorem Slug_ascii_lowercase (t : Team) :
    (∀ u : UnicodeData, ' ' ∉ (t.Slug u).data) ∧
    ((∀ x ∈ t.ShortName.data, x.toNat < 128 ∨ x ∈ accentedLetters) →
      ∀ c ∈ (t.Slug latin1Data).data, c.toNat < 128 ∧ ¬ ('A' ≤ c ∧ c ≤ 'Z') ∧ c ≠ ' ') := by
  refine ⟨fun u => Slug_no_space u t, ?_⟩
  intro hin c hc
  obtain ⟨x, hx, hcx⟩ := Slug_latin1_mem t c hc
  have hsmall : ∀ y ∈ accentedLetters, y.toNat < 256 := by decide
  have hx256 : x.toNat < 256 := by
    rcases hin x hx with h | h
    · omega
    · exact hsmall x h
  have hkey := Slug_latin1_char x.toNat hx256
  rw [Char.ofNat_toNat] at hkey
  exact hkey (hin x hx) c hcx

/-- C12 (amended) at the short name `Vålerenga Æø`: the slug is `valerenga-aeo`. -/
theorem Slug_ascii_lowercase_witness :
    (∀ x ∈ (teamNamed "Vålerenga Æø").ShortName.data, x.toNat < 128 ∨ x ∈ accentedLetters) ∧
    (teamNamed "Vålerenga Æø").Slug latin1Data = "valerenga-aeo" ∧
    ∀ c ∈ ((teamNamed "Vålerenga Æø").Slug latin1Data).data,
      c.toNat < 128 ∧ ¬ ('A' ≤ c ∧ c ≤ 'Z') ∧ c ≠ ' ' :=
  ⟨by decide, by decide, (Slug_ascii_lowercase (teamNamed "Vålerenga Æø")).2 (by decide)⟩

/-- C12 as stated fails: the short name `Weißwasser` has the slug `weißwasser`,
which holds the character ß outside ASCII (it has no decomposition and no
replacement). -/
theorem Slug_keeps_sharp_s :
    (teamNamed "Weißwasser").Slug latin1Data = "weißwasser" ∧
    ∃ c ∈ ((teamNamed "Weißwasser").Slug latin1Data).data, ¬ c.toNat < 128 := by
  decide

theorem Join_cons (a : String) (l : List String) (sep : String) :
    Join (a :: l) sep = a ++ concat (l.map fun x => sep ++ x) := by
  induction l generalizing a with
  | nil => apply String.ext; simp [Join, concat]
  | cons b rest ih =>
    rw [Join, ih]
    apply String.ext
    simp [concat]

theorem intercalate_go_eq (acc sep : String) (l : List String) :
    String.intercalate.go acc sep l = acc ++ concat (l.map fun x => sep ++ x) := by
  induction l generalizing acc with
  | nil => apply String.ext; simp [String.intercalate.go, concat]
  | cons b rest ih =>
    rw [String.intercalate.go, ih]
    apply String.ext
    simp [concat]

theorem Join_eq_intercalate (l : List String) (sep : String) :
    Join l sep = sep.intercalate l := by
  cases l with
  | nil => rfl
  | cons a rest => rw [Join_cons, String.intercalate, intercalate_go_eq]

theorem Join_concat (l : List String) (z sep : String) (h : l ≠ []) :
    Join (l ++ [z]) sep = Join l sep ++ sep ++ z := by
  cases l with
  | nil => exact absurd rfl h
  | cons a rest =>
    rw [List.cons_append, Join_cons, Join_cons]
    apply String.ext
    simp [concat]

theorem AlarmSetSuffix_eq_Join (alarms : List Alarm) :
    AlarmSetSuffix alarms = Join (alarms.map Alarm.Suffix) "-" := by
  unfold AlarmSetSuffix
  split
  · rename_i h
    rw [List.length_eq_zero.1 h]
    rfl
  · rfl

theorem Suffix_of_defined (a : Alarm) (h : a ∈ AllAlarms) :
    a.Suffix ∈ ["1d", "3h", "1h", "15m"] := by
  simp only [AllAlarms, List.mem_cons, List.mem_singleton, List.not_mem_nil, or_false] at h
  rcases h with rfl | rfl | rfl | rfl <;> decide

theorem AlarmSetSuffix_ends (alarms : List Alarm) (hne : alarms ≠ [])
    (hdef : ∀ a ∈ alarms, a ∈ AllAlarms) :
    (AlarmSetSuffix alarms).data.head? ≠ some '-' ∧
    (AlarmSetSuffix alarms).data.getLast? ≠ some '-' := by
  rw [AlarmSetSuffix_eq_Join]
  constructor
  · cases alarms with
    | nil => exact absurd rfl hne
    | cons a rest =>
      rw [List.map_cons, Join_cons, String.data_append]
      have ha := Suffix_of_defined a (hdef a (by simp))
      simp only [List.mem_cons, List.mem_singleton, List.not_mem_nil, or_false] at ha
      rcases ha with h | h | h | h <;> rw [h] <;> simp
  · rcases List.eq_nil_or_concat alarms with h | ⟨init, z, h⟩
    · exact absurd h hne
    · subst h
      have hz := Suffix_of_defined z (hdef z (by simp))
      have hlast : ∀ x : List Char, (x ++ z.Suffix.data).getLast? ≠ some '-' := by
        intro x
        simp only [List.mem_cons, List.mem_singleton, List.not_mem_nil, or_false] at hz
        rcases hz with h | h | h | h <;> rw [h] <;> simp [List.getLast?_append]
      rw [List.concat_eq_append, List.map_append, List.map_cons, List.map_nil]
      by_cases hi : init.map Alarm.Suffix = []
      · rw [hi, List.nil_append]
        have := hlast []
        simpa [Join] using this
      · rw [Join_concat _ _ _ hi, String.data_append]
        exact hlast _

/-- C19: `AlarmSetSuffix` is the suffixes of the alarms in list order with `-`
between them and nowhere else (the intercalation of the suffixes); for a
non-empty list of defined alarms the result neither starts nor ends with `-`;
the empty list gives the empty text and [1 day, 1 hour] gives `1d-1h`. -/
theorem AlarmSetSuffix_joined (alarms : List Alarm) :
    AlarmSetSuffix alarms = "-".intercalate (alarms.map Alarm.Suffix) ∧
    (alarms ≠ [] → (∀ a ∈ alarms, a ∈ AllAlarms) →
      (AlarmSetSuffix alarms).data.head? ≠ some '-' ∧
      (AlarmSetSuffix alarms).data.getLast? ≠ some '-') ∧
    AlarmSetSuffix [] = "" ∧
    AlarmSetSuffix [Alarm1Day] = "1d" ∧
    AlarmSetSuffix [Alarm1Day, Alarm1Hour] = "1d-1h" ∧
    AlarmSetSuffix [Alarm1Day, Alarm3Hours, Alarm1Hour, Alarm15Min] = "1d-3h-1h-15m" := by
  refine ⟨?_, AlarmSetSuffix_ends alarms, by decide, by decide, by decide, by decide⟩
  rw [AlarmSetSuffix_eq_Join, Join_eq_intercalate]

theorem AlarmSetSuffix_ne_empty (alarms : List Alarm) (hne : alarms ≠ [])
    (hdef : ∀ a ∈ alarms, a ∈ AllAlarms) : AlarmSetSuffix alarms ≠ "" := by
  intro h
  have h1 := (AlarmSetSuffix_ends alarms hne hdef).1
  rw [AlarmSetSuffix_eq_Join] at h h1
  cases alarms with
  | nil => exact hne rfl
  | cons a rest =>
    rw [List.map_cons, Join_cons] at h
    have ha := Suffix_of_defined a (hdef a (by simp))
    have hd := congrArg String.data h
    simp only [String.data_append] at hd
    simp only [List.mem_cons, List.mem_singleton, List.not_mem_nil, or_false] at ha
    rcases ha with e | e | e | e <;> rw [e] at hd <;> simp at hd

/-- C20 (amended): `Filename slug alarms` is `slug ++ ".ics"` when
`AlarmSetSuffix alarms` is empty and `slug ++ "-" ++ AlarmSetSuffix alarms ++
".ics"` otherwise; the suffix is empty for the empty list, and not empty for a
non-empty list of defined alarms (members of `AllAlarms`). -/
theorem Filename_cases (slug : String) (alarms : List Alarm) :
    (AlarmSetSuffix alarms = "" → Filename slug alarms = slug ++ ".ics") ∧
    (AlarmSetSuffix alarms ≠ "" →
      Filename slug alarms = slug ++ "-" ++ AlarmSetSuffix alarms ++ ".ics") ∧
    (alarms = [] → Filename slug alarms = slug ++ ".ics") ∧
    (alarms ≠ [] → (∀ a ∈ alarms, a ∈ AllAlarms) →
      Filename slug alarms = slug ++ "-" ++ AlarmSetSuffix alarms ++ ".ics") ∧
    Filename "valerenga" [] = "valerenga.ics" ∧
    Filename "valerenga" [Alarm1Day, Alarm1Hour] = "valerenga-1d-1h.ics" ∧
    Filename "ehl" [Alarm1Day, Alarm3Hours, Alarm1Hour, Alarm15Min] = "ehl-1d-3h-1h-15m.ics" := by
  have h1 : AlarmSetSuffix alarms = "" → Filename slug alarms = slug ++ ".ics" := by
    intro h; simp [Filename, h]
  have h2 : AlarmSetSuffix alarms ≠ "" →
      Filename slug alarms = slug ++ "-" ++ AlarmSetSuffix alarms ++ ".ics" := by
    intro h; simp [Filename, h]
  refine ⟨h1, h2, ?_, ?_, by decide, by decide, by decide⟩
  · intro h
    apply h1
    rw [h]
    rfl
  · intro hne hdef
    exact h2 (AlarmSetSuffix_ne_empty alarms hne hdef)

/-- C20 as stated fails: the alarm list `[7]` (a value of type `Alarm` that is
none of the constants) is not empty, yet the file name is `valerenga.ics`, not
`valerenga-.ics`. -/
theorem Filename_undefined_alarm :
    ([7] : List Alarm) ≠ [] ∧
    Filename "valerenga" [7] = "valerenga.ics" ∧
    "valerenga" ++ "-" ++ AlarmSetSuffix [7] ++ ".ics" = "valerenga-.ics" := by
  decide

/-- C20 (amended) at the slug `valerenga` and the alarms [1 day, 1 hour]. -/
theorem Filename_cases_witness :
    ([Alarm1Day, Alarm1Hour] : List Alarm) ≠ [] ∧
    (∀ a ∈ ([Alarm1Day, Alarm1Hour] : List Alarm), a ∈ AllAlarms) ∧
    Filename "valerenga" [Alarm1Day, Alarm1Hour] =
      "valerenga" ++ "-" ++ AlarmSetSuffix [Alarm1Day, Alarm1Hour] ++ ".ics" :=
  ⟨by decide, by decide,
    (Filename_cases "valerenga" [Alarm1Day, Alarm1Hour]).2.2.2.1 (by decide) (by decide)⟩

/-- C19 at the alarms [3 hours, 15 minutes]: the suffix `3h-15m` neither starts
nor ends with `-`. -/
theorem AlarmSetSuffix_joined_witness :
    ([Alarm3Hours, Alarm15Min] : List Alarm) ≠ [] ∧
    (∀ a ∈ ([Alarm3Hours, Alarm15Min] : List Alarm), a ∈ AllAlarms) ∧
    AlarmSetSuffix [Alarm3Hours, Alarm15Min] = "3h-15m" ∧
    (AlarmSetSuffix [Alarm3Hours, Alarm15Min]).data.head? ≠ some '-' ∧
    (AlarmSetSuffix [Alarm3Hours, Alarm15Min]).data.getLast? ≠ some '-' :=
  ⟨by decide, by decide, by decide,
    (AlarmSetSuffix_joined [Alarm3Hours, Alarm15Min]).2.1 (by decide) (by decide)⟩

theorem seasonNameLoop_norwegian (name : String) (names : List Translation) (n : Translation)
    (h : names.find? (fun e => e.Language = "no") = some n) :
    seasonNameLoop name names = n.Translation := by
  induction names generalizing name with
  | nil => simp at h
  | cons e rest ih =>
    rw [seasonNameLoop]
    by_cases he : e.Language = "no"
    · rw [if_pos he]
      simp [List.find?_cons, he] at h
      rw [h]
    · rw [if_neg he]
      simp [List.find?_cons, he] at h
      exact ih _ h

theorem seasonNameLoop_fallback (name : String) (names : List Translation)
    (h : ∀ e ∈ names, e.Language ≠ "no") :
    seasonNameLoop name names = if name = "" then firstAvailable names else name := by
  induction names generalizing name with
  | nil =>
    by_cases hn : name = ""
    · simp [seasonNameLoop, firstAvailable, hn]
    · simp [seasonNameLoop, hn]
  | cons e rest ih =>
    rw [seasonNameLoop, if_neg (h e (by simp)), ih _ (fun x hx => h x (by simp [hx]))]
    by_cases hn : name = ""
    · by_cases ht : e.Translation = ""
      · simp [hn, ht, firstAvailable, List.find?_cons]
      · simp [hn, ht, firstAvailable, List.find?_cons]
    · simp [hn]

theorem decodeTranslation_object (cur e : Translation) :
    decodeTranslation cur (translationObject e) = .ok e := by
  simp [decodeTranslation, translationObject, decodeObject, matchField, decodeString,
    Except.map, bind, Except.bind, pure, Except.pure]

theorem mapM_decodeTranslation (names : List Translation) (k : Nat) :
    (List.enumFrom k (names.map translationObject)).mapM
      (fun ie => decodeTranslation
        (([] : List Translation).getD ie.1 { Language := "", Translation := "" }) ie.2)
      = (.ok names : Except GoError (List Translation)) := by
  induction names generalizing k with
  | nil => rfl
  | cons e rest ih =>
    simp only [List.map_cons, List.enumFrom_cons, List.mapM_cons, decodeTranslation_object, ih]
    rfl

theorem decodeSeasonJSON_object (uuid : String) (names : List Translation) :
    decodeSeasonJSON { UUID := "", Names := [] } (seasonObject uuid names) =
      .ok { UUID := uuid, Names := names } := by
  have h := mapM_decodeTranslation names 0
  simp only [decodeSeasonJSON, seasonObject, decodeObject, List.foldlM_cons, List.foldlM_nil,
    matchField, decodeString, decodeSlice, List.enum]
  have e1 : ("uuid" ∈ ["uuid", "names"]) = True := by decide
  have e2 : ("names" ∈ ["uuid", "names"]) = True := by decide
  have e3 : ("names" = "uuid") = False := by decide
  simp only [e1, e2, e3, if_true, if_false, Except.map, bind, Except.bind, h, pure, Except.pure]

/-- C13: when the names of a decoded season hold an entry in Norwegian,
`Season.UnmarshalJSON` sets the name to the translation of the first such
entry, whatever name the season held before and whatever entries precede it; in
particular on the season object whose names are any entries not in Norwegian,
then the Norwegian entry, then any entries. -/
theorem Season_UnmarshalJSON_norwegian (s : Season) (data : JSON) (sj : seasonJSON)
    (n : Translation)
    (hdec : decodeSeasonJSON { UUID := "", Names := [] } data = .ok sj)
    (hno : sj.Names.find? (fun e => e.Language = "no") = some n) :
    Season.UnmarshalJSON s data = .ok { UUID := sj.UUID, Name := n.Translation } ∧
    (∀ (uuid : String) (before after : List Translation),
      (∀ e ∈ before, e.Language ≠ "no") → n.Language = "no" →
      Season.UnmarshalJSON s (seasonObject uuid (before ++ n :: after)) =
        .ok { UUID := uuid, Name := n.Translation }) := by
  constructor
  · simp only [Season.UnmarshalJSON, hdec, seasonNameLoop_norwegian s.Name sj.Names n hno]
  · intro uuid before after hb hn
    have hfind : (before ++ n :: after).find? (fun e => e.Language = "no") = some n := by
      rw [List.find?_append]
      have : before.find? (fun e => decide (e.Language = "no")) = none := by
        rw [List.find?_eq_none]; intro x hx; simpa using hb x hx
      rw [this]
      simp [List.find?_cons, hn]
    simp only [Season.UnmarshalJSON, decodeSeasonJSON_object,
      seasonNameLoop_norwegian s.Name _ n hfind]

/-- C13 on the season of `TestSeasonUnmarshal` with the Norwegian name moved to
the end, decoded into a season that held another name. -/
theorem Season_UnmarshalJSON_norwegian_witness :
    Season.UnmarshalJSON { UUID := "old", Name := "2024/2025" } seasonNorwegianLast =
      .ok { UUID := "bir2zwf4qa", Name := "2025/2026" } :=
  (Season_UnmarshalJSON_norwegian { UUID := "old", Name := "2024/2025" } seasonNorwegianLast
    { UUID := "bir2zwf4qa",
      Names := [⟨"sv", "Säsong 2025/2026"⟩, ⟨"en", "Season 2025/2026"⟩, ⟨"no", "2025/2026"⟩] }
    ⟨"no", "2025/2026"⟩ rfl rfl).1

/-- C14 (amended): when no entry of the names is in Norwegian,
`Season.UnmarshalJSON` on a season with an empty name sets the name to the
first translation that is not empty (`firstAvailable`, the empty name when
there is none); this is the translation of the first entry when that one is not
empty. -/
theorem Season_UnmarshalJSON_fallback (s : Season) (data : JSON) (sj : seasonJSON)
    (hfresh : s.Name = "")
    (hdec : decodeSeasonJSON { UUID := "", Names := [] } data = .ok sj)
    (hno : ∀ e ∈ sj.Names, e.Language ≠ "no") :
    Season.UnmarshalJSON s data = .ok { UUID := sj.UUID, Name := firstAvailable sj.Names } ∧
    (∀ first rest, sj.Names = first :: rest → first.Translation ≠ "" →
      firstAvailable sj.Names = first.Translation) ∧
    (∀ (uuid : String) (names : List Translation), (∀ e ∈ names, e.Language ≠ "no") →
      Season.UnmarshalJSON s (seasonObject uuid names) =
        .ok { UUID := uuid, Name := firstAvailable names }) := by
  refine ⟨?_, ?_, ?_⟩
  · have hl := seasonNameLoop_fallback s.Name sj.Names hno
    rw [hfresh] at hl
    simp only [Season.UnmarshalJSON, hdec, hfresh, hl, if_true]
  · intro first rest hl hne
    simp [firstAvailable, hl, List.find?_cons, hne]
  · intro uuid names hn
    have hl := seasonNameLoop_fallback s.Name names hn
    rw [hfresh] at hl
    simp only [Season.UnmarshalJSON, decodeSeasonJSON_object, hfresh, hl, if_true]

/-- C14 (amended) on a season with a Swedish and an English name: the Swedish
name, the first one, is taken. -/
theorem Season_UnmarshalJSON_fallback_witness :
    Season.UnmarshalJSON { UUID := "", Name := "" }
        (seasonObject "bir2zwf4qa" [⟨"sv", "Säsong 2025/2026"⟩, ⟨"en", "Season 2025/2026"⟩]) =
      .ok { UUID := "bir2zwf4qa", Name := "Säsong 2025/2026" } :=
  (Season_UnmarshalJSON_fallback { UUID := "", Name := "" }
    (seasonObject "bir2zwf4qa" [⟨"sv", "Säsong 2025/2026"⟩, ⟨"en", "Season 2025/2026"⟩])
    { UUID := "bir2zwf4qa", Names := [⟨"sv", "Säsong 2025/2026"⟩, ⟨"en", "Season 2025/2026"⟩] }
    rfl rfl (by decide)).1

/-- C14 as stated fails: with the names `en` (empty translation) and `sv`
(`Säsong 2025/2026`) a fresh season gets the name `Säsong 2025/2026`, which is
not the translation of the first entry. -/
theorem Season_UnmarshalJSON_skips_empty :
    Season.UnmarshalJSON { UUID := "", Name := "" }
        (seasonObject "bir2zwf4qa" [⟨"en", ""⟩, ⟨"sv", "Säsong 2025/2026"⟩]) =
      .ok { UUID := "bir2zwf4qa", Name := "Säsong 2025/2026" } ∧
    (⟨"en", ""⟩ : Translation).Translation ≠ "Säsong 2025/2026" :=
  ⟨rfl, by decide⟩

theorem isDecimal_bounds (c : Char) (h : isDecimal c = true) : 48 ≤ c.toNat ∧ c.toNat ≤ 57 := by
  simpa [isDecimal] using h

theorem isDecimal_digitChar : ∀ k, k < 10 → isDecimal (Nat.digitChar k) = true := by decide

theorem digitValue_digitChar : ∀ k, k < 10 → digitValue (Nat.digitChar k) = k := by decide

theorem toDigitsCore_decimal (fuel : Nat) :
    ∀ (n : Nat) (ds : List Char), (∀ c ∈ ds, isDecimal c = true) →
      ∀ c ∈ Nat.toDigitsCore 10 fuel n ds, isDecimal c = true := by
  induction fuel with
  | zero => intro n ds h c hc; exact h c (by simpa [Nat.toDigitsCore] using hc)
  | succ fuel ih =>
    intro n ds h c hc
    have hd : ∀ x ∈ Nat.digitChar (n % 10) :: ds, isDecimal x = true := by
      intro x hx
      rcases List.mem_cons.1 hx with rfl | hx
      · exact isDecimal_digitChar _ (Nat.mod_lt _ (by decide))
      · exact h x hx
    rw [Nat.toDigitsCore] at hc
    split at hc
    · exact hd c hc
    · exact ih _ _ hd c hc

theorem toDigitsCore_ne_nil (fuel : Nat) :
    ∀ (n : Nat) (ds : List Char), ds ≠ [] → Nat.toDigitsCore 10 fuel n ds ≠ [] := by
  induction fuel with
  | zero => intro n ds h; simpa [Nat.toDigitsCore] using h
  | succ fuel ih =>
    intro n ds _
    rw [Nat.toDigitsCore]
    split
    · simp
    · exact ih _ _ (by simp)

theorem toDigits_ne_nil (n : Nat) : Nat.toDigits 10 n ≠ [] := by
  unfold Nat.toDigits
  rw [Nat.toDigitsCore]
  split
  · simp
  · exact toDigitsCore_ne_nil _ _ _ (by simp)

theorem toDigitsCore_value (fuel : Nat) :
    ∀ (n : Nat) (ds : List Char), n < fuel →
      (Nat.toDigitsCore 10 fuel n ds).foldl (fun acc c => acc * 10 + digitValue c) 0 =
        ds.foldl (fun acc c => acc * 10 + digitValue c) n := by
  induction fuel with
  | zero => intro n ds h; omega
  | succ fuel ih =>
    intro n ds h
    rw [Nat.toDigitsCore]
    have hd := digitValue_digitChar (n % 10) (Nat.mod_lt _ (by decide))
    split
    · rename_i h0
      simp only [List.foldl_cons, hd]
      congr 1
      omega
    · rename_i h0
      rw [ih _ _ (by omega)]
      simp only [List.foldl_cons, hd]
      congr 1
      omega

theorem digitsValue_toDigits (n : Nat) : digitsValue (Nat.toDigits 10 n) = n := by
  unfold digitsValue Nat.toDigits
  rw [toDigitsCore_value _ _ _ (Nat.lt_succ_self n)]
  rfl

theorem takeWhile_all {α : Type} (p : α → Bool) (l : List α) (h : ∀ x ∈ l, p x = true) :
    l.takeWhile p = l := by
  induction l with
  | nil => rfl
  | cons a rest ih =>
    rw [List.takeWhile_cons, h a (by simp), if_pos rfl, ih (fun x hx => h x (by simp [hx]))]

theorem skipSpace_decimal (c : Char) (rest : List Char) (h : isDecimal c = true) :
    skipSpace (c :: rest) = some (c :: rest) := by
  have hb := isDecimal_bounds c h
  have h1 : c ≠ '\n' := by
    intro hc; rw [hc] at hb; revert hb; decide
  have h2 : isSpace c = false := by
    simp only [isSpace]
    simp
    omega
  rw [skipSpace, if_neg h1, h2]
  simp

theorem decimal_ne_sign (c : Char) (h : isDecimal c = true) : c ≠ '+' ∧ c ≠ '-' := by
  have hb := isDecimal_bounds c h
  constructor
  · intro hc; rw [hc] at hb; revert hb; decide
  · intro hc; rw [hc] at hb; revert hb; decide

theorem SscanfInt_Itoa (n : Int) (hn : inIntRange n = true) : SscanfInt (Itoa n) = some n := by
  have hdec : ∀ c ∈ Nat.toDigits 10 n.natAbs, isDecimal c = true :=
    toDigitsCore_decimal _ _ _ (by simp)
  have hne := toDigits_ne_nil n.natAbs
  have hval := digitsValue_toDigits n.natAbs
  have htake := takeWhile_all isDecimal _ hdec
  by_cases hneg : n < 0
  · have hdata : (Itoa n).data = '-' :: Nat.toDigits 10 n.natAbs := by
      simp [Itoa, hneg]
    have hskip : skipSpace ('-' :: Nat.toDigits 10 n.natAbs) =
        some ('-' :: Nat.toDigits 10 n.natAbs) := by
      rw [skipSpace, if_neg (by decide)]
      have : isSpace '-' = false := by decide
      rw [this]; simp
    have hv : -((n.natAbs : Nat) : Int) = n := by omega
    simp only [SscanfInt, hdata, hskip, List.head?_cons, List.tail_cons, htake, hval]
    simp only [or_true, if_true]
    rw [htake, if_neg hne, hval, hv, hn]
    rfl
  · have hdata : (Itoa n).data = Nat.toDigits 10 n.natAbs := by
      simp [Itoa, hneg]
    obtain ⟨d, ds, hds⟩ : ∃ d ds, Nat.toDigits 10 n.natAbs = d :: ds := by
      cases h : Nat.toDigits 10 n.natAbs with
      | nil => exact absurd h hne
      | cons d ds => exact ⟨d, ds, rfl⟩
    have hd : isDecimal d = true := hdec d (by rw [hds]; simp)
    have hsign := decimal_ne_sign d hd
    have hskip := skipSpace_decimal d ds hd
    have hv : ((n.natAbs : Nat) : Int) = n := by omega
    rw [hds] at htake hval
    simp only [SscanfInt, hdata, hds, hskip, List.head?_cons, htake]
    have e1 : (some d = some '-') = False := by simp [hsign.2]
    have e2 : (some d = some '+') = False := by simp [hsign.1]
    simp only [e1, e2, or_self, if_false, decide_False]
    rw [htake, if_neg (by simp), hval, hv, hn]
    rfl

theorem foldlM_ok_append {σ α : Type} (f : σ → α → Except GoError σ) (pre post : List α)
    (init out : σ) (h : (pre ++ post).foldlM f init = .ok out) :
    ∃ mid, pre.foldlM f init = .ok mid ∧ post.foldlM f mid = .ok out := by
  rw [List.foldlM_append] at h
  cases hp : pre.foldlM f init with
  | error e => rw [hp] at h; cases h
  | ok mid => rw [hp] at h; exact ⟨mid, rfl, h⟩

theorem setTeamField_with_score (field : String) (hf : field ≠ "score") (s s1 : teamJSON)
    (v : JSON) (x : Option JSON) (h : setTeamField field s v = .ok s1) :
    setTeamField field { s with Score := x } v = .ok { s1 with Score := x } := by
  unfold setTeamField at h ⊢
  split_ifs at h ⊢
  · cases hd : decodeString s.UUID v with
    | error e => rw [hd] at h; cases h
    | ok y => rw [hd] at h; cases h; rfl
  · cases hd : decodeString s.Code v with
    | error e => rw [hd] at h; cases h
    | ok y => rw [hd] at h; cases h; rfl
  · cases hd : decodeTeamNames s.Names v with
    | error e => rw [hd] at h; cases h
    | ok y => rw [hd] at h; cases h; rfl
  · cases hd : decodeString s.Icon v with
    | error e => rw [hd] at h; cases h
    | ok y => rw [hd] at h; cases h; rfl

theorem teamStep_with_score (post : List (String × JSON))
    (hpost : ∀ m ∈ post, matchField teamFields m.1 ≠ some "score") :
    ∀ (s out : teamJSON) (x : Option JSON), post.foldlM teamStep s = .ok out →
      post.foldlM teamStep { s with Score := x } = .ok { out with Score := x } := by
  induction post with
  | nil => intro s out x h; cases h; rfl
  | cons m rest ih =>
    intro s out x h
    rw [List.foldlM_cons] at h ⊢
    cases hs : teamStep s m with
    | error e => rw [hs] at h; cases h
    | ok s1 =>
      rw [hs] at h
      have hstep : teamStep { s with Score := x } m = .ok { s1 with Score := x } := by
        unfold teamStep at hs ⊢
        cases hm : matchField teamFields m.1 with
        | none => rw [hm] at hs; cases hs; rfl
        | some field =>
          rw [hm] at hs
          have hf : field ≠ "score" := by
            intro hf; exact hpost m (by simp) (by rw [hm, hf])
          exact setTeamField_with_score field hf s s1 m.2 x hs
      rw [hstep]
      exact ih (fun y hy => hpost y (by simp [hy])) s1 out x h

theorem decodeTeamJSON_score (pre post : List (String × JSON)) (key : String) (v : JSON)
    (tj : teamJSON) (hkey : matchField teamFields key = some "score")
    (hdec : decodeTeamJSON zeroTeamJSON (.obj (pre ++ post)) = .ok tj)
    (hpost : ∀ m ∈ post, matchField teamFields m.1 ≠ some "score") :
    decodeTeamJSON zeroTeamJSON (.obj (pre ++ (key, v) :: post)) =
      .ok { tj with Score := some v } := by
  have hdec1 : (pre ++ post).foldlM teamStep zeroTeamJSON = .ok tj := hdec
  obtain ⟨mid, hpre, hrest⟩ := foldlM_ok_append teamStep pre post zeroTeamJSON tj hdec1
  show (pre ++ (key, v) :: post).foldlM teamStep zeroTeamJSON = _
  rw [List.foldlM_append, hpre]
  show ((key, v) :: post).foldlM teamStep mid = _
  rw [List.foldlM_cons]
  have hstep : teamStep mid (key, v) = .ok { mid with Score := some v } := by
    simp [teamStep, hkey, setTeamField]
  rw [hstep]
  exact teamStep_with_score post hpost mid tj (some v) hrest

theorem Team_UnmarshalJSON_score (t : Team) (pre post : List (String × JSON)) (key : String)
    (v : JSON) (tj : teamJSON) (hkey : matchField teamFields key = some "score")
    (hdec : decodeTeamJSON zeroTeamJSON (.obj (pre ++ post)) = .ok tj)
    (hpost : ∀ m ∈ post, matchField teamFields m.1 ≠ some "score") :
    Team.UnmarshalJSON t (.obj (pre ++ (key, v) :: post)) =
      .ok { UUID := tj.UUID, Code := tj.Code, FullName := tj.Names.Full,
            ShortName := tj.Names.Short, Icon := tj.Icon,
            Score := decodeScore t.Score (some v) } := by
  simp only [Team.UnmarshalJSON, decodeTeamJSON_score pre post key v tj hkey hdec hpost]

theorem decodeScore_int (cur n : Int) (hn : inIntRange n = true) :
    decodeScore cur (some (.int n)) = n := by
  simp [decodeScore, decodeInt, hn]

theorem decodeScore_str (cur : Int) (s : String) :
    decodeScore cur (some (.str s)) = (SscanfInt s).getD cur := by
  simp [decodeScore, decodeInt, decodeString]

theorem decodeScore_unparsable (v : JSON) (h : unparsableScore v = true) :
    decodeScore 0 (some v) = 0 := by
  cases v with
  | null => simp [decodeScore, decodeInt]
  | bool b => simp [decodeScore, decodeInt, decodeString]
  | int n =>
    have hn : inIntRange n = false := by simpa [unparsableScore] using h
    simp [decodeScore, decodeInt, decodeString, hn]
  | real l => simp [decodeScore, decodeInt, decodeString]
  | str s =>
    have hs : SscanfInt s = none := by simpa [unparsableScore] using h
    simp [decodeScore_str, hs]
  | arr es => simp [decodeScore, decodeInt, decodeString]
  | obj ms => simp [decodeScore, decodeInt, decodeString]

/-- C15: for every `n` in the range of `int` and every team object that decodes
without its score member, the object with the score `n` as a JSON integer and
the object with the score as the JSON string of the numeral of `n` both decode,
to the same team, with `Score = n`. -/
theorem Team_UnmarshalJSON_score_int_or_string (n : Int) (hn : inIntRange n = true) (t : Team)
    (pre post : List (String × JSON)) (key : String) (tj : teamJSON)
    (hkey : matchField teamFields key = some "score")
    (hdec : decodeTeamJSON zeroTeamJSON (.obj (pre ++ post)) = .ok tj)
    (hpost : ∀ m ∈ post, matchField teamFields m.1 ≠ some "score") :
    Team.UnmarshalJSON t (.obj (pre ++ (key, .int n) :: post)) =
      .ok { UUID := tj.UUID, Code := tj.Code, FullName := tj.Names.Full,
            ShortName := tj.Names.Short, Icon := tj.Icon, Score := n } ∧
    Team.UnmarshalJSON t (.obj (pre ++ (key, .str (Itoa n)) :: post)) =
      .ok { UUID := tj.UUID, Code := tj.Code, FullName := tj.Names.Full,
            ShortName := tj.Names.Short, Icon := tj.Icon, Score := n } := by
  constructor
  · rw [Team_UnmarshalJSON_score t pre post key _ tj hkey hdec hpost, decodeScore_int _ _ hn]
  · rw [Team_UnmarshalJSON_score t pre post key _ tj hkey hdec hpost, decodeScore_str,
      SscanfInt_Itoa n hn]
    rfl

/-- C15 at `n = 3` on the team of `TestTeamUnmarshal`: the scores `3` and `"3"`
both give 3. -/
theorem Team_UnmarshalJSON_score_int_or_string_witness :
    Itoa 3 = "3" ∧
    Team.UnmarshalJSON zeroTeam
        (teamObject "qQ0-A0eF1CWG5" "VIF" "Vålerenga Ishockey Elite" "Vålerenga" (.int 3)) =
      .ok { UUID := "qQ0-A0eF1CWG5", Code := "VIF", FullName := "Vålerenga Ishockey Elite",
            ShortName := "Vålerenga", Icon := "", Score := 3 } ∧
    Team.UnmarshalJSON zeroTeam
        (teamObject "qQ0-A0eF1CWG5" "VIF" "Vålerenga Ishockey Elite" "Vålerenga"
          (.str (Itoa 3))) =
      .ok { UUID := "qQ0-A0eF1CWG5", Code := "VIF", FullName := "Vålerenga Ishockey Elite",
            ShortName := "Vålerenga", Icon := "", Score := 3 } :=
  ⟨by decide,
   Team_UnmarshalJSON_score_int_or_string 3 (by decide) zeroTeam
    [("uuid", .str "qQ0-A0eF1CWG5"), ("code", .str "VIF"),
      ("names", .obj [("full", .str "Vålerenga Ishockey Elite"), ("short", .str "Vålerenga")])]
    [] "score"
    { UUID := "qQ0-A0eF1CWG5", Code := "VIF",
      Names := { Full := "Vålerenga Ishockey Elite", Short := "Vålerenga" },
      Score := none, Icon := "" }
    (by decide) rfl (by simp)⟩

/-- C16 (amended): whatever JSON value the score member holds,
`Team.UnmarshalJSON` succeeds on a team object that decodes without it, with
the score `decodeScore` gives. On a team with score 0 that score is 0 when the
value is an integer outside the range of `int`, a string on which `Sscanf` with
`%d` fails, or neither an integer nor a string; a string from which `Sscanf`
reads an integer gives that integer, also when text follows the numeral. -/
theorem Team_UnmarshalJSON_score_lenient (t : Team) (pre post : List (String × JSON))
    (key : String) (v : JSON) (tj : teamJSON)
    (hkey : matchField teamFields key = some "score")
    (hdec : decodeTeamJSON zeroTeamJSON (.obj (pre ++ post)) = .ok tj)
    (hpost : ∀ m ∈ post, matchField teamFields m.1 ≠ some "score") :
    Team.UnmarshalJSON t (.obj (pre ++ (key, v) :: post)) =
      .ok { UUID := tj.UUID, Code := tj.Code, FullName := tj.Names.Full,
            ShortName := tj.Names.Short, Icon := tj.Icon,
            Score := decodeScore t.Score (some v) } ∧
    (t.Score = 0 → unparsableScore v = true → decodeScore t.Score (some v) = 0) ∧
    (∀ (s : String) (n : Int), v = .str s → SscanfInt s = some n →
      decodeScore t.Score (some v) = n) := by
  refine ⟨Team_UnmarshalJSON_score t pre post key v tj hkey hdec hpost, ?_, ?_⟩
  · intro h0 hv
    rw [h0]
    exact decodeScore_unparsable v hv
  · intro s n hv hs
    rw [hv, decodeScore_str, hs]
    rfl

/-- C16 (amended) at the score `"invalid"` of `TestTeamUnmarshal`: the score
is 0. -/
theorem Team_UnmarshalJSON_score_lenient_witness :
    Team.UnmarshalJSON zeroTeam
        (teamObject "qQ0-A0eF1CWG5" "VIF" "Vålerenga Ishockey Elite" "Vålerenga"
          (.str "invalid")) =
      .ok { UUID := "qQ0-A0eF1CWG5", Code := "VIF", FullName := "Vålerenga Ishockey Elite",
            ShortName := "Vålerenga", Icon := "", Score := 0 } := by
  have h := Team_UnmarshalJSON_score_lenient zeroTeam
    [("uuid", .str "qQ0-A0eF1CWG5"), ("code", .str "VIF"),
      ("names", .obj [("full", .str "Vålerenga Ishockey Elite"), ("short", .str "Vålerenga")])]
    [] "score" (.str "invalid")
    { UUID := "qQ0-A0eF1CWG5", Code := "VIF",
      Names := { Full := "Vålerenga Ishockey Elite", Short := "Vålerenga" },
      Score := none, Icon := "" }
    (by decide) rfl (by simp)
  have h0 := h.2.1 rfl (by decide)
  have h1 := h.1
  rw [h0] at h1
  exact h1

/-- C16 as stated fails: the score string `3 goals` is not an integer numeral,
yet the decoded team has `Score = 3`, not 0. -/
theorem Team_UnmarshalJSON_score_leading_numeral :
    SscanfInt "3 goals" = some 3 ∧ Itoa 3 ≠ "3 goals" ∧
    Team.UnmarshalJSON zeroTeam
        (teamObject "qQ0-A0eF1CWG5" "VIF" "Vålerenga Ishockey Elite" "Vålerenga"
          (.str "3 goals")) =
      .ok { UUID := "qQ0-A0eF1CWG5", Code := "VIF", FullName := "Vålerenga Ishockey Elite",
            ShortName := "Vålerenga", Icon := "", Score := 3 } :=
  ⟨by decide, by decide, rfl⟩

theorem setGameField_ok (f : String) (s s1 : gameJSON) (v : JSON)
    (h : setGameField f s v = .ok s1) :
    ((f = "homeTeam" → decodeTeamPtr s.HomeTeam v = .ok s1.HomeTeam) ∧
      (f ≠ "homeTeam" → s1.HomeTeam = s.HomeTeam)) ∧
    ((f = "awayTeam" → decodeTeamPtr s.AwayTeam v = .ok s1.AwayTeam) ∧
      (f ≠ "awayTeam" → s1.AwayTeam = s.AwayTeam)) ∧
    ((f = "homeTeamInfo" → decodeTeamPtr s.HomeTeamInfo v = .ok s1.HomeTeamInfo) ∧
      (f ≠ "homeTeamInfo" → s1.HomeTeamInfo = s.HomeTeamInfo)) ∧
    ((f = "awayTeamInfo" → decodeTeamPtr s.AwayTeamInfo v = .ok s1.AwayTeamInfo) ∧
      (f ≠ "awayTeamInfo" → s1.AwayTeamInfo = s.AwayTeamInfo)) := by
  unfold setGameField at h
  split_ifs at h with h1 h2 h3 h4 h5 h6 h7
  · cases hd : decodeString s.UUID v with
    | error e => rw [hd] at h; cases h
    | ok y => rw [hd] at h; cases h; subst h1; simp
  · cases hd : decodeString s.RawStartDateTime v with
    | error e => rw [hd] at h; cases h
    | ok y => rw [hd] at h; cases h; subst h2; simp
  · cases hd : decodeString s.State v with
    | error e => rw [hd] at h; cases h
    | ok y => rw [hd] at h; cases h; subst h3; simp
  · cases hd : decodeTeamPtr s.HomeTeam v with
    | error e => rw [hd] at h; cases h
    | ok y => rw [hd] at h; cases h; subst h4; simp
  · cases hd : decodeTeamPtr s.AwayTeam v with
    | error e => rw [hd] at h; cases h
    | ok y => rw [hd] at h; cases h; subst h5; simp
  · cases hd : decodeTeamPtr s.HomeTeamInfo v with
    | error e => rw [hd] at h; cases h
    | ok y => rw [hd] at h; cases h; subst h6; simp
  · cases hd : decodeTeamPtr s.AwayTeamInfo v with
    | error e => rw [hd] at h; cases h
    | ok y => rw [hd] at h; cases h; subst h7; simp
  · cases hd : decodeVenueInfo s.VenueInfo v with
    | error e => rw [hd] at h; cases h
    | ok y =>
      rw [hd] at h; cases h
      exact ⟨⟨fun hf => absurd hf h4, fun _ => rfl⟩, ⟨fun hf => absurd hf h5, fun _ => rfl⟩,
        ⟨fun hf => absurd hf h6, fun _ => rfl⟩, ⟨fun hf => absurd hf h7, fun _ => rfl⟩⟩

theorem gameStep_field {α : Type} (get : gameJSON → α) (dec : α → JSON → Except GoError α)
    (field : String)
    (hset : ∀ (f : String) (s s1 : gameJSON) (v : JSON), setGameField f s v = .ok s1 →
      (f = field → dec (get s) v = .ok (get s1)) ∧ (f ≠ field → get s1 = get s)) :
    ∀ (members : List (String × JSON)) (s out : gameJSON),
      members.foldlM gameStep s = .ok out →
      (memberValues gameFields field members).foldlM dec (get s) = .ok (get out) := by
  intro members
  induction members with
  | nil => intro s out h; cases h; rfl
  | cons m rest ih =>
    intro s out h
    rw [List.foldlM_cons] at h
    cases hs : gameStep s m with
    | error e => rw [hs] at h; cases h
    | ok s1 =>
      rw [hs] at h
      have hrest := ih s1 out h
      unfold gameStep at hs
      unfold memberValues at hrest ⊢
      rw [List.filterMap_cons]
      cases hm : matchField gameFields m.1 with
      | none =>
        rw [hm] at hs; cases hs
        simpa using hrest
      | some f =>
        rw [hm] at hs
        have hf := hset f s s1 m.2 hs
        by_cases hfe : f = field
        · subst hfe
          simp only [if_true, List.foldlM_cons, hf.1 rfl]
          exact hrest
        · have hne : ¬ (some f = some field) := by simpa using hfe
          simp only [hne, if_false]
          rw [← hf.2 hfe]
          exact hrest

theorem decodeTeamPtr_object (cur r : Option Team) (v : JSON) (hv : v ≠ .null)
    (h : decodeTeamPtr cur v = .ok r) :
    ∃ team, Team.UnmarshalJSON (cur.getD zeroTeam) v = .ok team ∧ r = some team := by
  cases ht : Team.UnmarshalJSON (cur.getD zeroTeam) v with
  | error e =>
    cases v <;> first
      | exact absurd rfl hv
      | (simp only [decodeTeamPtr, ht] at h; cases h)
  | ok team =>
    refine ⟨team, rfl, ?_⟩
    cases v <;> first
      | exact absurd rfl hv
      | (simp only [decodeTeamPtr, ht] at h; cases h; rfl)

theorem pickTeam_cases (info test : Option Team) (cur : Team) (infoValues testValues : List JSON)
    (hinfo : infoValues.foldlM decodeTeamPtr none = .ok info)
    (htest : testValues.foldlM decodeTeamPtr none = .ok test) :
    (∀ v, v ≠ .null → infoValues = [v] →
      Team.UnmarshalJSON zeroTeam v = .ok (pickTeam info test cur)) ∧
    (∀ v, v ≠ .null → infoValues = [] → testValues = [v] →
      Team.UnmarshalJSON zeroTeam v = .ok (pickTeam info test cur)) ∧
    (infoValues = [] → testValues = [] → pickTeam info test cur = cur) := by
  refine ⟨?_, ?_, ?_⟩
  · intro v hv hl
    rw [hl] at hinfo
    have h1 : decodeTeamPtr none v = .ok info := by
      cases hd : decodeTeamPtr none v with
      | error e => simp [List.foldlM_cons, hd, bind, Except.bind] at hinfo
      | ok r => simpa [List.foldlM_cons, hd, bind, Except.bind, pure, Except.pure] using hinfo
    obtain ⟨team, ht, hr⟩ := decodeTeamPtr_object none info v hv h1
    rw [hr]
    exact ht
  · intro v hv hl1 hl2
    rw [hl1] at hinfo
    rw [hl2] at htest
    have h0 : info = none := by cases hinfo; rfl
    have h1 : decodeTeamPtr none v = .ok test := by
      cases hd : decodeTeamPtr none v with
      | error e => simp [List.foldlM_cons, hd, bind, Except.bind] at htest
      | ok r => simpa [List.foldlM_cons, hd, bind, Except.bind, pure, Except.pure] using htest
    obtain ⟨team, ht, hr⟩ := decodeTeamPtr_object none test v hv h1
    rw [h0, hr]
    exact ht
  · intro hl1 hl2
    rw [hl1] at hinfo
    rw [hl2] at htest
    cases hinfo
    cases htest
    rfl

/-- C17: for a game object that decodes and has a well-formed timestamp,
`Game.UnmarshalJSON` succeeds, and for each side on its own: when the object
has one API member (`homeTeamInfo`, `awayTeamInfo`) that is not null, the team
is that object decoded, whether or not the test member (`homeTeam`, `awayTeam`)
is present as well; when it has no API member and one test member that is not
null, the team is the test object decoded; when it has neither, the team stays
as it was. -/
theorem Game_UnmarshalJSON_team_naming (g : Game) (members : List (String × JSON))
    (gj : gameJSON) (t : Time)
    (hdec : decodeGameJSON zeroGameJSON (.obj members) = .ok gj)
    (ht : ParseStartTime gj.RawStartDateTime = .ok t) :
    ∃ g1, Game.UnmarshalJSON g (.obj members) = .ok g1 ∧
      ((∀ v, v ≠ .null → memberValues gameFields "homeTeamInfo" members = [v] →
          Team.UnmarshalJSON zeroTeam v = .ok g1.HomeTeam) ∧
        (∀ v, v ≠ .null → memberValues gameFields "homeTeamInfo" members = [] →
          memberValues gameFields "homeTeam" members = [v] →
          Team.UnmarshalJSON zeroTeam v = .ok g1.HomeTeam) ∧
        (memberValues gameFields "homeTeamInfo" members = [] →
          memberValues gameFields "homeTeam" members = [] → g1.HomeTeam = g.HomeTeam)) ∧
      ((∀ v, v ≠ .null → memberValues gameFields "awayTeamInfo" members = [v] →
          Team.UnmarshalJSON zeroTeam v = .ok g1.AwayTeam) ∧
        (∀ v, v ≠ .null → memberValues gameFields "awayTeamInfo" members = [] →
          memberValues gameFields "awayTeam" members = [v] →
          Team.UnmarshalJSON zeroTeam v = .ok g1.AwayTeam) ∧
        (memberValues gameFields "awayTeamInfo" members = [] →
          memberValues gameFields "awayTeam" members = [] → g1.AwayTeam = g.AwayTeam)) := by
  have hfold : members.foldlM gameStep zeroGameJSON = .ok gj := hdec
  have hhi := gameStep_field (fun s => s.HomeTeamInfo) decodeTeamPtr "homeTeamInfo"
    (fun f s s1 v h => (setGameField_ok f s s1 v h).2.2.1) members zeroGameJSON gj hfold
  have hai := gameStep_field (fun s => s.AwayTeamInfo) decodeTeamPtr "awayTeamInfo"
    (fun f s s1 v h => (setGameField_ok f s s1 v h).2.2.2) members zeroGameJSON gj hfold
  have hh := gameStep_field (fun s => s.HomeTeam) decodeTeamPtr "homeTeam"
    (fun f s s1 v h => (setGameField_ok f s s1 v h).1) members zeroGameJSON gj hfold
  have ha := gameStep_field (fun s => s.AwayTeam) decodeTeamPtr "awayTeam"
    (fun f s s1 v h => (setGameField_ok f s s1 v h).2.1) members zeroGameJSON gj hfold
  refine ⟨{ UUID := gj.UUID, State := gj.State, Venue := gj.VenueInfo.Name,
            HomeTeam := pickTeam gj.HomeTeamInfo gj.HomeTeam g.HomeTeam,
            AwayTeam := pickTeam gj.AwayTeamInfo gj.AwayTeam g.AwayTeam,
            StartTime := t }, ?_, ?_, ?_⟩
  · simp only [Game.UnmarshalJSON, hdec, ht]
  · exact pickTeam_cases gj.HomeTeamInfo gj.HomeTeam g.HomeTeam _ _ hhi hh
  · exact pickTeam_cases gj.AwayTeamInfo gj.AwayTeam g.AwayTeam _ _ hai ha

/-- C17 on a game with both namings and different teams under them (the API
objects are used), and on the game of `TestGameUnmarshal` under either naming. -/
theorem Game_UnmarshalJSON_team_naming_witness :
    (∃ g1, Game.UnmarshalJSON zeroGame gameBothNamings = .ok g1 ∧
      g1.HomeTeam.Code = "VIF" ∧ g1.AwayTeam.Code = "STH") ∧
    (∃ g1, Game.UnmarshalJSON zeroGame (gameObject "homeTeam" "awayTeam") = .ok g1 ∧
      g1.HomeTeam.Code = "VIF" ∧ g1.AwayTeam.Code = "STH") ∧
    (∃ g1, Game.UnmarshalJSON zeroGame (gameObject "homeTeamInfo" "awayTeamInfo") = .ok g1 ∧
      g1.HomeTeam.Code = "VIF" ∧ g1.AwayTeam.Code = "STH") := by
  refine ⟨?_, ⟨_, rfl, by decide, by decide⟩, ⟨_, rfl, by decide, by decide⟩⟩
  obtain ⟨g1, hg, hhome, haway⟩ := Game_UnmarshalJSON_team_naming zeroGame
    [("rawStartDateTime", .str "2025-09-11T17:00:00.000Z"),
      ("homeTeam", codeObject "SIL"), ("awayTeamInfo", codeObject "STH"),
      ("homeTeamInfo", codeObject "VIF"), ("awayTeam", codeObject "LIK")]
    { UUID := "", RawStartDateTime := "2025-09-11T17:00:00.000Z", State := "",
      HomeTeam := some { zeroTeam with Code := "SIL" },
      AwayTeam := some { zeroTeam with Code := "LIK" },
      HomeTeamInfo := some { zeroTeam with Code := "VIF" },
      AwayTeamInfo := some { zeroTeam with Code := "STH" },
      VenueInfo := { UUID := "", Name := "" } }
    (Date 2025 9 11 17 0 0) rfl rfl
  refine ⟨g1, hg, ?_, ?_⟩
  · have h := hhome.1 (codeObject "VIF") (by simp [codeObject]) rfl
    have h2 : Team.UnmarshalJSON zeroTeam (codeObject "VIF") =
        .ok { zeroTeam with Code := "VIF" } := rfl
    rw [h2] at h
    rw [← Except.ok.inj h]
  · have h := haway.1 (codeObject "STH") (by simp [codeObject]) rfl
    have h2 : Team.UnmarshalJSON zeroTeam (codeObject "STH") =
        .ok { zeroTeam with Code := "STH" } := rfl
    rw [h2] at h
    rw [← Except.ok.inj h]

theorem decimal_two (n : Nat) :
    decimal 2 n = [Nat.digitChar (n / 10 % 10), Nat.digitChar (n % 10)] := by
  simp [decimal]

theorem decimal_three (n : Nat) :
    decimal 3 n = [Nat.digitChar (n / 10 / 10 % 10), Nat.digitChar (n / 10 % 10),
      Nat.digitChar (n % 10)] := by
  simp [decimal]

theorem decimal_four (n : Nat) :
    decimal 4 n = [Nat.digitChar (n / 10 / 10 / 10 % 10), Nat.digitChar (n / 10 / 10 % 10),
      Nat.digitChar (n / 10 % 10), Nat.digitChar (n % 10)] := by
  simp [decimal]

theorem digitChar_ne_sign (k : Nat) (hk : k < 10) :
    Nat.digitChar k ≠ '-' ∧ Nat.digitChar k ≠ '+' :=
  ⟨(decimal_ne_sign _ (isDecimal_digitChar k hk)).2, (decimal_ne_sign _ (isDecimal_digitChar k hk)).1⟩

theorem getnum_digits (a b : Nat) (ha : a < 10) (hb : b < 10) (rest : List Char)
    (fixed : Bool) :
    getnum (Nat.digitChar a :: Nat.digitChar b :: rest) fixed =
      some (((a * 10 + b : Nat) : Int), rest) := by
  simp [getnum, isDecimal_digitChar a ha, isDecimal_digitChar b hb, digitValue_digitChar a ha,
    digitValue_digitChar b hb]

theorem parseField_decimal (c : Char) (n : Nat) (hn : n < 100) (rest : List Char)
    (fixed : Bool) :
    parseField (c :: (decimal 2 n ++ rest)) c fixed = some ((n : Int), rest) := by
  have h := getnum_digits (n / 10 % 10) (n % 10) (Nat.mod_lt _ (by decide))
    (Nat.mod_lt _ (by decide)) rest fixed
  have hv : n / 10 % 10 * 10 + n % 10 = n := by omega
  rw [hv] at h
  simp only [parseField, skipChar, if_true, decimal_two, List.cons_append, List.nil_append, h]

theorem atoi_digits (l : List Char) (d : Char) (hd : isDecimal d = true)
    (hl : ∀ c ∈ l, isDecimal c = true) :
    atoi (d :: l) = some ((digitsValue (d :: l) : Nat) : Int) := by
  have hs := decimal_ne_sign d hd
  have e1 : (some d = some '-') = False := by simp [hs.2]
  have e2 : (some d = some '+') = False := by simp [hs.1]
  have hall : (d :: l).all isDecimal = true := by
    rw [List.all_eq_true]
    intro x hx
    rcases List.mem_cons.1 hx with rfl | hx
    · exact hd
    · exact hl x hx
  simp only [atoi, List.head?_cons, e1, e2, or_self, if_false, hall, if_true, decide_False]

theorem parseYear_decimal (y : Nat) (hy : y ≤ 9999) (rest : List Char) :
    parseYear (decimal 4 y ++ rest) = some ((y : Int), rest) := by
  have h1 := isDecimal_digitChar (y / 10 / 10 / 10 % 10) (Nat.mod_lt _ (by decide))
  have h2 := isDecimal_digitChar (y / 10 / 10 % 10) (Nat.mod_lt _ (by decide))
  have h3 := isDecimal_digitChar (y / 10 % 10) (Nat.mod_lt _ (by decide))
  have h4 := isDecimal_digitChar (y % 10) (Nat.mod_lt _ (by decide))
  have hat := atoi_digits [Nat.digitChar (y / 10 / 10 % 10), Nat.digitChar (y / 10 % 10),
    Nat.digitChar (y % 10)] (Nat.digitChar (y / 10 / 10 / 10 % 10)) h1
    (by intro c hc; simp at hc; rcases hc with rfl | rfl | rfl <;> assumption)
  have hval : digitsValue [Nat.digitChar (y / 10 / 10 / 10 % 10),
      Nat.digitChar (y / 10 / 10 % 10), Nat.digitChar (y / 10 % 10), Nat.digitChar (y % 10)]
      = y := by
    simp only [digitsValue, List.foldl_cons, List.foldl_nil,
      digitValue_digitChar _ (Nat.mod_lt _ (show 0 < 10 by decide))]
    omega
  rw [hval] at hat
  rw [decimal_four]
  simp only [parseYear, List.cons_append, List.nil_append, List.length_cons, List.head?_cons,
    Option.map_some', Option.getD_some, h1, List.take_succ_cons, List.take_zero,
    List.drop_succ_cons, List.drop_zero, hat]
  simp

theorem parseMillis_decimal (ms : Nat) (hms : ms ≤ 999) (rest : List Char) :
    parseMillis ('.' :: (decimal 3 ms ++ rest)) = some ((ms : Int), rest) := by
  have h1 := isDecimal_digitChar (ms / 10 / 10 % 10) (Nat.mod_lt _ (by decide))
  have h2 := isDecimal_digitChar (ms / 10 % 10) (Nat.mod_lt _ (by decide))
  have h3 := isDecimal_digitChar (ms % 10) (Nat.mod_lt _ (by decide))
  have hat := atoi_digits [Nat.digitChar (ms / 10 % 10), Nat.digitChar (ms % 10)]
    (Nat.digitChar (ms / 10 / 10 % 10)) h1
    (by intro c hc; simp at hc; rcases hc with rfl | rfl <;> assumption)
  have hval : digitsValue [Nat.digitChar (ms / 10 / 10 % 10), Nat.digitChar (ms / 10 % 10),
      Nat.digitChar (ms % 10)] = ms := by
    simp only [digitsValue, List.foldl_cons, List.foldl_nil,
      digitValue_digitChar _ (Nat.mod_lt _ (show 0 < 10 by decide))]
    omega
  rw [hval] at hat
  rw [decimal_three]
  simp only [parseMillis, List.cons_append, List.nil_append, List.length_cons, List.head?_cons,
    List.take_succ_cons, List.take_zero, List.drop_succ_cons, List.drop_zero, hat]
  simp

theorem parseLayout_stamp (y m d hh mm ss ms : Nat) (hy : y ≤ 9999) (hms : ms ≤ 999)
    (hv : ValidCivil y m d hh mm ss) :
    parseLayout (stamp y m d hh mm ss ms).data =
      some ⟨(Date y m d hh mm ss).unixNano + (ms : Int) * 1000000⟩ := by
  obtain ⟨hm1, hm2, hd1, hd2, hh1, hh2, hmi1, hmi2, hs1, hs2⟩ := hv
  have hd3 : (d : Int) ≤ 31 := by
    have : daysInMonth y m ≤ 31 := by
      unfold daysInMonth; split_ifs <;> omega
    omega
  have e1 : parseDate (stamp y m d hh mm ss ms).data = some (((y : Int), (m : Int), (d : Int)),
      'T' :: (decimal 2 hh ++ (':' :: (decimal 2 mm ++ (':' :: (decimal 2 ss ++ ('.' ::
        (decimal 3 ms ++ ['Z'])))))))) := by
    simp only [stamp, parseDate, parseYear_decimal y hy,
      parseField_decimal '-' m (by omega), parseField_decimal '-' d (by omega)]
    rw [if_neg (by omega)]
  have e2 : parseClock ('T' :: (decimal 2 hh ++ (':' :: (decimal 2 mm ++ (':' ::
      (decimal 2 ss ++ ('.' :: (decimal 3 ms ++ ['Z'])))))))) =
      some (((hh : Int), (mm : Int), (ss : Int)), '.' :: (decimal 3 ms ++ ['Z'])) := by
    simp only [parseClock, parseField_decimal 'T' hh (by omega),
      parseField_decimal ':' mm (by omega), parseField_decimal ':' ss (by omega)]
    rw [if_neg (by omega), if_neg (by omega), if_neg (by omega)]
  simp only [parseLayout, e1, e2, parseMillis_decimal ms hms]
  rw [if_neg (by simp), if_neg (by omega)]

theorem digitChar_ofNat : ∀ k, k < 58 → 48 ≤ k → Nat.digitChar (k - 48) = Char.ofNat k := by
  decide

theorem isDecimal_char (c : Char) (h : isDecimal c = true) :
    digitValue c < 10 ∧ Nat.digitChar (digitValue c) = c := by
  have hb := isDecimal_bounds c h
  have hv : digitValue c = c.toNat - 48 := rfl
  refine ⟨by omega, ?_⟩
  rw [hv, digitChar_ofNat c.toNat (by omega) hb.1]
  exact Char.ofNat_toNat c

theorem getnum_fixed_inv (s r : List Char) (n : Int) (h : getnum s true = some (n, r)) :
    ∃ k : Nat, k < 100 ∧ n = k ∧ s = decimal 2 k ++ r := by
  match s, h with
  | [], h => simp [getnum] at h
  | [a], h =>
    by_cases ha : isDecimal a = true <;> simp [getnum, ha] at h
  | a :: b :: rest, h =>
    by_cases ha : isDecimal a = true
    · by_cases hb : isDecimal b = true
      · simp [getnum, ha, hb] at h
        obtain ⟨ha1, ha2⟩ := isDecimal_char a ha
        obtain ⟨hb1, hb2⟩ := isDecimal_char b hb
        refine ⟨digitValue a * 10 + digitValue b, by omega, ?_, ?_⟩
        · rw [← h.1]; push_cast; rfl
        · rw [decimal_two, ← h.2]
          have e1 : (digitValue a * 10 + digitValue b) / 10 % 10 = digitValue a := by omega
          have e2 : (digitValue a * 10 + digitValue b) % 10 = digitValue b := by omega
          rw [e1, e2, ha2, hb2]
          rfl
      · simp [getnum, ha, hb] at h
    · simp [getnum, ha] at h

theorem getnum_free_inv (s r : List Char) (n : Int) (h : getnum s false = some (n, r)) :
    ∃ k : Nat, n = k ∧ ((k < 100 ∧ s = decimal 2 k ++ r) ∨ (k < 10 ∧ s = decimal 1 k ++ r)) := by
  match s, h with
  | [], h => simp [getnum] at h
  | [a], h =>
    by_cases ha : isDecimal a = true
    · simp [getnum, ha] at h
      obtain ⟨ha1, ha2⟩ := isDecimal_char a ha
      refine ⟨digitValue a, h.1.symm, Or.inr ⟨ha1, ?_⟩⟩
      rw [← h.2]
      simp [decimal, Nat.mod_eq_of_lt ha1, ha2]
    · simp [getnum, ha] at h
  | a :: b :: rest, h =>
    by_cases ha : isDecimal a = true
    · obtain ⟨ha1, ha2⟩ := isDecimal_char a ha
      by_cases hb : isDecimal b = true
      · simp [getnum, ha, hb] at h
        obtain ⟨hb1, hb2⟩ := isDecimal_char b hb
        refine ⟨digitValue a * 10 + digitValue b, ?_, Or.inl ⟨by omega, ?_⟩⟩
        · rw [← h.1]; push_cast; rfl
        · rw [decimal_two, ← h.2]
          have e1 : (digitValue a * 10 + digitValue b) / 10 % 10 = digitValue a := by omega
          have e2 : (digitValue a * 10 + digitValue b) % 10 = digitValue b := by omega
          rw [e1, e2, ha2, hb2]
          rfl
      · simp [getnum, ha, hb] at h
        refine ⟨digitValue a, h.1.symm, Or.inr ⟨ha1, ?_⟩⟩
        rw [← h.2]
        simp [decimal, Nat.mod_eq_of_lt ha1, ha2]
    · simp [getnum, ha] at h

theorem skipChar_inv (value rest : List Char) (c : Char) (h : skipChar value c = some rest) :
    value = c :: rest := by
  cases value with
  | nil => simp [skipChar] at h
  | cons a t =>
    by_cases hc : a = c
    · simp [skipChar, hc] at h; rw [hc, h]
    · simp [skipChar, hc] at h

theorem parseField_fixed_inv (value r : List Char) (c : Char) (n : Int)
    (h : parseField value c true = some (n, r)) :
    ∃ k : Nat, k < 100 ∧ n = k ∧ value = c :: (decimal 2 k ++ r) := by
  unfold parseField at h
  cases hs : skipChar value c with
  | none => rw [hs] at h; cases h
  | some rest =>
    rw [hs] at h
    obtain ⟨k, hk, hn, hrest⟩ := getnum_fixed_inv rest r n h
    exact ⟨k, hk, hn, by rw [skipChar_inv value rest c hs, hrest]⟩

theorem parseField_free_inv (value r : List Char) (c : Char) (n : Int)
    (h : parseField value c false = some (n, r)) :
    ∃ k : Nat, n = k ∧ ((k < 100 ∧ value = c :: (decimal 2 k ++ r)) ∨
      (k < 10 ∧ value = c :: (decimal 1 k ++ r))) := by
  unfold parseField at h
  cases hs : skipChar value c with
  | none => rw [hs] at h; cases h
  | some rest =>
    rw [hs] at h
    obtain ⟨k, hn, hrest⟩ := getnum_free_inv rest r n h
    refine ⟨k, hn, ?_⟩
    rcases hrest with ⟨hk, hr⟩ | ⟨hk, hr⟩
    · exact Or.inl ⟨hk, by rw [skipChar_inv value rest c hs, hr]⟩
    · exact Or.inr ⟨hk, by rw [skipChar_inv value rest c hs, hr]⟩

theorem atoi_head_decimal (a : Char) (l : List Char) (ha : isDecimal a = true) :
    atoi (a :: l) =
      if (a :: l).all isDecimal then some ((digitsValue (a :: l) : Nat) : Int) else none := by
  have hs := decimal_ne_sign a ha
  have e1 : (some a = some '-') = False := by simp [hs.2]
  have e2 : (some a = some '+') = False := by simp [hs.1]
  simp only [atoi, List.head?_cons, e1, e2, or_self, if_false, decide_False]

theorem parseYear_inv (value r : List Char) (y : Int) (h : parseYear value = some (y, r)) :
    ∃ k : Nat, k ≤ 9999 ∧ y = k ∧ value = decimal 4 k ++ r := by
  match value, h with
  | [], h => simp [parseYear] at h
  | [_], h => simp [parseYear] at h
  | [_, _], h => simp [parseYear] at h
  | [_, _, _], h => simp [parseYear] at h
  | a :: b :: c :: d :: rest, h =>
    by_cases ha : isDecimal a = true
    · simp only [parseYear, List.length_cons, List.head?_cons, Option.map_some',
        Option.getD_some, ha, List.take_succ_cons, List.take_zero, List.drop_succ_cons,
        List.drop_zero, atoi_head_decimal a _ ha] at h
      by_cases hall : ([a, b, c, d].all isDecimal) = true
      · rw [if_neg (by simp)] at h
        rw [hall] at h
        simp only [if_true, Option.some.injEq, Prod.mk.injEq] at h
        simp only [List.all_cons, List.all_nil, Bool.and_true, Bool.and_eq_true] at hall
        obtain ⟨_, hb, hc, hd⟩ := hall
        obtain ⟨ha1, ha2⟩ := isDecimal_char a ha
        obtain ⟨hb1, hb2⟩ := isDecimal_char b hb
        obtain ⟨hc1, hc2⟩ := isDecimal_char c hc
        obtain ⟨hd1, hd2⟩ := isDecimal_char d hd
        have hval : digitsValue [a, b, c, d] =
            ((digitValue a * 10 + digitValue b) * 10 + digitValue c) * 10 + digitValue d := by
          simp [digitsValue]
        refine ⟨digitsValue [a, b, c, d], by omega, h.1.symm, ?_⟩
        rw [decimal_four, ← h.2, hval]
        have e1 : (((digitValue a * 10 + digitValue b) * 10 + digitValue c) * 10 + digitValue d)
            / 10 / 10 / 10 % 10 = digitValue a := by omega
        have e2 : (((digitValue a * 10 + digitValue b) * 10 + digitValue c) * 10 + digitValue d)
            / 10 / 10 % 10 = digitValue b := by omega
        have e3 : (((digitValue a * 10 + digitValue b) * 10 + digitValue c) * 10 + digitValue d)
            / 10 % 10 = digitValue c := by omega
        have e4 : (((digitValue a * 10 + digitValue b) * 10 + digitValue c) * 10 + digitValue d)
            % 10 = digitValue d := by omega
        rw [e1, e2, e3, e4, ha2, hb2, hc2, hd2]
        rfl
      · have hall2 : ([a, b, c, d].all isDecimal) = false := by simpa using hall
        rw [if_neg (by simp)] at h
        rw [hall2] at h
        simp at h
    · simp [parseYear, ha] at h

theorem parseMillis_inv (value r : List Char) (ms : Int)
    (h : parseMillis value = some (ms, r)) :
    ∃ (sep : Char) (frac : List Char), value = sep :: (frac ++ r) ∧ (sep = '.' ∨ sep = ',') ∧
      frac.length = 3 ∧ atoi frac = some ms ∧ 0 ≤ ms := by
  match value, h with
  | [], h => simp [parseMillis] at h
  | [_], h => simp [parseMillis] at h
  | [_, _], h => simp [parseMillis] at h
  | [_, _, _], h => simp [parseMillis] at h
  | sep :: f1 :: f2 :: f3 :: rest, h =>
    simp only [parseMillis, List.length_cons, List.head?_cons, List.take_succ_cons,
      List.take_zero, List.drop_succ_cons, List.drop_zero] at h
    rw [if_neg (by simp)] at h
    by_cases hsep : sep = '.' ∨ sep = ','
    · have e : (some sep = some '.' ∨ some sep = some ',') = True := by simpa using hsep
      simp only [e, decide_True, Bool.not_true, Bool.false_eq_true, if_false] at h
      cases hat : atoi [f1, f2, f3] with
      | none => rw [hat] at h; cases h
      | some ns =>
        rw [hat] at h
        by_cases hneg : ns < 0
        · simp [hneg] at h
        · simp only [hneg, if_false, Option.some.injEq, Prod.mk.injEq] at h
          refine ⟨sep, [f1, f2, f3], ?_, hsep, rfl, ?_, ?_⟩
          · rw [← h.2]; rfl
          · rw [hat, h.1]
          · omega
    · have e : (some sep = some '.' ∨ some sep = some ',') = False := by simpa using hsep
      simp only [e, decide_False, Bool.not_false, if_true] at h
      cases h

theorem parseDate_inv (value r : List Char) (y m d : Int)
    (h : parseDate value = some ((y, m, d), r)) :
    ∃ ky km kd : Nat, y = ky ∧ m = km ∧ d = kd ∧ ky ≤ 9999 ∧ 1 ≤ km ∧ km ≤ 12 ∧ kd < 100 ∧
      value = decimal 4 ky ++ ('-' :: (decimal 2 km ++ ('-' :: (decimal 2 kd ++ r)))) := by
  unfold parseDate at h
  cases hy : parseYear value with
  | none => rw [hy] at h; cases h
  | some yr =>
    obtain ⟨year, rest1⟩ := yr
    rw [hy] at h
    simp only at h
    cases hm : parseField rest1 '-' true with
    | none => rw [hm] at h; cases h
    | some mr =>
      obtain ⟨month, rest2⟩ := mr
      rw [hm] at h
      simp only at h
      by_cases hrange : month ≤ 0 ∨ 12 < month
      · rw [if_pos hrange] at h; cases h
      · rw [if_neg hrange] at h
        cases hd : parseField rest2 '-' true with
        | none => rw [hd] at h; cases h
        | some dr =>
          obtain ⟨day, rest3⟩ := dr
          rw [hd] at h
          simp only [Option.some.injEq, Prod.mk.injEq] at h
          obtain ⟨⟨h1, h2, h3⟩, h4⟩ := h
          obtain ⟨ky, hky, hy1, hy2⟩ := parseYear_inv value rest1 year hy
          obtain ⟨km, hkm, hm1, hm2⟩ := parseField_fixed_inv rest1 rest2 '-' month hm
          obtain ⟨kd, hkd, hd1, hd2⟩ := parseField_fixed_inv rest2 rest3 '-' day hd
          refine ⟨ky, km, kd, by rw [← h1, hy1], by rw [← h2, hm1], by rw [← h3, hd1], hky,
            by omega, by omega, hkd, ?_⟩
          rw [hy2, hm2, hd2, h4]

theorem parseClock_inv (value r : List Char) (hh mm ss : Int)
    (h : parseClock value = some ((hh, mm, ss), r)) :
    ∃ (kh km ks : Nat) (hourText : List Char), hh = kh ∧ mm = km ∧ ss = ks ∧
      kh ≤ 23 ∧ km ≤ 59 ∧ ks ≤ 59 ∧
      (hourText = decimal 2 kh ∨ (kh < 10 ∧ hourText = decimal 1 kh)) ∧
      value = 'T' :: (hourText ++ (':' :: (decimal 2 km ++ (':' :: (decimal 2 ks ++ r))))) := by
  unfold parseClock at h
  cases hh0 : parseField value 'T' false with
  | none => rw [hh0] at h; cases h
  | some hr =>
    obtain ⟨hour, rest1⟩ := hr
    rw [hh0] at h
    simp only at h
    by_cases hrange1 : hour < 0 ∨ 24 ≤ hour
    · rw [if_pos hrange1] at h; cases h
    · rw [if_neg hrange1] at h
      cases hm0 : parseField rest1 ':' true with
      | none => rw [hm0] at h; cases h
      | some mr =>
        obtain ⟨min, rest2⟩ := mr
        rw [hm0] at h
        simp only at h
        by_cases hrange2 : min < 0 ∨ 60 ≤ min
        · rw [if_pos hrange2] at h; cases h
        · rw [if_neg hrange2] at h
          cases hs0 : parseField rest2 ':' true with
          | none => rw [hs0] at h; cases h
          | some sr =>
            obtain ⟨sec, rest3⟩ := sr
            rw [hs0] at h
            simp only at h
            by_cases hrange3 : sec < 0 ∨ 60 ≤ sec
            · rw [if_pos hrange3] at h; cases h
            · rw [if_neg hrange3] at h
              simp only [Option.some.injEq, Prod.mk.injEq] at h
              obtain ⟨⟨h1, h2, h3⟩, h4⟩ := h
              obtain ⟨kh, hh1, hh2⟩ := parseField_free_inv value rest1 'T' hour hh0
              obtain ⟨km, _, hm1, hm2⟩ := parseField_fixed_inv rest1 rest2 ':' min hm0
              obtain ⟨ks, _, hs1, hs2⟩ := parseField_fixed_inv rest2 rest3 ':' sec hs0
              rcases hh2 with ⟨_, hv⟩ | ⟨hlt, hv⟩
              · refine ⟨kh, km, ks, decimal 2 kh, by rw [← h1, hh1], by rw [← h2, hm1],
                  by rw [← h3, hs1], by omega, by omega, by omega, Or.inl rfl, ?_⟩
                rw [hv, hm2, hs2, h4]
              · refine ⟨kh, km, ks, decimal 1 kh, by rw [← h1, hh1], by rw [← h2, hm1],
                  by rw [← h3, hs1], by omega, by omega, by omega, Or.inr ⟨hlt, rfl⟩, ?_⟩
                rw [hv, hm2, hs2, h4]

theorem parseLayout_inv (value : List Char) (t : Time) (h : parseLayout value = some t) :
    ∃ (y m d hh mm ss : Nat) (ms : Int), lenientStamp value y m d hh mm ss ms ∧ y ≤ 9999 ∧
      ValidCivil y m d hh mm ss ∧
      t = ⟨(Date y m d hh mm ss).unixNano + ms * 1000000⟩ := by
  unfold parseLayout at h
  cases hd : parseDate value with
  | none => rw [hd] at h; cases h
  | some dr =>
    obtain ⟨⟨year, month, day⟩, rest1⟩ := dr
    rw [hd] at h
    simp only at h
    cases hc : parseClock rest1 with
    | none => rw [hc] at h; cases h
    | some cr =>
      obtain ⟨⟨hour, min, sec⟩, rest2⟩ := cr
      rw [hc] at h
      simp only at h
      cases hm : parseMillis rest2 with
      | none => rw [hm] at h; cases h
      | some mr =>
        obtain ⟨ms, rest3⟩ := mr
        rw [hm] at h
        simp only at h
        by_cases hz : rest3 ≠ ['Z']
        · rw [if_pos hz] at h; cases h
        · rw [if_neg hz] at h
          by_cases hday : day < 1 ∨ day > daysInMonth year month
          · rw [if_pos hday] at h; cases h
          · rw [if_neg hday] at h
            have hz1 : rest3 = ['Z'] := by simpa using hz
            obtain ⟨ky, km, kd, hy1, hm1, hd1, hky, hkm1, hkm2, _, hv1⟩ :=
              parseDate_inv value rest1 year month day hd
            obtain ⟨kh, kmi, ks, hourText, hh1, hmi1, hs1, hkh, hkmi, hks, hht, hv2⟩ :=
              parseClock_inv rest1 rest2 hour min sec hc
            obtain ⟨sep, frac, hv3, hsep, hlen, hat, hpos⟩ := parseMillis_inv rest2 rest3 ms hm
            subst hy1 hm1 hd1 hh1 hmi1 hs1
            refine ⟨ky, km, kd, kh, kmi, ks, ms, ⟨hourText, sep, frac, ?_, hht, hsep, hlen, hat,
              hpos⟩, hky, ?_, ?_⟩
            · rw [hv1, hv2, hv3, hz1]
            · unfold ValidCivil
              refine ⟨by omega, by omega, by omega, by omega, by omega, by omega, by omega,
                by omega, by omega, by omega⟩
            · simp only [Option.some.injEq] at h
              exact h.symm

theorem setGameField_raw (f : String) (s s1 : gameJSON) (v : JSON)
    (h : setGameField f s v = .ok s1) :
    (f = "rawStartDateTime" → decodeString s.RawStartDateTime v = .ok s1.RawStartDateTime) ∧
      (f ≠ "rawStartDateTime" → s1.RawStartDateTime = s.RawStartDateTime) := by
  unfold setGameField at h
  split_ifs at h with h1 h2 h3 h4 h5 h6 h7
  · cases hd : decodeString s.UUID v with
    | error e => rw [hd] at h; cases h
    | ok y => rw [hd] at h; cases h; subst h1; simp
  · cases hd : decodeString s.RawStartDateTime v with
    | error e => rw [hd] at h; cases h
    | ok y => rw [hd] at h; cases h; subst h2; simp
  · cases hd : decodeString s.State v with
    | error e => rw [hd] at h; cases h
    | ok y => rw [hd] at h; cases h; subst h3; simp
  · cases hd : decodeTeamPtr s.HomeTeam v with
    | error e => rw [hd] at h; cases h
    | ok y => rw [hd] at h; cases h; subst h4; simp
  · cases hd : decodeTeamPtr s.AwayTeam v with
    | error e => rw [hd] at h; cases h
    | ok y => rw [hd] at h; cases h; subst h5; simp
  · cases hd : decodeTeamPtr s.HomeTeamInfo v with
    | error e => rw [hd] at h; cases h
    | ok y => rw [hd] at h; cases h; subst h6; simp
  · cases hd : decodeTeamPtr s.AwayTeamInfo v with
    | error e => rw [hd] at h; cases h
    | ok y => rw [hd] at h; cases h; subst h7; simp
  · cases hd : decodeVenueInfo s.VenueInfo v with
    | error e => rw [hd] at h; cases h
    | ok y =>
      rw [hd] at h; cases h
      exact ⟨fun hf => absurd hf h2, fun _ => rfl⟩

theorem decimal_length (width n : Nat) : (decimal width n).length = width := by
  induction width generalizing n with
  | zero => rfl
  | succ w ih => simp [decimal, ih]

theorem stamp_length (y m d hh mm ss ms : Nat) : (stamp y m d hh mm ss ms).data.length = 24 := by
  simp [stamp, decimal_length]

/-- C18 (amended): for a game object that decodes: when `rawStartDateTime` is
the text `YYYY-MM-DDTHH:MM:SS.sssZ` of an existing civil time, the call
succeeds with `StartTime` that instant in UTC; whenever the call succeeds, the
text is of that form up to a one-digit hour, a comma for the period and a sign
in the fraction (`lenientStamp`), denotes an existing civil time, and
`StartTime` is that instant; when the member is absent or the text is empty the
call returns the parse error; and the text is the string of the one member of
that name. -/
theorem Game_UnmarshalJSON_timestamp (g : Game) (members : List (String × JSON))
    (gj : gameJSON) (hdec : decodeGameJSON zeroGameJSON (.obj members) = .ok gj) :
    (∀ y m d hh mm ss ms : Nat, y ≤ 9999 → ms ≤ 999 → ValidCivil y m d hh mm ss →
      gj.RawStartDateTime = stamp y m d hh mm ss ms →
      ∃ g1, Game.UnmarshalJSON g (.obj members) = .ok g1 ∧
        g1.StartTime = ⟨(Date y m d hh mm ss).unixNano + (ms : Int) * 1000000⟩) ∧
    (∀ g1, Game.UnmarshalJSON g (.obj members) = .ok g1 →
      ∃ (y m d hh mm ss : Nat) (ms : Int),
        lenientStamp gj.RawStartDateTime.data y m d hh mm ss ms ∧ y ≤ 9999 ∧
        ValidCivil y m d hh mm ss ∧
        g1.StartTime = ⟨(Date y m d hh mm ss).unixNano + ms * 1000000⟩) ∧
    (memberValues gameFields "rawStartDateTime" members = [] ∨ gj.RawStartDateTime = "" →
      Game.UnmarshalJSON g (.obj members) = .error timeParseError) ∧
    (∀ raw, memberValues gameFields "rawStartDateTime" members = [.str raw] →
      gj.RawStartDateTime = raw) := by
  have hfold : members.foldlM gameStep zeroGameJSON = .ok gj := hdec
  have hraw := gameStep_field (fun s => s.RawStartDateTime) decodeString "rawStartDateTime"
    (fun f s s1 v h => setGameField_raw f s s1 v h) members zeroGameJSON gj hfold
  refine ⟨?_, ?_, ?_, ?_⟩
  · intro y m d hh mm ss ms hy hms hv hr
    have hp : ParseStartTime gj.RawStartDateTime =
        .ok ⟨(Date y m d hh mm ss).unixNano + (ms : Int) * 1000000⟩ := by
      simp only [ParseStartTime, hr, parseLayout_stamp y m d hh mm ss ms hy hms hv]
    refine ⟨{ UUID := gj.UUID, State := gj.State, Venue := gj.VenueInfo.Name,
              HomeTeam := pickTeam gj.HomeTeamInfo gj.HomeTeam g.HomeTeam,
              AwayTeam := pickTeam gj.AwayTeamInfo gj.AwayTeam g.AwayTeam,
              StartTime := ⟨(Date y m d hh mm ss).unixNano + (ms : Int) * 1000000⟩ }, ?_, rfl⟩
    simp only [Game.UnmarshalJSON, hdec, hp]
  · intro g1 hg
    simp only [Game.UnmarshalJSON, hdec, ParseStartTime] at hg
    cases hp : parseLayout gj.RawStartDateTime.data with
    | none => rw [hp] at hg; cases hg
    | some t =>
      rw [hp] at hg
      obtain ⟨y, m, d, hh, mm, ss, ms, hl, hy, hv, ht⟩ := parseLayout_inv _ t hp
      refine ⟨y, m, d, hh, mm, ss, ms, hl, hy, hv, ?_⟩
      rw [← Except.ok.inj hg, ← ht]
  · intro h
    have hempty : gj.RawStartDateTime = "" := by
      rcases h with h | h
      · rw [h] at hraw
        exact (Except.ok.inj hraw).symm
      · exact h
    simp only [Game.UnmarshalJSON, hdec, hempty]
    rfl
  · intro raw h
    rw [h] at hraw
    exact (Except.ok.inj hraw).symm

/-- C18 (amended) at the timestamp of `TestGameUnmarshal`: the start time is
2025-09-11 17:00:00 UTC. -/
theorem Game_UnmarshalJSON_timestamp_witness :
    ∃ g1, Game.UnmarshalJSON zeroGame (gameAt "2025-09-11T17:00:00.000Z") = .ok g1 ∧
      g1.StartTime = Date 2025 9 11 17 0 0 := by
  obtain ⟨g1, hg, ht⟩ := (Game_UnmarshalJSON_timestamp zeroGame
    [("uuid", .str "aqdidacsop"), ("rawStartDateTime", .str "2025-09-11T17:00:00.000Z")]
    { zeroGameJSON with UUID := "aqdidacsop", RawStartDateTime := "2025-09-11T17:00:00.000Z" }
    rfl).1 2025 9 11 17 0 0 0 (by decide) (by decide) (by decide) (by decide)
  exact ⟨g1, hg, by rw [ht]; decide⟩

/-- C18 as stated fails: the text `2025-09-11T7:00:00,000Z` is not of the
fixed form (one-digit hour, comma), yet the call succeeds with 2025-09-11
07:00:00 UTC; and the text `2025-02-30T17:00:00.000Z` is of the fixed form, yet
the call fails, since the day does not exist. -/
theorem Game_UnmarshalJSON_timestamp_forms :
    (∃ g1, Game.UnmarshalJSON zeroGame (gameAt "2025-09-11T7:00:00,000Z") = .ok g1 ∧
      g1.StartTime = Date 2025 9 11 7 0 0) ∧
    (∀ y m d hh mm ss ms : Nat, stamp y m d hh mm ss ms ≠ "2025-09-11T7:00:00,000Z") ∧
    stamp 2025 2 30 17 0 0 0 = "2025-02-30T17:00:00.000Z" ∧
    Game.UnmarshalJSON zeroGame (gameAt "2025-02-30T17:00:00.000Z") = .error timeParseError := by
  refine ⟨⟨_, rfl, by decide⟩, ?_, by decide, rfl⟩
  intro y m d hh mm ss ms h
  have hl := stamp_length y m d hh mm ss ms
  rw [h] at hl
  revert hl
  decide

/-! ## Event lines, filter, encoding, alarm table, client -/

/-- C22: the event block `formatEvent` renders is, in this order, the lines
`BEGIN:VEVENT`, `UID:` with the UUID and `@ehl.hockeykalender`, `DTSTAMP:`,
`DTSTART:` and `DTEND:` with their times, `SUMMARY:` with the home short name,
` vs ` and the away short name, `LOCATION:` with the venue, the reminder blocks
of the alarms in list order, and `END:VEVENT`, each followed by CRLF. -/
theorem formatEvent_lines (now : Time) (game : Game) (alarms : List Alarm) :
    formatEvent now game alarms =
      concat ((["BEGIN:VEVENT",
          "UID:" ++ game.UUID ++ "@ehl.hockeykalender",
          "DTSTAMP:" ++ now.FormatUTC,
          "DTSTART:" ++ game.StartTime.FormatUTC,
          "DTEND:" ++ (game.StartTime.Add GameDuration).FormatUTC,
          "SUMMARY:" ++ game.HomeTeam.ShortName ++ " vs " ++ game.AwayTeam.ShortName,
          "LOCATION:" ++ game.Venue] ++
        alarms.map (fun alarm =>
          FormatVALARM alarm (game.HomeTeam.ShortName ++ " vs " ++ game.AwayTeam.ShortName)) ++
        ["END:VEVENT"]).map fun line => line ++ "\r\n") := by
  rw [formatEvent_eq]
  apply String.ext
  simp [concat_data, GameDuration, List.flatMap_append, List.flatMap_map, List.flatMap_cons,
    Function.comp_def]

/-- C28: `filterGamesByTeam games name` is the sub-list of `games`, in input
order, of the games `g` for which `g.InvolvesTeam name` is true. -/
theorem filterGamesByTeam_InvolvesTeam (games : List Game) (name : String) :
    filterGamesByTeam games name = games.filter (fun g => g.InvolvesTeam name) ∧
    (∀ g, g ∈ filterGamesByTeam games name ↔ g ∈ games ∧ g.InvolvesTeam name = true) ∧
    (filterGamesByTeam games name).Sublist games := by
  have h : filterGamesByTeam games name = games.filter (fun g => g.InvolvesTeam name) := by
    rw [filterGamesByTeam_eq_filter]
    rfl
  refine ⟨h, ?_, ?_⟩
  · intro g
    rw [h, List.mem_filter]
  · rw [h]
    exact List.filter_sublist _

/-- C29: for every team whose score is in the range of `int`, decoding the JSON
of `t.MarshalJSON` with `Team.UnmarshalJSON`, into any team, succeeds and gives
`t` back, equal in all six fields. -/
theorem Team_MarshalJSON_roundtrip (t receiver : Team) (hscore : inIntRange t.Score = true) :
    Team.UnmarshalJSON receiver t.MarshalJSON = .ok t := by
  have e1 : ("uuid" ∈ teamFields) = True := by decide
  have e2 : ("code" ∈ teamFields) = True := by decide
  have e3 : ("names" ∈ teamFields) = True := by decide
  have e4 : ("score" ∈ teamFields) = True := by decide
  have e5 : ("icon" ∈ teamFields) = True := by decide
  have n1 : ("full" ∈ ["full", "short"]) = True := by decide
  have n2 : ("short" ∈ ["full", "short"]) = True := by decide
  have hnames : decodeTeamNames { Full := "", Short := "" }
      (.obj [("full", .str t.FullName), ("short", .str t.ShortName)]) =
      .ok { Full := t.FullName, Short := t.ShortName } := by
    simp only [decodeTeamNames, decodeObject, List.foldlM_cons, List.foldlM_nil, matchField, n1,
      n2, if_true, decodeString, Except.map, bind, Except.bind, pure, Except.pure]
    simp
  have hdec : decodeTeamJSON zeroTeamJSON t.MarshalJSON =
      .ok { UUID := t.UUID, Code := t.Code, Names := { Full := t.FullName, Short := t.ShortName },
            Score := some (.int t.Score), Icon := t.Icon } := by
    simp only [decodeTeamJSON, Team.MarshalJSON, decodeObject, List.foldlM_cons,
      List.foldlM_nil, matchField, e1, e2, e3, e4, e5, if_true, setTeamField, decodeString,
      zeroTeamJSON, Except.map, bind, Except.bind, pure, Except.pure, hnames]
    simp [hnames]
  simp only [Team.UnmarshalJSON, hdec, decodeScore, decodeInt, hscore, if_true]

/-- C29 on a team with all six fields set. -/
theorem Team_MarshalJSON_roundtrip_witness :
    inIntRange scoredTeam.Score = true ∧
    Team.UnmarshalJSON zeroTeam scoredTeam.MarshalJSON = .ok scoredTeam :=
  ⟨by decide, Team_MarshalJSON_roundtrip scoredTeam zeroTeam (by decide)⟩

/-- C26: the attribute table of the four alarms, that is trigger, suffix,
duration and description for every match summary `m`; and for each of the four
the trigger and the suffix denote the offset `Duration` returns. -/
theorem alarm_attribute_table (m : String) :
    (Alarm.Trigger Alarm1Day = "-P1D" ∧ Alarm.Suffix Alarm1Day = "1d" ∧
      Alarm.Duration Alarm1Day = 24 * Hour ∧ Alarm.Description Alarm1Day m = m ++ " i morgen") ∧
    (Alarm.Trigger Alarm3Hours = "-PT3H" ∧ Alarm.Suffix Alarm3Hours = "3h" ∧
      Alarm.Duration Alarm3Hours = 3 * Hour ∧
      Alarm.Description Alarm3Hours m = m ++ " om 3 timer") ∧
    (Alarm.Trigger Alarm1Hour = "-PT1H" ∧ Alarm.Suffix Alarm1Hour = "1h" ∧
      Alarm.Duration Alarm1Hour = 1 * Hour ∧
      Alarm.Description Alarm1Hour m = m ++ " om 1 time") ∧
    (Alarm.Trigger Alarm15Min = "-PT15M" ∧ Alarm.Suffix Alarm15Min = "15m" ∧
      Alarm.Duration Alarm15Min = 15 * Minute ∧
      Alarm.Description Alarm15Min m = m ++ " om 15 minutter") ∧
    (∀ a ∈ AllAlarms, triggerOffset (Alarm.Trigger a) = some (Alarm.Duration a) ∧
      suffixOffset (Alarm.Suffix a) = some (Alarm.Duration a)) ∧
    Hour = 3600 * 1000000000 ∧ Minute = 60 * 1000000000 := by
  refine ⟨⟨by decide, by decide, by decide, ?_⟩, ⟨by decide, by decide, by decide, ?_⟩,
    ⟨by decide, by decide, by decide, ?_⟩, ⟨by decide, by decide, by decide, ?_⟩, by decide,
    by decide, by decide⟩
  · simp [Alarm.Description]
  · simp [Alarm.Description, Alarm1Day, Alarm3Hours]
  · simp [Alarm.Description, Alarm1Day, Alarm3Hours, Alarm1Hour]
  · simp [Alarm.Description, Alarm1Day, Alarm3Hours, Alarm1Hour, Alarm15Min]

theorem Filename_cancel_slug (slug : String) (c1 c2 : List Alarm)
    (h : Filename slug c1 = Filename slug c2) : Filename "" c1 = Filename "" c2 := by
  rw [Filename_eq_append slug c1, Filename_eq_append slug c2] at h
  have hd := congrArg String.data h
  simp only [String.data_append] at hd
  exact String.ext (List.append_cancel_left hd)

theorem Filename_injective_on_combinations :
    ∀ c1 ∈ GenerateAlarmCombinations, ∀ c2 ∈ GenerateAlarmCombinations,
      Filename "" c1 = Filename "" c2 → c1 = c2 := by
  decide

/-- C27: `AlarmSetSuffix` is injective on the 16 lists of
`GenerateAlarmCombinations`, which are pairwise different; the 16 suffixes are
pairwise different and only entry 0 has the empty suffix; hence for every slug
the 16 names `Filename slug combo` are pairwise different. -/
theorem AlarmSetSuffix_injective_on_combinations (slug : String) :
    (∀ c1 ∈ GenerateAlarmCombinations, ∀ c2 ∈ GenerateAlarmCombinations,
      AlarmSetSuffix c1 = AlarmSetSuffix c2 → c1 = c2) ∧
    GenerateAlarmCombinations.Nodup ∧
    (GenerateAlarmCombinations.map AlarmSetSuffix).Nodup ∧
    (∀ i, i < 16 → ((GenerateAlarmCombinations.map AlarmSetSuffix)[i]? = some "" ↔ i = 0)) ∧
    (GenerateAlarmCombinations.map (Filename slug)).Nodup ∧
    (GenerateAlarmCombinations.map (Filename slug)).length = 16 := by
  have hnd : GenerateAlarmCombinations.Nodup := by decide
  refine ⟨by decide, hnd, by decide, by decide, ?_, by rw [List.length_map]; decide⟩
  refine List.Nodup.map_on ?_ hnd
  intro c1 h1 c2 h2 h
  exact Filename_injective_on_combinations c1 h1 c2 h2 (Filename_cancel_slug slug c1 c2 h)

theorem FetchSeasons_error_ne (c : Client) (seasons : List Season)
    (h : c.FetchSeasons = (seasons, some (.base "no seasons found"))) : False := by
  unfold Client.FetchSeasons at h
  simp only at h
  split at h
  · simp [Errorf] at h
  · split at h
    · simp only [Prod.mk.injEq, Option.some.injEq, GoError.base.injEq] at h
      have hd := congrArg String.data h.2
      simp at hd
    · split at h
      · simp [Errorf] at h
      · split at h
        · simp [Errorf] at h
        · simp at h

/-- C25: `GetCurrentSeason` returns the first season of the list `FetchSeasons`
returns, returns the error `no seasons found` exactly when `FetchSeasons`
returns the empty list without an error, and returns an error of `FetchSeasons`
as it is; on the server of `TestGetCurrentSeason` it is the season
`bir2zwf4qa`. -/
theorem GetCurrentSeason_first (c : Client) :
    (∀ first rest, c.FetchSeasons = (first :: rest, none) →
      c.GetCurrentSeason = (first, none)) ∧
    (c.FetchSeasons = ([], none) →
      c.GetCurrentSeason = (zeroSeason, some (.base "no seasons found"))) ∧
    (c.GetCurrentSeason.2 = some (.base "no seasons found") ↔ c.FetchSeasons = ([], none)) ∧
    (∀ seasons err, c.FetchSeasons = (seasons, some err) →
      c.GetCurrentSeason = (zeroSeason, some err)) ∧
    (clientServing testSeasonsResponse).GetCurrentSeason =
      ({ UUID := "bir2zwf4qa", Name := "2025/2026" }, none) := by
  refine ⟨?_, ?_, ?_, ?_, by decide⟩
  · intro first rest h
    simp only [Client.GetCurrentSeason, h]
  · intro h
    simp only [Client.GetCurrentSeason, h]
  · constructor
    · intro h
      unfold Client.GetCurrentSeason at h
      cases hf : c.FetchSeasons with
      | mk seasons e =>
        rw [hf] at h
        cases e with
        | some err =>
          simp only [Option.some.injEq] at h
          rw [h] at hf
          exact absurd hf (fun hf => FetchSeasons_error_ne c seasons hf)
        | none =>
          cases seasons with
          | nil => rfl
          | cons first rest => simp at h
    · intro h
      simp only [Client.GetCurrentSeason, h]
  · intro seasons err h
    simp only [Client.GetCurrentSeason, h]

/-! ## Bytes written and failing writes -/

theorem planFrom_nil (clocks : Nat → Nat → Time) (games : List Game) (seasonName : String)
    (n : Nat) : planFrom clocks games seasonName n [] = [] := rfl

theorem planFrom_cons (clocks : Nat → Nat → Time) (games : List Game) (seasonName : String)
    (n : Nat) (job : String × String × List Alarm) (jobs : List (String × String × List Alarm)) :
    planFrom clocks games seasonName n (job :: jobs) =
      (Filename job.2.1 job.2.2, GenerateCalendar (clocks n) games job.1 job.2.2 seasonName) ::
        planFrom clocks games seasonName (n + 1) jobs := rfl

theorem planFrom_length (clocks : Nat → Nat → Time) (games : List Game) (seasonName : String)
    (n : Nat) (jobs : List (String × String × List Alarm)) :
    (planFrom clocks games seasonName n jobs).length = jobs.length := by
  simp [planFrom]

theorem planFrom_append (clocks : Nat → Nat → Time) (games : List Game) (seasonName : String)
    (jobs1 jobs2 : List (String × String × List Alarm)) :
    ∀ n, planFrom clocks games seasonName n (jobs1 ++ jobs2) =
      planFrom clocks games seasonName n jobs1 ++
        planFrom clocks games seasonName (n + jobs1.length) jobs2 := by
  induction jobs1 with
  | nil => intro n; simp [planFrom_nil]
  | cons job rest ih =>
    intro n
    rw [List.cons_append, planFrom_cons, planFrom_cons, ih (n + 1), List.cons_append,
      List.length_cons]
    congr 3
    omega

theorem writeCombos_eq_runPlan (fs : FileSystem) (clocks : Nat → Nat → Time) (dir : String)
    (games : List Game) (seasonName teamFilter slug : String) (combos : List (List Alarm)) :
    ∀ st : RunState,
      writeCombos fs clocks dir games seasonName teamFilter slug combos st =
        runPlan fs dir
          (planFrom clocks games seasonName st.written.length
            (combos.map fun alarms => (teamFilter, slug, alarms))) st := by
  induction combos with
  | nil => intro st; rfl
  | cons alarms rest ih =>
    intro st
    rw [writeCombos, List.map_cons, planFrom_cons, runPlan]
    simp only
    cases hwc : WriteCalendar fs st.written dir (Filename slug alarms)
        (GenerateCalendar (clocks st.written.length) games teamFilter alarms seasonName) with
    | some err => rfl
    | none =>
      simp only
      rw [ih]
      simp

theorem runPlan_append (fs : FileSystem) (dir : String) (p1 p2 : List (String × String)) :
    ∀ st : RunState,
      runPlan fs dir (p1 ++ p2) st =
        match runPlan fs dir p1 st with
        | (st1, some err) => (st1, some err)
        | (st1, none) => runPlan fs dir p2 st1 := by
  induction p1 with
  | nil => intro st; rfl
  | cons fc rest ih =>
    intro st
    obtain ⟨filename, content⟩ := fc
    rw [List.cons_append, runPlan, runPlan]
    cases hwc : WriteCalendar fs st.written dir filename content with
    | some err => rfl
    | none => simp only; rw [ih]

theorem runPlan_written (fs : FileSystem) (dir : String) (p : List (String × String)) :
    ∀ st st1 : RunState, runPlan fs dir p st = (st1, none) → st1.written = st.written ++ p := by
  induction p with
  | nil =>
    intro st st1 h
    simp only [runPlan, Prod.mk.injEq] at h
    rw [← h.1]; simp
  | cons fc rest ih =>
    intro st st1 h
    obtain ⟨filename, content⟩ := fc
    rw [runPlan] at h
    cases hwc : WriteCalendar fs st.written dir filename content with
    | some err => rw [hwc] at h; simp at h
    | none =>
      rw [hwc] at h
      simp only at h
      rw [ih _ _ h]
      simp

theorem writeTeams_eq_runPlan (u : UnicodeData) (fs : FileSystem) (clocks : Nat → Nat → Time)
    (dir : String) (games : List Game) (seasonName : String) (combos : List (List Alarm))
    (teams : List Team) :
    ∀ st : RunState,
      writeTeams u fs clocks dir games seasonName combos teams st =
        runPlan fs dir
          (planFrom clocks games seasonName st.written.length
            (teams.flatMap fun team =>
              combos.map fun alarms => (team.ShortName, team.Slug u, alarms))) st := by
  induction teams with
  | nil => intro st; rfl
  | cons team rest ih =>
    intro st
    rw [writeTeams, List.flatMap_cons, planFrom_append, runPlan_append,
      writeCombos_eq_runPlan]
    cases hr : runPlan fs dir (planFrom clocks games seasonName st.written.length
        (combos.map fun alarms => (team.ShortName, team.Slug u, alarms))) st with
    | mk st1 e =>
      cases e with
      | some err => rfl
      | none =>
        simp only
        rw [ih st1, runPlan_written fs dir _ st st1 hr]
        simp [planFrom_length]

theorem GenerateAllCalendars_eq_runPlan (u : UnicodeData) (fs : FileSystem)
    (clocks : Nat → Nat → Time) (dir : String) (games : List Game) (teams : List Team)
    (seasonName : String) (hmk : fs.MkdirAll dir = none) :
    GenerateAllCalendars u fs clocks dir games teams seasonName =
      runPlan fs dir (allWrites u clocks games teams seasonName)
        { stats := { FilesWritten := 0, TotalBytes := 0 }, written := [] } := by
  unfold GenerateAllCalendars allWrites allJobs
  simp only [hmk]
  rw [planFrom_append, runPlan_append, writeTeams_eq_runPlan]
  simp only [List.length_nil]
  cases hr : runPlan fs dir (planFrom clocks games seasonName 0
      (teams.flatMap fun team =>
        GenerateAlarmCombinations.map fun alarms => (team.ShortName, team.Slug u, alarms)))
      { stats := { FilesWritten := 0, TotalBytes := 0 }, written := [] } with
  | mk st1 e =>
    cases e with
    | some err => rfl
    | none =>
      simp only
      rw [writeCombos_eq_runPlan, runPlan_written fs dir _ _ st1 hr]
      simp [planFrom_length]

theorem contentBytes_append (a b : List (String × String)) :
    contentBytes (a ++ b) = contentBytes a + contentBytes b := by
  simp [contentBytes]

theorem runPlan_outcome (fs : FileSystem) (dir : String) (p : List (String × String)) :
    ∀ (st : RunState) (i : Nat),
      (∀ j f c, j < i → p[j]? = some (f, c) →
        WriteCalendar fs (st.written ++ p.take j) dir f c = none) →
      ((p.length ≤ i →
          runPlan fs dir p st =
            ({ stats := { FilesWritten := st.stats.FilesWritten + p.length,
                          TotalBytes := st.stats.TotalBytes + contentBytes p },
               written := st.written ++ p }, none)) ∧
        (∀ f c err, p[i]? = some (f, c) →
          WriteCalendar fs (st.written ++ p.take i) dir f c = some err →
          runPlan fs dir p st =
            ({ stats := { FilesWritten := st.stats.FilesWritten + i,
                          TotalBytes := st.stats.TotalBytes + contentBytes (p.take i) },
               written := st.written ++ p.take i },
              some (Errorf ("failed to write " ++ f ++ ": ") err)))) := by
  induction p with
  | nil =>
    intro st i _
    refine ⟨fun _ => ?_, fun f c err h => by simp at h⟩
    simp [runPlan, contentBytes]
  | cons fc rest ih =>
    intro st i hbefore
    obtain ⟨filename, content⟩ := fc
    cases i with
    | zero =>
      refine ⟨fun h => by simp at h, ?_⟩
      intro f c err hget hfail
      simp only [List.getElem?_cons_zero, Option.some.injEq, Prod.mk.injEq] at hget
      obtain ⟨rfl, rfl⟩ := hget
      simp only [List.take_zero, List.append_nil] at hfail
      rw [runPlan, hfail]
      simp [contentBytes]
    | succ i =>
      have h0 : WriteCalendar fs st.written dir filename content = none := by
        have := hbefore 0 filename content (by omega) (by simp)
        simpa using this
      have hrest := ih
        { stats := { FilesWritten := st.stats.FilesWritten + 1,
                     TotalBytes := st.stats.TotalBytes + content.utf8ByteSize },
          written := st.written ++ [(filename, content)] } i
        (by
          intro j f c hj hget
          have := hbefore (j + 1) f c (by omega) (by simpa using hget)
          simpa using this)
      rw [runPlan, h0]
      simp only
      refine ⟨?_, ?_⟩
      · intro hlen
        rw [hrest.1 (by simpa using hlen)]
        simp [contentBytes, Nat.add_assoc, Nat.add_comm 1]
      · intro f c err hget hfail
        rw [hrest.2 f c err (by simpa using hget) (by simpa using hfail)]
        simp [contentBytes, Nat.add_assoc, Nat.add_comm 1]

theorem allJobs_length (u : UnicodeData) (teams : List Team) :
    (allJobs u teams).length = (teams.length + 1) * 16 := by
  have h16 : GenerateAlarmCombinations.length = 16 := by decide
  unfold allJobs
  rw [List.length_append, length_flatMap_const _ 16 _ (by intro x; rw [List.length_map, h16]),
    List.length_map, h16]
  ring

theorem allWrites_names (u : UnicodeData) (clocks : Nat → Nat → Time) (games : List Game)
    (teams : List Team) (seasonName : String) :
    (allWrites u clocks games teams seasonName).map Prod.fst = allFilenames u teams := by
  have key : ∀ (jobs : List (String × String × List Alarm)) (n : Nat),
      (planFrom clocks games seasonName n jobs).map Prod.fst =
        jobs.map fun job => Filename job.2.1 job.2.2 := by
    intro jobs
    induction jobs with
    | nil => intro n; rfl
    | cons job rest ih => intro n; rw [planFrom_cons, List.map_cons, ih, List.map_cons]
  unfold allWrites allJobs allFilenames
  rw [key]
  simp [List.map_flatMap, Function.comp_def]

/-- C23: when the output directory can be created and none of the writes of the
run fails, `GenerateAllCalendars` returns no error, has written exactly the
`(T+1)*16` documents of `allWrites`, under the names of `allFilenames`, and its
`TotalBytes` is the sum of the byte lengths of these documents, each counted
once per write. -/
theorem GenerateAllCalendars_total_bytes (u : UnicodeData) (fs : FileSystem)
    (clocks : Nat → Nat → Time) (dir : String) (games : List Game) (teams : List Team)
    (seasonName : String) (hmk : fs.MkdirAll dir = none)
    (hw : ∀ j f c, (allWrites u clocks games teams seasonName)[j]? = some (f, c) →
      WriteCalendar fs ((allWrites u clocks games teams seasonName).take j) dir f c = none) :
    GenerateAllCalendars u fs clocks dir games teams seasonName =
      ({ stats := { FilesWritten := (teams.length + 1) * 16,
                    TotalBytes := contentBytes (allWrites u clocks games teams seasonName) },
         written := allWrites u clocks games teams seasonName }, none) ∧
    (allWrites u clocks games teams seasonName).length = (teams.length + 1) * 16 ∧
    (allWrites u clocks games teams seasonName).map Prod.fst = allFilenames u teams := by
  have hlen : (allWrites u clocks games teams seasonName).length = (teams.length + 1) * 16 := by
    rw [allWrites, planFrom_length, allJobs_length]
  refine ⟨?_, hlen, allWrites_names u clocks games teams seasonName⟩
  rw [GenerateAllCalendars_eq_runPlan u fs clocks dir games teams seasonName hmk]
  have h := (runPlan_outcome fs dir (allWrites u clocks games teams seasonName)
    { stats := { FilesWritten := 0, TotalBytes := 0 }, written := [] }
    (allWrites u clocks games teams seasonName).length
    (by
      intro j f c _ hget
      simpa using hw j f c hget)).1 (Nat.le_refl _)
  rw [h, hlen]
  simp

/-- C24: when the writes before write number `k` succeed and write `k` fails
with the error `err` (writes counted from 0 in the order of `allWrites`: teams
in list order, combinations in order, league files last), `GenerateAllCalendars`
stops there: the files written are the first `k` writes and no more, the
statistics count these `k` files and their bytes, and the error returned unwraps
to `err` and reads `failed to write `, the failing file name, `: ` and the text
of `err`. -/
theorem GenerateAllCalendars_write_failure (u : UnicodeData) (fs : FileSystem)
    (clocks : Nat → Nat → Time) (dir : String) (games : List Game) (teams : List Team)
    (seasonName : String) (k : Nat) (filename content : String) (err : GoError)
    (hmk : fs.MkdirAll dir = none)
    (hk : (allWrites u clocks games teams seasonName)[k]? = some (filename, content))
    (hbefore : ∀ j f c, j < k →
      (allWrites u clocks games teams seasonName)[j]? = some (f, c) →
      WriteCalendar fs ((allWrites u clocks games teams seasonName).take j) dir f c = none)
    (hfail : WriteCalendar fs ((allWrites u clocks games teams seasonName).take k) dir
      filename content = some err) :
    GenerateAllCalendars u fs clocks dir games teams seasonName =
      ({ stats := { FilesWritten := k,
                    TotalBytes :=
                      contentBytes ((allWrites u clocks games teams seasonName).take k) },
         written := (allWrites u clocks games teams seasonName).take k },
        some (Errorf ("failed to write " ++ filename ++ ": ") err)) ∧
    (Errorf ("failed to write " ++ filename ++ ": ") err).Unwrap = some err ∧
    (Errorf ("failed to write " ++ filename ++ ": ") err).Error =
      "failed to write " ++ filename ++ ": " ++ err.Error ∧
    (allFilenames u teams)[k]? = some filename ∧
    k < (teams.length + 1) * 16 := by
  have hlen : (allWrites u clocks games teams seasonName).length = (teams.length + 1) * 16 := by
    rw [allWrites, planFrom_length, allJobs_length]
  refine ⟨?_, rfl, rfl, ?_, ?_⟩
  · rw [GenerateAllCalendars_eq_runPlan u fs clocks dir games teams seasonName hmk]
    have h := (runPlan_outcome fs dir (allWrites u clocks games teams seasonName)
      { stats := { FilesWritten := 0, TotalBytes := 0 }, written := [] } k
      (by
        intro j f c hj hget
        simpa using hbefore j f c hj hget)).2 filename content err hk (by simpa using hfail)
    rw [h]
    simp
  · rw [← allWrites_names u clocks games teams seasonName, List.getElem?_map, hk]
    rfl
  · rw [← hlen]
    exact (List.getElem?_eq_some_iff.1 hk).1

/-- C23 on two teams and a file system that never fails: 48 files, and the bytes
of the 48 documents. -/
theorem GenerateAllCalendars_total_bytes_witness :
    (GenerateAllCalendars asciiData okFileSystem (fun _ => fixedClock) "public" makeTestGames
      sampleTeams "2025/2026").1.stats =
      { FilesWritten := 48,
        TotalBytes := contentBytes
          (allWrites asciiData (fun _ => fixedClock) makeTestGames sampleTeams "2025/2026") } :=
  congrArg (fun r => r.1.stats)
    (GenerateAllCalendars_total_bytes asciiData okFileSystem (fun _ => fixedClock) "public"
      makeTestGames sampleTeams "2025/2026" rfl (fun _ _ _ _ => rfl)).1

/-- C24 without teams on a file system whose third write fails: two files are
counted and the error names `ehl-3h.ics`. -/
theorem GenerateAllCalendars_write_failure_witness :
    Filename "ehl" [Alarm3Hours] = "ehl-3h.ics" ∧
    (GenerateAllCalendars asciiData (failingFileSystem 2) (fun _ => fixedClock) "public"
      makeTestGames [] "2025/2026").1.stats.FilesWritten = 2 ∧
    (GenerateAllCalendars asciiData (failingFileSystem 2) (fun _ => fixedClock) "public"
      makeTestGames [] "2025/2026").2 =
      some (Errorf ("failed to write " ++ Filename "ehl" [Alarm3Hours] ++ ": ")
        (.base "disk full")) := by
  have hlen : (allWrites asciiData (fun _ => fixedClock) makeTestGames [] "2025/2026").length
      = 16 := by
    rw [allWrites, planFrom_length, allJobs_length]; rfl
  have h := (GenerateAllCalendars_write_failure asciiData (failingFileSystem 2)
    (fun _ => fixedClock) "public" makeTestGames [] "2025/2026" 2 (Filename "ehl" [Alarm3Hours])
    (GenerateCalendar fixedClock makeTestGames "" [Alarm3Hours] "2025/2026") (.base "disk full")
    rfl rfl
    (by
      intro j f c hj _
      simp only [WriteCalendar, failingFileSystem, List.length_map, List.length_take, hlen]
      rw [if_neg (by omega)])
    (by
      simp only [WriteCalendar, failingFileSystem, List.length_map, List.length_take, hlen]
      rfl)).1
  exact ⟨by decide, by rw [h], by rw [h]⟩

/-! ## Counting reminder blocks -/

theorem inertFor_nil (m : List Char) : InertFor m [] := fun _ => rfl

theorem inertFor_append {m a b : List Char} (ha : InertFor m a) (hb : InertFor m b) :
    InertFor m (a ++ b) := by
  intro rest
  rw [List.append_assoc, ha, hb]

theorem countFrom_mismatch (m : List Char) (c : Char) (t : List Char)
    (h : ¬ m <+: c :: t) : countFrom m 0 (c :: t) = countFrom m 0 t := by
  rw [countFrom]
  rw [if_neg]
  rwa [List.isPrefixOf_iff_prefix]

theorem inertFor_of_tails (m a : List Char)
    (h : ∀ t ∈ a.tails, t ≠ [] → ¬ m <+: t ∧ ¬ t <+: m) : InertFor m a := by
  induction a with
  | nil => exact inertFor_nil m
  | cons c a ih =>
    intro rest
    have hc := h (c :: a) (by simp) (by simp)
    rw [List.cons_append, countFrom_mismatch]
    · apply ih
      intro t ht hne
      exact h t (by simp [ht]) hne
    · intro hp
      rcases List.prefix_or_prefix_of_prefix hp (List.prefix_append (c :: a) rest) with h1 | h1
      · exact hc.1 h1
      · exact hc.2 h1

theorem inertFor_of_not_mem (b : Char) (m a : List Char) (h : b ∉ a) :
    InertFor (b :: m) a := by
  induction a with
  | nil => exact inertFor_nil _
  | cons c a ih =>
    intro rest
    have hc : c ≠ b := fun e => h (by simp [e])
    rw [List.cons_append, countFrom_mismatch]
    · exact ih (fun hm => h (List.mem_cons_of_mem _ hm)) rest
    · intro hp
      rw [List.cons_prefix_cons] at hp
      exact hc hp.1.symm

theorem inertFor_field (m f : List Char) (c : Char) (hne : m ≠ []) (hf : ¬ m <:+: f)
    (hc : c ∉ m) : InertFor m (f ++ [c]) := by
  induction f with
  | nil =>
    intro rest
    rw [List.nil_append, List.singleton_append, countFrom_mismatch]
    intro hp
    cases m with
    | nil => exact hne rfl
    | cons x m =>
      rw [List.cons_prefix_cons] at hp
      exact hc (by simp [hp.1])
  | cons x f ih =>
    intro rest
    rw [List.cons_append, List.cons_append, countFrom_mismatch]
    · exact ih (fun h => hf (h.trans (List.infix_cons (List.infix_refl _)))) rest
    · intro hp
      have h2 : (x :: f) ++ [c] <+: (x :: f) ++ [c] ++ rest := List.prefix_append _ _
      simp only [List.cons_append] at h2
      rcases List.prefix_or_prefix_of_prefix hp h2 with h1 | h1
      · have h3 : m <+: (x :: f) ++ [c] := h1
        rw [List.prefix_concat_iff] at h3
        rcases h3 with h3 | h3
        · apply hc; rw [h3]; simp
        · exact hf h3.isInfix
      · apply hc
        exact h1.subset (by simp)

theorem inertFor_field_then (b : Char) (m f : List Char) (c : Char) (l : List Char)
    (hf : ¬ (b :: m) <:+: f) (hc : c ∉ b :: m) (hl : b ∉ l) :
    InertFor (b :: m) (f ++ c :: l) := by
  have h := inertFor_append (inertFor_field (b :: m) f c (by simp) hf hc)
    (inertFor_of_not_mem b m l hl)
  simpa using h

theorem countFrom_drop (m r rest : List Char) :
    countFrom m r.length (r ++ rest) = countFrom m 0 rest := by
  induction r with
  | nil => rfl
  | cons c r ih => simpa [countFrom] using ih

theorem countFrom_marker_append (b : Char) (m rest : List Char) :
    countFrom (b :: m) 0 ((b :: m) ++ rest) = 1 + countFrom (b :: m) 0 rest := by
  have hp : (b :: m).isPrefixOf (b :: (m ++ rest)) = true := by
    rw [List.isPrefixOf_iff_prefix, ← List.cons_append]; exact List.prefix_append _ _
  rw [List.cons_append, countFrom, if_pos hp]
  simp only [List.length_cons, Nat.add_sub_cancel]
  rw [countFrom_drop]

theorem inertFor_flatMap {α : Type} (m : List Char) (F : α → List Char) (l : List α)
    (h : ∀ x ∈ l, InertFor m (F x)) : InertFor m (l.flatMap F) := by
  induction l with
  | nil => exact inertFor_nil m
  | cons x rest ih =>
    rw [List.flatMap_cons]
    exact inertFor_append (h x (by simp)) (ih fun y hy => h y (by simp [hy]))

theorem valarm_cons : valarm = 'B' :: "EGIN:VALARM".data := by decide

theorem inertFor_valarm_FormatUTC (t : Time) : InertFor valarm t.FormatUTC.data := by
  rw [valarm_cons]
  apply inertFor_of_not_mem
  intro h
  have := FormatUTC_chars t _ h
  revert this
  decide

theorem count_alarm_block (a : Alarm) (home away : String)
    (hh : ¬ Contains home "BEGIN:VALARM") (ha : ¬ Contains away "BEGIN:VALARM")
    (rest : List Char) :
    countFrom valarm 0 ((FormatVALARM a (home ++ " vs " ++ away) ++ "\r\n").data ++ rest) =
      1 + countFrom valarm 0 rest := by
  obtain ⟨tail, htail, hd⟩ := Alarm.Description_eq a (home ++ " vs " ++ away)
  have htr := Alarm.Trigger_mem a
  unfold FormatVALARM
  rw [hd]
  have e : ("BEGIN:VALARM\r\nTRIGGER:" ++ a.Trigger ++ "\r\nACTION:DISPLAY\r\nDESCRIPTION:" ++
      (home ++ " vs " ++ away ++ tail) ++ "\r\nEND:VALARM" ++ "\r\n").data ++ rest =
      valarm ++ ((("\r\nTRIGGER:".data ++ (a.Trigger.data ++
          "\r\nACTION:DISPLAY\r\nDESCRIPTION:".data))
        ++ (home.data ++ ' ' :: "vs ".data)
        ++ (away.data ++ (tail ++ "\r\nEND:VALARM\r\n").data)) ++ rest) := by
    simp [valarm]
  rw [e]
  rw [valarm_cons, countFrom_marker_append, ← valarm_cons]
  congr 1
  clear e
  revert rest
  change InertFor valarm _
  rw [valarm_cons]
  have hh1 : ¬ ('B' :: "EGIN:VALARM".data) <:+: home.data := hh
  have ha1 : ¬ ('B' :: "EGIN:VALARM".data) <:+: away.data := ha
  refine inertFor_append (inertFor_append ?_ ?_) ?_
  · apply inertFor_of_not_mem
    simp only [List.mem_cons, List.mem_singleton, List.not_mem_nil, or_false] at htr
    rcases htr with h | h | h | h | h <;> rw [h] <;> decide
  · exact inertFor_field_then _ _ _ _ _ hh1 (by decide) (by decide)
  · simp only [List.mem_cons, List.mem_singleton, List.not_mem_nil, or_false] at htail
    rcases htail with h | h | h | h | h <;> rw [h]
    · exact inertFor_field_then _ _ _ ' ' "i morgen\r\nEND:VALARM\r\n".data ha1 (by decide)
        (by decide)
    · exact inertFor_field_then _ _ _ ' ' "om 3 timer\r\nEND:VALARM\r\n".data ha1 (by decide)
        (by decide)
    · exact inertFor_field_then _ _ _ ' ' "om 1 time\r\nEND:VALARM\r\n".data ha1 (by decide)
        (by decide)
    · exact inertFor_field_then _ _ _ ' ' "om 15 minutter\r\nEND:VALARM\r\n".data ha1
        (by decide) (by decide)
    · exact inertFor_field_then _ _ _ '\r' "\nEND:VALARM\r\n".data ha1 (by decide) (by decide)

theorem count_alarm_blocks (alarms : List Alarm) (home away : String)
    (hh : ¬ Contains home "BEGIN:VALARM") (ha : ¬ Contains away "BEGIN:VALARM")
    (rest : List Char) :
    countFrom valarm 0
        (alarms.flatMap (fun alarm =>
          (FormatVALARM alarm (home ++ " vs " ++ away) ++ "\r\n").data) ++ rest) =
      alarms.length + countFrom valarm 0 rest := by
  induction alarms with
  | nil => simp
  | cons a l ih =>
    rw [List.flatMap_cons, List.append_assoc, count_alarm_block a home away hh ha, ih]
    simp only [List.length_cons]
    omega

theorem append_regroup (v p f e rest : List Char) :
    v ++ (p ++ f ++ e) ++ rest = (v ++ p) ++ (f ++ (e ++ rest)) := by
  simp

theorem count_valarm_formatEvent (now : Time) (game : Game) (alarms : List Alarm)
    (hg : ∀ s ∈ game.Texts, ¬ Contains s "BEGIN:VALARM") (rest : List Char) :
    countFrom valarm 0 ((formatEvent now game alarms).data ++ rest) =
      alarms.length + countFrom valarm 0 rest := by
  have hu : ¬ ('B' :: "EGIN:VALARM".data) <:+: game.UUID.data :=
    hg game.UUID (by simp [Game.Texts])
  have hh := hg game.HomeTeam.ShortName (by simp [Game.Texts])
  have ha := hg game.AwayTeam.ShortName (by simp [Game.Texts])
  have hh1 : ¬ ('B' :: "EGIN:VALARM".data) <:+: game.HomeTeam.ShortName.data := hh
  have ha1 : ¬ ('B' :: "EGIN:VALARM".data) <:+: game.AwayTeam.ShortName.data := ha
  have hv : ¬ ('B' :: "EGIN:VALARM".data) <:+: game.Venue.data :=
    hg game.Venue (by simp [Game.Texts])
  have hhead : InertFor valarm (vevent ++ ("\r\nUID:".data ++
      (game.UUID.data ++ '@' :: "ehl.hockeykalender\r\nDTSTAMP:".data)
      ++ now.FormatUTC.data ++ "\r\nDTSTART:".data ++ game.StartTime.FormatUTC.data
      ++ "\r\nDTEND:".data ++ (game.StartTime.Add (2 * Hour)).FormatUTC.data
      ++ "\r\nSUMMARY:".data ++ (game.HomeTeam.ShortName.data ++ ' ' :: "vs ".data)
      ++ (game.AwayTeam.ShortName.data ++ '\r' :: "\nLOCATION:".data)
      ++ (game.Venue.data ++ '\r' :: "\n".data))) := by
    have hF : ∀ t : Time, InertFor ('B' :: "EGIN:VALARM".data) t.FormatUTC.data := by
      intro t; rw [← valarm_cons]; exact inertFor_valarm_FormatUTC t
    rw [valarm_cons]
    refine inertFor_append ?_ (inertFor_append (inertFor_append (inertFor_append
      (inertFor_append (inertFor_append (inertFor_append (inertFor_append (inertFor_append
      (inertFor_append (inertFor_append ?_ ?_) ?_) ?_) ?_) ?_) ?_) ?_) ?_) ?_) ?_)
    · apply inertFor_of_tails; decide
    · apply inertFor_of_not_mem; decide
    · exact inertFor_field_then _ _ _ _ _ hu (by decide) (by decide)
    · exact hF _
    · apply inertFor_of_not_mem; decide
    · exact hF _
    · apply inertFor_of_not_mem; decide
    · exact hF _
    · apply inertFor_of_not_mem; decide
    · exact inertFor_field_then _ _ _ _ _ hh1 (by decide) (by decide)
    · exact inertFor_field_then _ _ _ _ _ ha1 (by decide) (by decide)
    · exact inertFor_field_then _ _ _ _ _ hv (by decide) (by decide)
  have hend : InertFor valarm "END:VEVENT\r\n".data := by
    rw [valarm_cons]; apply inertFor_of_not_mem; decide
  rw [formatEvent_data, append_regroup, hhead, count_alarm_blocks alarms _ _ hh ha, hend]

theorem count_valarm_eventBlocks (clock : Nat → Time) (alarms : List Alarm) (games : List Game)
    (hg : ∀ g ∈ games, ∀ s ∈ g.Texts, ¬ Contains s "BEGIN:VALARM") (rest : List Char) :
    countFrom valarm 0 ((concat (eventBlocks clock alarms games)).data ++ rest) =
      games.length * alarms.length + countFrom valarm 0 rest := by
  unfold eventBlocks
  rw [concat_data, List.flatMap_map]
  have key : ∀ (l : List (Nat × Game)),
      (∀ kg ∈ l, ∀ s ∈ kg.2.Texts, ¬ Contains s "BEGIN:VALARM") →
      countFrom valarm 0
          (l.flatMap (fun kg => (formatEvent (clock kg.1) kg.2 alarms).data) ++ rest)
        = l.length * alarms.length + countFrom valarm 0 rest := by
    intro l
    induction l with
    | nil => intro _; simp
    | cons kg l ih =>
      intro h
      rw [List.flatMap_cons, List.append_assoc, count_valarm_formatEvent _ _ _ (h kg (by simp)),
        ih (fun x hx => h x (by simp [hx]))]
      simp only [List.length_cons]
      ring
  have := key games.enum (by
    intro kg hkg
    exact hg kg.2 (List.snd_mem_of_mem_enum hkg))
  simpa using this

theorem inertFor_valarm_calendarHeader (teamFilter seasonName : String)
    (hf : ¬ Contains teamFilter "BEGIN:VALARM") (hs : ¬ Contains seasonName "BEGIN:VALARM") :
    InertFor valarm (calendarHeader teamFilter seasonName).data := by
  have hf1 : ¬ ('B' :: "EGIN:VALARM".data) <:+: teamFilter.data := hf
  have hs1 : ¬ ('B' :: "EGIN:VALARM".data) <:+: seasonName.data := hs
  unfold calendarHeader
  rw [valarm_cons]
  by_cases h : teamFilter = ""
  · rw [if_pos h]
    have e : ("BEGIN:VCALENDAR\r\n" ++ "VERSION:2.0\r\n" ++ "PRODID:-//Hockeykalender//EHL//NO\r\n" ++
        "CALSCALE:GREGORIAN\r\n" ++ "METHOD:PUBLISH\r\n" ++
        ("X-WR-CALNAME:EHL " ++ seasonName ++ "\r\n")).data =
        "BEGIN:VCALENDAR\r\nVERSION:2.0\r\nPRODID:-//Hockeykalender//EHL//NO\r\nCALSCALE:GREGORIAN\r\nMETHOD:PUBLISH\r\n".data
          ++ "X-WR-CALNAME:EHL ".data
          ++ (seasonName.data ++ '\r' :: "\n".data) := by simp
    rw [e]
    exact inertFor_append (inertFor_append (inertFor_of_tails _ _ (by decide))
      (inertFor_of_not_mem _ _ _ (by decide)))
      (inertFor_field_then _ _ _ _ _ hs1 (by decide) (by decide))
  · rw [if_neg h]
    have e : ("BEGIN:VCALENDAR\r\n" ++ "VERSION:2.0\r\n" ++ "PRODID:-//Hockeykalender//EHL//NO\r\n" ++
        "CALSCALE:GREGORIAN\r\n" ++ "METHOD:PUBLISH\r\n" ++
        ("X-WR-CALNAME:" ++ teamFilter ++ " - EHL " ++ seasonName ++ "\r\n")).data =
        "BEGIN:VCALENDAR\r\nVERSION:2.0\r\nPRODID:-//Hockeykalender//EHL//NO\r\nCALSCALE:GREGORIAN\r\nMETHOD:PUBLISH\r\n".data
          ++ "X-WR-CALNAME:".data
          ++ (teamFilter.data ++ ' ' :: "- EHL ".data)
          ++ (seasonName.data ++ '\r' :: "\n".data) := by simp
    rw [e]
    exact inertFor_append (inertFor_append (inertFor_append (inertFor_of_tails _ _ (by decide))
      (inertFor_of_not_mem _ _ _ (by decide)))
      (inertFor_field_then _ _ _ _ _ hf1 (by decide) (by decide)))
      (inertFor_field_then _ _ _ _ _ hs1 (by decide) (by decide))

theorem Count_valarm_GenerateCalendar (clock : Nat → Time) (games : List Game)
    (teamFilter : String) (alarms : List Alarm) (seasonName : String)
    (hf : ¬ Contains teamFilter "BEGIN:VALARM") (hs : ¬ Contains seasonName "BEGIN:VALARM")
    (hg : ∀ g ∈ games, ∀ s ∈ g.Texts, ¬ Contains s "BEGIN:VALARM") :
    Count (GenerateCalendar clock games teamFilter alarms seasonName) "BEGIN:VALARM" =
      (if teamFilter = "" then games else gamesOfTeam games teamFilter).length *
        alarms.length := by
  have hne : ¬ "BEGIN:VALARM".data = [] := by decide
  have hsub : ∀ g ∈ (if teamFilter = "" then games else gamesOfTeam games teamFilter),
      ∀ s ∈ g.Texts, ¬ Contains s "BEGIN:VALARM" := by
    intro g hgm
    apply hg
    split at hgm
    · exact hgm
    · exact List.mem_of_mem_filter hgm
  unfold Count
  rw [if_neg hne, GenerateCalendar_eq, gamesOfTeam_eq]
  simp only [String.data_append, List.append_assoc]
  change countFrom valarm 0 _ = _
  rw [inertFor_valarm_calendarHeader teamFilter seasonName hf hs,
    count_valarm_eventBlocks clock alarms _ hsub]
  have : countFrom valarm 0 "END:VCALENDAR\r\n".data = 0 := by decide
  rw [this]
  rfl

/-- C21 (amended): `FormatVALARM` is the five lines `BEGIN:VALARM`, `TRIGGER:`
with the trigger, `ACTION:DISPLAY`, `DESCRIPTION:` with the description and
`END:VALARM`, joined by CRLF; the event block of a game is its head lines, then
one such block with CRLF per alarm of the list, in list order, for the summary
of the game, then `END:VEVENT`; and when `BEGIN:VALARM` occurs in none of the
team filter, the season name and the UUID, short names and venue of the games,
`strings.Count` finds it `G * A` times in a calendar of `G` rendered games and
`A` alarms, so not at all when the alarm list is empty. -/
theorem formatEvent_reminders (clock : Nat → Time) (now : Time) (game : Game)
    (games : List Game) (teamFilter : String) (alarms : List Alarm) (seasonName : String) :
    (∀ (alarm : Alarm) (m : String),
      FormatVALARM alarm m =
        Join ["BEGIN:VALARM", "TRIGGER:" ++ alarm.Trigger, "ACTION:DISPLAY",
          "DESCRIPTION:" ++ alarm.Description m, "END:VALARM"] "\r\n") ∧
    formatEvent now game alarms =
      eventHead now game ++
        concat (alarms.map fun alarm =>
          FormatVALARM alarm (game.HomeTeam.ShortName ++ " vs " ++ game.AwayTeam.ShortName) ++
            "\r\n") ++
        "END:VEVENT\r\n" ∧
    (¬ Contains teamFilter "BEGIN:VALARM" → ¬ Contains seasonName "BEGIN:VALARM" →
      (∀ g ∈ games, ∀ s ∈ g.Texts, ¬ Contains s "BEGIN:VALARM") →
      Count (GenerateCalendar clock games teamFilter alarms seasonName) "BEGIN:VALARM" =
        (if teamFilter = "" then games else gamesOfTeam games teamFilter).length *
          alarms.length) := by
  refine ⟨?_, ?_, Count_valarm_GenerateCalendar clock games teamFilter alarms seasonName⟩
  · intro alarm m
    apply String.ext
    simp [FormatVALARM, Join]
  · rw [formatEvent_eq]
    rfl

/-- C21 (amended) on the three test games with the alarms [1 day, 1 hour]: six
reminder blocks are counted. -/
theorem formatEvent_reminders_witness :
    Count (GenerateCalendar fixedClock makeTestGames "" [Alarm1Day, Alarm1Hour] "2025/2026")
      "BEGIN:VALARM" = 6 :=
  (formatEvent_reminders fixedClock (fixedClock 0) zeroGame makeTestGames ""
    [Alarm1Day, Alarm1Hour] "2025/2026").2.2 (by decide) (by decide) (by decide)

set_option maxRecDepth 100000 in
/-- C21 as stated fails: with the season name `BEGIN:VALARM` and no alarms the
calendar of the three test games holds `BEGIN:VALARM` once, not `3 * 0 = 0`
times. -/
theorem GenerateCalendar_reminder_count_fails :
    Count (GenerateCalendar fixedClock makeTestGames "" [] "BEGIN:VALARM") "BEGIN:VALARM" = 1 ∧
    makeTestGames.length * ([] : List Alarm).length = 0 := by
  decide

end Hockeykalender
